import Mathlib

/-!
# mdibl_cloud_control: a shallow embedding of the command-line tool

The Go program (`cloud_control.go`, `utils/ec2_utils.go`, `utils/file_utils.go`,
`datamodels/ec2_models.go`) is embedded as pure Lean functions.

* A Go `string` is the list of its bytes (`GoString`), each byte a `Nat` below 256.
* Everything the process reads from outside (flags, files, the clock, the operator,
  the EC2 endpoint) is a field of `Env`; everything it does to the outside is an
  `Event` of the trace it returns, together with the process exit status.
* A nil-pointer dereference is a Go run-time panic; functions that can hit one
  return `Option`, with `none` standing for the panic.
* Standard-library functions the program calls (`strings`, `strconv`, `net/url`,
  `unicode/utf8`, `encoding/json`, `time`) are modelled after their documented
  behaviour, each in a definition that carries the Go name.
-/

namespace CloudControl

/-! ## Go strings -/

/-- A Go string, as the sequence of its bytes. -/
abbrev GoString := List Nat

/-- The bytes of an ASCII string literal of the source. -/
def lit (s : String) : GoString := s.toList.map Char.toNat

/-- Go `strings.HasPrefix(s, p)`. -/
def HasPrefix : GoString → GoString → Bool
  | _, [] => true
  | [], _ :: _ => false
  | b :: s, c :: p => b == c && HasPrefix s p

/-- Go `strings.Contains(s, sub)`: `sub` occurs in `s` at some offset. -/
def Contains : GoString → GoString → Bool
  | [], sub => HasPrefix [] sub
  | b :: s, sub => HasPrefix (b :: s) sub || Contains s sub

/-- Loop of `strings.Replace(s, old, new, -1)` for a non-empty `old`: at each
offset either a whole occurrence of `old` is replaced or one byte is copied. -/
def replaceLoop (old new : GoString) : Nat → GoString → GoString
  | 0, s => s
  | _ + 1, [] => []
  | fuel + 1, b :: s =>
    if HasPrefix (b :: s) old then new ++ replaceLoop old new fuel ((b :: s).drop old.length)
    else b :: replaceLoop old new fuel s

/-- Go `strings.Replace(s, old, new, -1)` with a non-empty `old` (the only use in
the source replaces `" "`); with an empty `old` the string is returned as is. -/
def Replace (s old new : GoString) : GoString :=
  if old = [] then s else replaceLoop old new s.length s

/-! ## UTF-8 (`unicode/utf8`) -/

/-- The value `utf8.RuneError`, U+FFFD. -/
def RuneError : Nat := 0xFFFD

/-- A continuation byte, `0x80 ≤ b ≤ 0xBF`. -/
def isCont (b : Nat) : Bool := 0x80 ≤ b && b ≤ 0xBF

/-- Go `utf8.DecodeRune(p)`: the first rune of `p` and its width in bytes;
`(RuneError, 1)` for an encoding error and `(RuneError, 0)` for empty input.
The masks and shifts of the source are written arithmetically
(`p0 & 0x1F` is `p0 % 32`, `x << 6 | y` is `x * 64 + y` for `y < 64`). -/
def DecodeRune : GoString → Nat × Nat
  | [] => (RuneError, 0)
  | p0 :: rest =>
    if p0 < 0x80 then (p0, 1)
    else if p0 < 0xC2 then (RuneError, 1)
    else if p0 < 0xE0 then
      match rest with
      | b1 :: _ => if isCont b1 then ((p0 % 32) * 64 + b1 % 64, 2) else (RuneError, 1)
      | _ => (RuneError, 1)
    else if p0 < 0xF0 then
      match rest with
      | b1 :: b2 :: _ =>
        let lo := if p0 = 0xE0 then 0xA0 else 0x80
        let hi := if p0 = 0xED then 0x9F else 0xBF
        if lo ≤ b1 && b1 ≤ hi && isCont b2 then
          ((p0 % 16) * 4096 + (b1 % 64) * 64 + b2 % 64, 3)
        else (RuneError, 1)
      | _ => (RuneError, 1)
    else if p0 < 0xF5 then
      match rest with
      | b1 :: b2 :: b3 :: _ =>
        let lo := if p0 = 0xF0 then 0x90 else 0x80
        let hi := if p0 = 0xF4 then 0x8F else 0xBF
        if lo ≤ b1 && b1 ≤ hi && isCont b2 && isCont b3 then
          ((p0 % 8) * 262144 + (b1 % 64) * 4096 + (b2 % 64) * 64 + b3 % 64, 4)
        else (RuneError, 1)
      | _ => (RuneError, 1)
    else (RuneError, 1)

/-- Go `utf8.EncodeRune(r)` (the bytes written): surrogates and values above
U+10FFFF are encoded as U+FFFD. -/
def EncodeRune (r : Nat) : GoString :=
  if r < 0x80 then [r]
  else if r < 0x800 then [0xC0 + r / 64, 0x80 + r % 64]
  else if 0x10FFFF < r || (0xD800 ≤ r && r ≤ 0xDFFF) then [0xEF, 0xBF, 0xBD]
  else if r < 0x10000 then [0xE0 + r / 4096, 0x80 + r / 64 % 64, 0x80 + r % 64]
  else [0xF0 + r / 262144, 0x80 + r / 4096 % 64, 0x80 + r / 64 % 64, 0x80 + r % 64]

/-- Go `utf8.ValidString(s)`, as the loop "no call of `DecodeRune` along `s`
reports an encoding error"; `fuel` bounds the number of runes. -/
def validLoop : Nat → GoString → Bool
  | 0, s => s.isEmpty
  | _ + 1, [] => true
  | fuel + 1, b :: s =>
    let rs := DecodeRune (b :: s)
    if rs.1 = RuneError ∧ rs.2 = 1 then false
    else validLoop fuel ((b :: s).drop rs.2)

/-- Go `utf8.ValidString(s)`. -/
def ValidString (s : GoString) : Bool := validLoop s.length s

/-! ## `strings.ToLower` -/

/-- The byte `b` with an ASCII capital letter turned into its small letter. -/
def lowerASCII (b : Nat) : Nat := if 65 ≤ b ∧ b ≤ 90 then b + 32 else b

/-- Modelled from the Go documentation of `unicode.ToLower`: the case tables of
package `unicode` are not part of the repository. ASCII capitals map to their small
letters; U+0130 and U+212A are the two runes outside ASCII whose lower case is an
ASCII letter (`i` and `k`); every other rune outside ASCII maps to a rune outside
ASCII, here to itself. -/
def unicodeToLower (r : Nat) : Nat :=
  if r < 0x80 then lowerASCII r
  else if r = 0x130 then 0x69
  else if r = 0x212A then 0x6B
  else r

/-- Loop of Go `strings.Map(mapping, s)` for a mapping that drops no rune: every
rune of `s` (an invalid byte counts as U+FFFD, of width 1) is replaced by the
encoding of its image. -/
def mapLoop (mapping : Nat → Nat) : Nat → GoString → GoString
  | 0, _ => []
  | _ + 1, [] => []
  | fuel + 1, b :: s =>
    let rs := DecodeRune (b :: s)
    EncodeRune (mapping rs.1) ++ mapLoop mapping fuel ((b :: s).drop rs.2)

/-- Go `strings.ToLower(s)`: byte-wise on an all-ASCII string, and
`strings.Map(unicode.ToLower, s)` otherwise. -/
def ToLower (s : GoString) : GoString :=
  if s.all (fun b => b < 0x80) then s.map lowerASCII
  else mapLoop unicodeToLower s.length s

/-! ## `net/url`, `strconv`, `fmt` -/

/-- The hexadecimal digit of `n < 16`, upper case, as in `net/url`. -/
def upperhex (n : Nat) : Nat := if n < 10 then 48 + n else 55 + n

/-- Go `shouldEscape(c, encodeQueryComponent)` of `net/url`: only the unreserved
characters (letters, digits, `-`, `_`, `.`, `~`) are left alone. -/
def shouldEscape (c : Nat) : Bool :=
  !((97 ≤ c && c ≤ 122) || (65 ≤ c && c ≤ 90) || (48 ≤ c && c ≤ 57)
    || c == 45 || c == 95 || c == 46 || c == 126)

/-- Go `url.QueryEscape(s)`: a space becomes `+`, every other byte that must be
escaped becomes `%XX`. -/
def QueryEscape (s : GoString) : GoString :=
  s.flatMap fun c =>
    if c = 32 then [43]
    else if shouldEscape c then [37, upperhex (c / 16), upperhex (c % 16)]
    else [c]

/-- The two errors of `strconv`: `ErrSyntax` and `ErrRange`. -/
inductive NumError where
  | ErrSyntax
  | ErrRange
  deriving DecidableEq

/-- The largest `uint64`. -/
def maxUint64 : Nat := 2 ^ 64 - 1

/-- Digit loop of Go `strconv.ParseUint(s, 10, 64)`; `n` is the value read so far. -/
def parseUintLoop : Nat → GoString → Nat × Option NumError
  | n, [] => (n, none)
  | n, c :: s =>
    if 48 ≤ c ∧ c ≤ 57 then
      if n ≥ maxUint64 / 10 + 1 then (maxUint64, some .ErrRange)
      else if n * 10 + (c - 48) > maxUint64 then (maxUint64, some .ErrRange)
      else parseUintLoop (n * 10 + (c - 48)) s
    else (0, some .ErrSyntax)

/-- Go `strconv.ParseUint(s, 10, 64)`. -/
def ParseUint (s : GoString) : Nat × Option NumError :=
  if s = [] then (0, some .ErrSyntax) else parseUintLoop 0 s

/-- Go `strconv.ParseInt(s, 10, 64)`: the value and the error. On a syntax error the
value is 0, on a range error it is the nearest `int64`. -/
def ParseInt (s : GoString) : Int × Option NumError :=
  match s with
  | [] => (0, some .ErrSyntax)
  | c :: rest =>
    let neg := c == 45
    let body := if c = 43 ∨ c = 45 then rest else c :: rest
    match ParseUint body with
    | (_, some .ErrSyntax) => (0, some .ErrSyntax)
    | (un, _) =>
      if !neg && un ≥ 2 ^ 63 then (2 ^ 63 - 1, some .ErrRange)
      else if neg && un > 2 ^ 63 then (-(2 ^ 63), some .ErrRange)
      else (if neg then -(un : Int) else (un : Int), none)

/-- Decimal digits of `n`, most significant first, prepended to `acc`. -/
def digitsLoop : Nat → Nat → GoString → GoString
  | 0, _, acc => acc
  | fuel + 1, n, acc =>
    if n < 10 then (48 + n) :: acc else digitsLoop fuel (n / 10) ((48 + n % 10) :: acc)

/-- The decimal representation of a natural number (`strconv.Itoa`). -/
def decimal (n : Nat) : GoString := digitsLoop (n + 1) n []

/-- The decimal representation of an integer, the verb `%d`. -/
def decimalInt (i : Int) : GoString :=
  if i < 0 then 45 :: decimal i.natAbs else decimal i.natAbs

/-- An operand of `fmt.Sprintf`. -/
inductive Arg where
  | s (v : GoString)
  | d (v : Int)

/-- Go `fmt.Sprintf(format, args...)` for the verbs the source uses, `%s` and `%d`,
each given an operand of its kind; other bytes are copied. -/
def Sprintf : GoString → List Arg → GoString
  | [], _ => []
  | [b], _ => [b]
  | b :: c :: rest, args =>
    if b = 37 ∧ c = 115 then
      match args with
      | .s v :: more => v ++ Sprintf rest more
      | _ => b :: Sprintf (c :: rest) args
    else if b = 37 ∧ c = 100 then
      match args with
      | .d v :: more => decimalInt v ++ Sprintf rest more
      | _ => b :: Sprintf (c :: rest) args
    else b :: Sprintf (c :: rest) args

/-- Go `isSpace(r)` of package `fmt`: the table `space` of `fmt/scan.go`. -/
def fmtIsSpace (r : Nat) : Bool :=
  (0x09 ≤ r && r ≤ 0x0D) || r == 0x20 || r == 0x85 || r == 0xA0 || r == 0x1680
    || (0x2000 ≤ r && r ≤ 0x200A) || r == 0x2028 || r == 0x2029 || r == 0x202F
    || r == 0x205F || r == 0x3000

/-- The runes `ReadRune` delivers from a byte stream, one call of `DecodeRune` after
the other; an invalid byte is delivered as U+FFFD. -/
def runesLoop : Nat → GoString → List Nat
  | 0, _ => []
  | _ + 1, [] => []
  | fuel + 1, b :: s =>
    (DecodeRune (b :: s)).1 :: runesLoop fuel ((b :: s).drop (DecodeRune (b :: s)).2)

/-- The runes of a byte stream. -/
def runes (s : GoString) : List Nat := runesLoop s.length s

/-- Go `fmt.Scanln(&response)` with `response` empty before the call: the value the
call leaves in `response` when standard input holds `stdin`. The scanner skips the
blanks before the word (`SkipSpace`; a newline there, or the end of input, is an
error that leaves `response` empty), then stores the runes up to the next space or
the end of input (`token(true, notSpace)`). What follows the word on the line makes
`Scanln` return an error, which the source ignores, after the word is stored. -/
def Scanln (stdin : GoString) : GoString :=
  (((runes stdin).dropWhile fun r => fmtIsSpace r && r != 10).takeWhile
    fun r => !fmtIsSpace r).flatMap EncodeRune

/-! ## `time` -/

/-- A reading of `time.Now()`: the instant, as seconds since the Unix epoch and
nanoseconds within the second, and the offset east of UTC, in seconds, that the
local time zone has at that instant. -/
structure Time where
  unix : Int
  nsec : Nat
  offset : Int
  deriving DecidableEq

/-- Go `t.abs()`, counted from 0001-01-01 00:00:00 instead of from the absolute zero
year (which lies a whole number of 400-year cycles before it): the seconds the local
wall clock shows. -/
def Time.abs (t : Time) : Int := t.unix + t.offset + 62135596800

/-- Go `isLeap`. -/
def isLeap (year : Int) : Bool := year % 4 == 0 && (year % 100 != 0 || year % 400 == 0)

/-- Go `daysBefore`. -/
def daysBefore : List Nat := [0, 31, 59, 90, 120, 151, 181, 212, 243, 273, 304, 334, 365]

/-- The second half of Go `absDate`: month and day of the month from the zero-based
day of the year. -/
def monthDay ( leap : Bool) (yday : Nat) : Nat × Nat :=
  if leap && yday == 31 + 29 - 1 then (2, 29)
  else
    let day := if leap && yday > 31 + 29 - 1 then yday - 1 else yday
    let month := day / 31
    let stop := daysBefore.getD (month + 1) 0
    if day ≥ stop then (month + 2, day - stop + 1)
    else (month + 1, day - daysBefore.getD month 0 + 1)

/-- The first half of Go `absDate`: the year and the zero-based day of the year, by
cutting off 400-year, 100-year, 4-year and one-year cycles. -/
def yearDay (abs : Int) : Int × Int :=
  let d := abs / 86400
  let n400 := d / 146097
  let d := d - 146097 * n400
  let n100 := d / 36524
  let n100 := n100 - n100 / 4
  let d := d - 36524 * n100
  let n4 := d / 1461
  let d := d - 1461 * n4
  let n1 := d / 365
  let n1 := n1 - n1 / 4
  let d := d - 365 * n1
  (400 * n400 + 100 * n100 + 4 * n4 + n1 + 1, d)

/-- Go `absDate(abs, true)`: year, month and day. -/
def absDate (abs : Int) : Int × Nat × Nat :=
  let yd := yearDay abs
  (yd.1, monthDay (isLeap yd.1) yd.2.toNat)

/-- Go `absClock`: hour, minute and second. -/
def absClock (abs : Int) : Nat × Nat × Nat :=
  let sec := (abs % 86400).toNat
  let hour := sec / 3600
  let sec := sec - hour * 3600
  let min := sec / 60
  (hour, min, sec - min * 60)

/-- Go `appendInt(b, x, width)` of package `time`: a minus sign for a negative `x`,
then the decimal digits of its absolute value, padded with zeros on the left to at
least `width` digits. -/
def appendInt (x : Int) (width : Nat) : GoString :=
  (if x < 0 then [45] else []) ++ List.replicate (width - (decimal x.natAbs).length) 48
    ++ decimal x.natAbs

/-- Go `t.Format("2006-01-02 15:04:05")`: the layout of the source, element by
element (year on four digits, the other fields on two). -/
def Time.Format (t : Time) : GoString :=
  let date := absDate t.abs
  let clock := absClock t.abs
  appendInt date.1 4 ++ [45] ++ appendInt date.2.1 2 ++ [45] ++ appendInt date.2.2 2 ++ [32]
    ++ appendInt clock.1 2 ++ [58] ++ appendInt clock.2.1 2 ++ [58] ++ appendInt clock.2.2 2

/-! ## Data model (`datamodels/ec2_models.go`) -/

/-- Go `datamodels.EC2InstanceDetails`. -/
structure EC2InstanceDetails where
  Name : GoString
  InstanceID : GoString
  InstanceType : GoString
  InstanceState : GoString
  PrivateIP : GoString
  PublicIP : GoString
  deriving DecidableEq

/-- Go `datamodels.EC2InstanceReport`. The slice `Instances` is `none` when it is
the nil slice (the zero value) and `some l` otherwise. -/
structure EC2InstanceReport where
  Instances : Option (List EC2InstanceDetails)
  deriving DecidableEq

/-- The elements of `report.Instances`, what `range` visits and `len` counts. -/
def EC2InstanceReport.entries (r : EC2InstanceReport) : List EC2InstanceDetails :=
  r.Instances.getD []

/-- The zero value of `EC2InstanceDetails`. -/
def EC2InstanceDetails.zero : EC2InstanceDetails :=
  { Name := [], InstanceID := [], InstanceType := [], InstanceState := [],
    PrivateIP := [], PublicIP := [] }

/-! ## The EC2 client types the program uses (`aws-sdk-go/service/ec2`)

A pointer field of a response is an `Option`: `none` is the nil pointer the SDK
leaves when the provider sent no such element. Slices hold the elements themselves
(the SDK allocates every element it appends). The request values built through
`aws.String`, `aws.Bool` and `aws.Int64` are never nil and are kept as plain values;
request fields the program does not set are not represented. -/

/-- Go `ec2.Tag`. -/
structure Tag where
  Key : Option GoString
  Value : Option GoString
  deriving DecidableEq

/-- Go `ec2.InstanceState` (the field the program reads). -/
structure InstanceState where
  Name : Option GoString
  deriving DecidableEq

/-- Go `ec2.Instance` (the fields the program reads). -/
structure Instance where
  InstanceId : Option GoString
  InstanceType : Option GoString
  State : Option InstanceState
  PrivateIpAddress : Option GoString
  PublicIpAddress : Option GoString
  Tags : List Tag
  deriving DecidableEq

/-- Go `ec2.Reservation`. -/
structure Reservation where
  Instances : List Instance
  deriving DecidableEq

/-- Go `ec2.DescribeInstancesOutput`. -/
structure DescribeInstancesOutput where
  Reservations : List Reservation
  deriving DecidableEq

/-- Go `ec2.Filter`. -/
structure Filter where
  Name : GoString
  Values : List GoString
  deriving DecidableEq

/-- Go `ec2.DescribeInstancesInput`. -/
structure DescribeInstancesInput where
  Filters : List Filter
  InstanceIds : List GoString
  deriving DecidableEq

/-- Go `ec2.StartInstancesInput`. -/
structure StartInstancesInput where
  InstanceIds : List GoString
  DryRun : Bool
  deriving DecidableEq

/-- Go `ec2.StopInstancesInput`. -/
structure StopInstancesInput where
  InstanceIds : List GoString
  DryRun : Bool
  Force : Bool
  Hibernate : Bool
  deriving DecidableEq

/-- Go `ec2.RunInstancesInput`. -/
structure RunInstancesInput where
  ImageId : GoString
  InstanceType : GoString
  MinCount : Int
  MaxCount : Int
  deriving DecidableEq

/-- Go `ec2.DescribeInstanceTypeOfferingsInput`. -/
structure DescribeInstanceTypeOfferingsInput where
  DryRun : Bool
  deriving DecidableEq

/-- Go `ec2.InstanceTypeOffering` (the field the program reads). -/
structure InstanceTypeOffering where
  InstanceType : Option GoString
  deriving DecidableEq

/-- Go `ec2.DescribeInstanceTypeOfferingsOutput`. -/
structure DescribeInstanceTypeOfferingsOutput where
  InstanceTypeOfferings : List InstanceTypeOffering
  deriving DecidableEq

/-! ## `utils/ec2_utils.go` -/

/-- Go `utils.CreateInstanceTypeOfferingFilterParams`. -/
def CreateInstanceTypeOfferingFilterParams (dryRun : Bool) :
    DescribeInstanceTypeOfferingsInput :=
  { DryRun := dryRun }

/-- One step of insertion into a sorted list of strings, in byte order. -/
def insertSorted (x : GoString) : List GoString → List GoString
  | [] => [x]
  | y :: ys => if x ≤ y then x :: y :: ys else y :: insertSorted x ys

/-- Go `sort.Strings`: ascending byte-wise order. -/
def sortStrings (l : List GoString) : List GoString :=
  l.foldr insertSorted []

/-- Go `utils.ParseInstanceTypeOfferings`: the instance types, sorted; `none` is the
panic of `*elem.InstanceType` on a nil pointer. -/
def ParseInstanceTypeOfferings (output : DescribeInstanceTypeOfferingsOutput) :
    Option (List GoString) :=
  (output.InstanceTypeOfferings.foldlM
    (fun (offerings : List GoString) (elem : InstanceTypeOffering) =>
      elem.InstanceType.map fun t => offerings ++ [t]) []).map sortStrings

/-- Go `utils.CreateEC2InstanceFilterParams`. -/
def CreateEC2InstanceFilterParams (filterName : GoString) (filters : List GoString) :
    DescribeInstancesInput :=
  let filterValues := filters.foldl (fun acc f => acc ++ [f]) []
  { Filters := [{ Name := filterName, Values := filterValues }], InstanceIds := [] }

/-- Go `utils.CreateEC2InstanceIDsParams`. -/
def CreateEC2InstanceIDsParams (report : EC2InstanceReport) : DescribeInstancesInput :=
  let instanceIDs := report.entries.foldl (fun acc inst => acc ++ [inst.InstanceID]) []
  { Filters := [], InstanceIds := instanceIDs }

/-- Go `utils.CreateEC2StartInstanceParams`. -/
def CreateEC2StartInstanceParams (ids : List GoString) (dryrun : Bool) : StartInstancesInput :=
  let instanceIDs := ids.foldl (fun acc id => acc ++ [id]) []
  { InstanceIds := instanceIDs, DryRun := dryrun }

/-- Go `utils.CreateEC2StopInstanceParams`. -/
def CreateEC2StopInstanceParams (ids : List GoString) (dryrun force hibernate : Bool) :
    StopInstancesInput :=
  let instanceIDs := ids.foldl (fun acc id => acc ++ [id]) []
  { InstanceIds := instanceIDs, DryRun := dryrun, Force := force, Hibernate := hibernate }

/-- Go `utils.CreateEC2RunInstanceParams`. -/
def CreateEC2RunInstanceParams (amiID instanceType : GoString) (count : Int) :
    RunInstancesInput :=
  { ImageId := amiID, InstanceType := instanceType, MinCount := count, MaxCount := count }

/-- The name loop that `ParseDescribeInstanceOutput` and `GetInstanceDetails` both
run over `instance.Tags`: `name` starts as `"None"` and is overwritten at every tag
whose key is `"Name"`. `none` is the panic of `*keys.Key` or `*keys.Value` on a nil
pointer. -/
def resolveName (tags : List Tag) : Option GoString :=
  tags.foldlM
    (fun name keys =>
      match keys.Key with
      | none => none
      | some k =>
        if k = lit "Name" then
          match keys.Value with
          | none => none
          | some v => some (QueryEscape v)
        else some name)
    (lit "None")

/-- The body of the instance loop, the same text in `ParseDescribeInstanceOutput` and
in `GetInstanceDetails`: the name, then one guarded copy per field. `none` is a
panic, of the name loop or of `instance.State.Name` on a nil `State`. -/
def instanceDetails (inst : Instance) : Option EC2InstanceDetails :=
  match resolveName inst.Tags with
  | none => none
  | some name =>
    let details := { EC2InstanceDetails.zero with Name := name }
    let details :=
      match inst.InstanceId with
      | some v => { details with InstanceID := v }
      | none => details
    let details :=
      match inst.InstanceType with
      | some v => { details with InstanceType := v }
      | none => details
    match inst.State with
    | none => none
    | some state =>
      let details :=
        match state.Name with
        | some v => { details with InstanceState := v }
        | none => details
      let details :=
        match inst.PrivateIpAddress with
        | some v => { details with PrivateIP := v }
        | none => details
      let details :=
        match inst.PublicIpAddress with
        | some v => { details with PublicIP := v }
        | none => details
      some details

/-- Go `utils.ParseDescribeInstanceOutput`: the two nested loops, appending one
entry per instance; `none` is a panic inside the loop body. -/
def ParseDescribeInstanceOutput (results : DescribeInstancesOutput) :
    Option EC2InstanceReport :=
  (results.Reservations.foldlM
    (fun (instances : List EC2InstanceDetails) (reservation : Reservation) =>
      reservation.Instances.foldlM
        (fun instances inst =>
          (instanceDetails inst).map fun details => instances ++ [details])
        instances)
    []).map fun instances => { Instances := some instances }

/-- Go `utils.GetInstanceDetails`: the same loop over the instances of one
reservation. -/
def GetInstanceDetails (reservation : Reservation) : Option EC2InstanceReport :=
  (reservation.Instances.foldlM
    (fun instances inst =>
      (instanceDetails inst).map fun details => instances ++ [details])
    []).map fun instances => { Instances := some instances }

/-! ## `encoding/json`: the encoder, for the two struct types of the data model -/

/-- The hexadecimal digit of `n < 16`, lower case, as in `encoding/json`. -/
def hexDigit (n : Nat) : Nat := if n < 10 then 48 + n else 87 + n

/-- Go `htmlSafeSet[b]` for an ASCII byte: printable and none of the five
characters the encoder escapes (the quote, the backslash, `<`, `>`, `&`). -/
def htmlSafe (b : Nat) : Bool :=
  0x20 ≤ b && b < 0x80 && b != 0x22 && b != 0x5C && b != 0x3C && b != 0x3E && b != 0x26

/-- The text the encoder writes for one ASCII byte of a string. -/
def escapeByte (b : Nat) : GoString :=
  if htmlSafe b then [b]
  else if b = 0x5C ∨ b = 0x22 then [0x5C, b]
  else if b = 8 then [0x5C, 98]
  else if b = 12 then [0x5C, 102]
  else if b = 10 then [0x5C, 110]
  else if b = 13 then [0x5C, 114]
  else if b = 9 then [0x5C, 116]
  else [0x5C, 117, 48, 48, hexDigit (b / 16), hexDigit (b % 16)]

/-- Loop of Go `appendString(dst, src, escapeHTML = true)`: ASCII bytes one at a
time, then rune by rune. An invalid byte is written as the escape of U+FFFD, U+2028 and U+2029
are written as escapes, any other rune is copied. -/
def appendStringLoop : Nat → GoString → GoString
  | 0, _ => []
  | _ + 1, [] => []
  | fuel + 1, b :: s =>
    if b < 0x80 then escapeByte b ++ appendStringLoop fuel s
    else
      let rs := DecodeRune (b :: s)
      if rs.1 = RuneError ∧ rs.2 = 1 then
        [0x5C, 117, 102, 102, 102, 100] ++ appendStringLoop fuel s
      else if rs.1 = 0x2028 ∨ rs.1 = 0x2029 then
        [0x5C, 117, 50, 48, 50, hexDigit (rs.1 % 16)]
          ++ appendStringLoop fuel ((b :: s).drop rs.2)
      else (b :: s).take rs.2 ++ appendStringLoop fuel ((b :: s).drop rs.2)

/-- Go `appendString`: a string value as a quoted JSON string. -/
def appendString (s : GoString) : GoString :=
  [0x22] ++ appendStringLoop s.length s ++ [0x22]

/-- The encoding of one `EC2InstanceDetails`: the six fields in declaration order
under the names of their `json` tags. -/
def encodeDetails (d : EC2InstanceDetails) : GoString :=
  lit "\x7b\"name\":" ++ appendString d.Name
    ++ lit ",\"instance_id\":" ++ appendString d.InstanceID
    ++ lit ",\"instance_type\":" ++ appendString d.InstanceType
    ++ lit ",\"instance_state\":" ++ appendString d.InstanceState
    ++ lit ",\"private_ip\":" ++ appendString d.PrivateIP
    ++ lit ",\"public_ip\":" ++ appendString d.PublicIP ++ lit "\x7d"

/-- The elements of a slice, separated by commas. -/
def encodeElems : List EC2InstanceDetails → GoString
  | [] => []
  | [d] => encodeDetails d
  | d :: e :: ds => encodeDetails d ++ [44] ++ encodeElems (e :: ds)

/-- The encoding of the slice: `null` for the nil slice, an array otherwise. -/
def encodeSlice : Option (List EC2InstanceDetails) → GoString
  | none => lit "null"
  | some l => [0x5B] ++ encodeElems l ++ [0x5D]

/-- Go `json.Marshal(report)` for an `EC2InstanceReport`; for this type the encoder
has no failing case, the error is always nil. -/
def Marshal (report : EC2InstanceReport) : GoString :=
  lit "\x7b\"instances\":" ++ encodeSlice report.Instances ++ lit "\x7d"

/-! ## `encoding/json`: the decoder

`json.Unmarshal` first checks that the whole input is one JSON value, then stores
it into the destination, directed by the destination's type. Here the input is
parsed into a tree (strings already unquoted) and the tree is then stored. -/

/-- A parsed JSON value. -/
inductive JSON where
  | null
  | bool (b : Bool)
  | number (text : GoString)
  | string (s : GoString)
  | array (elems : List JSON)
  | object (members : List (GoString × JSON))

/-- The two failures of `json.Unmarshal`. -/
inductive JSONError where
  | SyntaxError
  | UnmarshalTypeError
  deriving DecidableEq

/-- The text of `err.Error()` for the two failures (the offset and the Go type that
the real message carries are left out). -/
def JSONError.Error : JSONError → GoString
  | .SyntaxError => lit "invalid character in JSON input"
  | .UnmarshalTypeError => lit "json: cannot unmarshal value into Go struct field"

/-- Go `isSpace(c)` of the scanner. -/
def isSpace (c : Nat) : Bool := c == 32 || c == 9 || c == 13 || c == 10

/-- The input without its leading white space. -/
def skipSpace : GoString → GoString
  | [] => []
  | c :: s => if isSpace c then skipSpace s else c :: s

/-- The value of a hexadecimal digit, of either case. -/
def hexVal (c : Nat) : Option Nat :=
  if 48 ≤ c ∧ c ≤ 57 then some (c - 48)
  else if 97 ≤ c ∧ c ≤ 102 then some (c - 87)
  else if 65 ≤ c ∧ c ≤ 70 then some (c - 55)
  else none

/-- Go `getu4(s)`: the code unit of a leading `\uXXXX`, `none` for the source's -1. -/
def getu4 : GoString → Option Nat
  | b :: u :: h1 :: h2 :: h3 :: h4 :: _ =>
    if b = 0x5C ∧ u = 117 then
      match hexVal h1, hexVal h2, hexVal h3, hexVal h4 with
      | some a, some b, some c, some d => some (((a * 16 + b) * 16 + c) * 16 + d)
      | _, _, _, _ => none
    else none
  | _ => none

/-- Go `utf16.IsSurrogate(r)`. -/
def isSurrogate (r : Nat) : Bool := 0xD800 ≤ r && r < 0xE000

/-- Go `utf16.DecodeRune(r1, r2)`: the rune of a surrogate pair, U+FFFD if the two
code units are not one. -/
def utf16DecodeRune (r1 r2 : Nat) : Nat :=
  if 0xD800 ≤ r1 ∧ r1 < 0xDC00 ∧ 0xDC00 ≤ r2 ∧ r2 < 0xE000 then
    (r1 - 0xD800) * 1024 + (r2 - 0xDC00) + 0x10000
  else RuneError

/-- The scanner's string state together with Go `unquoteBytes`: reads a string
literal whose opening quote has been consumed and returns its value and the input
after the closing quote. Control characters and unknown escapes are syntax errors;
a lone surrogate escape and invalid UTF-8 become U+FFFD. -/
def unquoteLoop : Nat → GoString → GoString → Option (GoString × GoString)
  | 0, _, _ => none
  | _ + 1, [], _ => none
  | fuel + 1, c :: s, acc =>
    if c = 0x22 then some (acc, s)
    else if c = 0x5C then
      match s with
      | [] => none
      | e :: s1 =>
        if e = 0x22 ∨ e = 0x5C ∨ e = 0x2F then unquoteLoop fuel s1 (acc ++ [e])
        else if e = 98 then unquoteLoop fuel s1 (acc ++ [8])
        else if e = 102 then unquoteLoop fuel s1 (acc ++ [12])
        else if e = 110 then unquoteLoop fuel s1 (acc ++ [10])
        else if e = 114 then unquoteLoop fuel s1 (acc ++ [13])
        else if e = 116 then unquoteLoop fuel s1 (acc ++ [9])
        else if e = 117 then
          match getu4 (c :: s) with
          | none => none
          | some rr =>
            let s2 := s1.drop 4
            if isSurrogate rr then
              match getu4 s2 with
              | some rr1 =>
                if utf16DecodeRune rr rr1 ≠ RuneError then
                  unquoteLoop fuel (s2.drop 6) (acc ++ EncodeRune (utf16DecodeRune rr rr1))
                else unquoteLoop fuel s2 (acc ++ EncodeRune RuneError)
              | none => unquoteLoop fuel s2 (acc ++ EncodeRune RuneError)
            else unquoteLoop fuel s2 (acc ++ EncodeRune rr)
        else none
    else if c < 0x20 then none
    else if c < 0x80 then unquoteLoop fuel s (acc ++ [c])
    else
      let rs := DecodeRune (c :: s)
      unquoteLoop fuel ((c :: s).drop rs.2) (acc ++ EncodeRune rs.1)

/-- A string literal after its opening quote: its value and the rest of the input. -/
def unquote (input : GoString) : Option (GoString × GoString) :=
  unquoteLoop input.length input []

/-- The longest prefix of decimal digits, and the rest. -/
def spanDigits : GoString → GoString × GoString
  | [] => ([], [])
  | c :: s =>
    if 48 ≤ c ∧ c ≤ 57 then ((spanDigits s).1.cons c, (spanDigits s).2) else ([], c :: s)

/-- The scanner's number states: `-?(0|[1-9][0-9]*)(\.[0-9]+)?([eE][+-]?[0-9]+)?`;
the text of the number and the rest of the input. -/
def scanNumber (input : GoString) : Option (GoString × GoString) :=
  let (sign, s0) :=
    match input with
    | 45 :: s => ([45], s)
    | s => ([], s)
  let (intPart, s1) := spanDigits s0
  if intPart = [] ∨ (intPart.head? = some 48 ∧ intPart.length ≠ 1) then none
  else
    let frac : Option (GoString × GoString) :=
      match s1 with
      | 46 :: s =>
        let (ds, r) := spanDigits s
        if ds = [] then none else some (46 :: ds, r)
      | s => some ([], s)
    match frac with
    | none => none
    | some (fracPart, s2) =>
      let expo : Option (GoString × GoString) :=
        match s2 with
        | e :: s =>
          if e = 101 ∨ e = 69 then
            let (sg, s3) :=
              match s with
              | g :: r => if g = 43 ∨ g = 45 then ([g], r) else ([], s)
              | [] => ([], s)
            let (ds, r) := spanDigits s3
            if ds = [] then none else some (e :: sg ++ ds, r)
          else some ([], s2)
        | [] => some ([], s2)
      match expo with
      | none => none
      | some (expPart, s3) => some (sign ++ intPart ++ fracPart ++ expPart, s3)

/-- The elements of a non-empty array, after the opening bracket: values separated
by commas up to the closing bracket. `pv` parses one value. -/
def parseElementsWith (pv : GoString → Option (JSON × GoString)) :
    Nat → GoString → List JSON → Option (List JSON × GoString)
  | 0, _, _ => none
  | fuel + 1, input, acc =>
    match pv input with
    | none => none
    | some (v, rest) =>
      match skipSpace rest with
      | [] => none
      | c :: rest2 =>
        if c = 44 then parseElementsWith pv fuel rest2 (acc ++ [v])
        else if c = 0x5D then some (acc ++ [v], rest2)
        else none

/-- The members of a non-empty object, after the opening brace: `"key": value`
pairs separated by commas up to the closing brace. `pv` parses one value. -/
def parseMembersWith (pv : GoString → Option (JSON × GoString)) :
    Nat → GoString → List (GoString × JSON) → Option (List (GoString × JSON) × GoString)
  | 0, _, _ => none
  | fuel + 1, input, acc =>
    match skipSpace input with
    | [] => none
    | q :: s =>
      if q = 0x22 then
        match unquote s with
        | none => none
        | some (key, rest) =>
          match skipSpace rest with
          | [] => none
          | colon :: rest2 =>
            if colon = 58 then
              match pv rest2 with
              | none => none
              | some (v, rest3) =>
                match skipSpace rest3 with
                | [] => none
                | c :: rest4 =>
                  if c = 44 then parseMembersWith pv fuel rest4 (acc ++ [(key, v)])
                  else if c = 0x7D then some (acc ++ [(key, v)], rest4)
                  else none
            else none
      else none

/-- Go `maxNestingDepth` of the scanner. -/
def maxNestingDepth : Nat := 10000

/-- One JSON value, white space before it skipped, and the rest of the input;
`none` is a syntax error. `depth` is the number of objects and arrays open around
the value: opening one more than `maxNestingDepth` is the scanner's error
`exceeded max depth`. `fuel` bounds the recursion. -/
def parseValue : Nat → Nat → GoString → Option (JSON × GoString)
  | 0, _, _ => none
  | fuel + 1, depth, input =>
    match skipSpace input with
    | [] => none
    | c :: s =>
      if c = 0x7B then
        if maxNestingDepth ≤ depth then none
        else
          match skipSpace s with
          | [] => none
          | d :: s1 =>
            if d = 0x7D then some (.object [], s1)
            else
              (parseMembersWith (parseValue fuel (depth + 1)) (d :: s1).length (d :: s1) []).map
                fun r => (.object r.1, r.2)
      else if c = 0x5B then
        if maxNestingDepth ≤ depth then none
        else
          match skipSpace s with
          | [] => none
          | d :: s1 =>
            if d = 0x5D then some (.array [], s1)
            else
              (parseElementsWith (parseValue fuel (depth + 1)) (d :: s1).length (d :: s1) []).map
                fun r => (.array r.1, r.2)
      else if c = 0x22 then (unquote s).map fun r => (.string r.1, r.2)
      else if HasPrefix (c :: s) (lit "true") then some (.bool true, (c :: s).drop 4)
      else if HasPrefix (c :: s) (lit "false") then some (.bool false, (c :: s).drop 5)
      else if HasPrefix (c :: s) (lit "null") then some (.null, (c :: s).drop 4)
      else (scanNumber (c :: s)).map fun r => (.number r.1, r.2)

/-- The whole input as one JSON value, white space allowed around it. -/
def parseJSON (data : GoString) : Option JSON :=
  match parseValue (data.length + 1) 0 data with
  | none => none
  | some (v, rest) => if skipSpace rest = [] then some v else none

/-- Loop of Go `foldName(key)`: ASCII small letters become capitals; of the runes
outside ASCII, U+017F and U+212A fold to `S` and `K` (the only ones whose fold is
ASCII), the others are re-encoded (here unchanged by the fold). -/
def foldNameLoop : Nat → GoString → GoString
  | 0, _ => []
  | _ + 1, [] => []
  | fuel + 1, c :: s =>
    if c < 0x80 then
      (if 97 ≤ c ∧ c ≤ 122 then c - 32 else c) :: foldNameLoop fuel s
    else
      let rs := DecodeRune (c :: s)
      let folded := if rs.1 = 0x17F then [0x53] else if rs.1 = 0x212A then [0x4B]
        else EncodeRune rs.1
      folded ++ foldNameLoop fuel ((c :: s).drop rs.2)

/-- Go `foldName(key)`. -/
def foldName (key : GoString) : GoString := foldNameLoop key.length key

/-- The decoder's field lookup: the key names the field exactly, or does so up to
case folding. -/
def keyMatches (key name : GoString) : Bool :=
  key == name || foldName key == foldName name

/-- Storing a JSON value into a `string`: a JSON string is stored, `null` leaves
the field as it is, anything else is an `UnmarshalTypeError`. -/
def storeString (cur : GoString) : JSON → Except JSONError GoString
  | .string s => .ok s
  | .null => .ok cur
  | _ => .error .UnmarshalTypeError

/-- Storing one object member into an `EC2InstanceDetails`; a key that names no
field is skipped. -/
def storeDetailsField (d : EC2InstanceDetails) (key : GoString) (v : JSON) :
    Except JSONError EC2InstanceDetails :=
  if keyMatches key (lit "name") then
    (storeString d.Name v).map fun s => { d with Name := s }
  else if keyMatches key (lit "instance_id") then
    (storeString d.InstanceID v).map fun s => { d with InstanceID := s }
  else if keyMatches key (lit "instance_type") then
    (storeString d.InstanceType v).map fun s => { d with InstanceType := s }
  else if keyMatches key (lit "instance_state") then
    (storeString d.InstanceState v).map fun s => { d with InstanceState := s }
  else if keyMatches key (lit "private_ip") then
    (storeString d.PrivateIP v).map fun s => { d with PrivateIP := s }
  else if keyMatches key (lit "public_ip") then
    (storeString d.PublicIP v).map fun s => { d with PublicIP := s }
  else .ok d

/-- Storing a JSON value into an `EC2InstanceDetails`: the members of an object in
turn (a repeated key overwrites), `null` is a no-op, anything else is an
`UnmarshalTypeError`. -/
def storeDetails (cur : EC2InstanceDetails) : JSON → Except JSONError EC2InstanceDetails
  | .object members => members.foldlM (fun d kv => storeDetailsField d kv.1 kv.2) cur
  | .null => .ok cur
  | _ => .error .UnmarshalTypeError

/-- Storing the items of a JSON array into the elements of a slice, in order. The
decoder stores an item into the element the backing array of the slice already
holds at that index, if it holds one (so a field the item does not name keeps its
earlier value), and into a zero value otherwise. -/
def storeElements :
    List EC2InstanceDetails → List JSON → Except JSONError (List EC2InstanceDetails)
  | _, [] => .ok []
  | backing, item :: items =>
    match storeDetails (backing.headD EC2InstanceDetails.zero) item with
    | .error err => .error err
    | .ok d =>
      match storeElements backing.tail items with
      | .error err => .error err
      | .ok ds => .ok (d :: ds)

/-- Storing a JSON value into the slice `Instances`, whose backing array holds
`backing` (the elements of the slice and, after them, those a shorter array left
behind): the new slice and the new contents of the backing array. An empty array
gives a fresh empty slice and `null` the nil slice; a slice decoded for the first
time has an empty backing array, so each item is then decoded into a zero value. -/
def storeInstances (backing : List EC2InstanceDetails) :
    JSON → Except JSONError (Option (List EC2InstanceDetails) × List EC2InstanceDetails)
  | .array [] => .ok (some [], [])
  | .array (item :: items) =>
    match storeElements backing (item :: items) with
    | .error err => .error err
    | .ok l => .ok (some l, l ++ backing.drop l.length)
  | .null => .ok (none, [])
  | _ => .error .UnmarshalTypeError

/-- Storing a JSON value into an `EC2InstanceReport`; the second component is the
backing array of its slice. A key that occurs again is stored again, into the slice
as the earlier occurrence left it. -/
def storeReport (cur : EC2InstanceReport × List EC2InstanceDetails) :
    JSON → Except JSONError (EC2InstanceReport × List EC2InstanceDetails)
  | .object members =>
    members.foldlM
      (fun r kv =>
        if keyMatches kv.1 (lit "instances") then
          match storeInstances r.2 kv.2 with
          | .error err => .error err
          | .ok l => .ok ({ r.1 with Instances := l.1 }, l.2)
        else .ok r)
      cur
  | .null => .ok cur
  | _ => .error .UnmarshalTypeError

/-- Go `json.Unmarshal(data, &ec2ReportObj)` with `ec2ReportObj` the zero value, as
both readers of the source call it. After a type error Go goes on decoding and
reports the first such error at the end; both callers stop at any error, so only
the error is kept. -/
def Unmarshal (data : GoString) : Except JSONError EC2InstanceReport :=
  match parseJSON data with
  | none => .error .SyntaxError
  | some v =>
    match storeReport ({ Instances := none }, []) v with
    | .error err => .error err
    | .ok r => .ok r.1

/-! ## The process and its environment -/

/-- A loaded INI file: Go `File.Get(section, key)`, `none` when the key is missing
(the source then uses the empty string). -/
abbrev IniFile := GoString → GoString → Option GoString

/-- An effect of the process on the outside world. -/
inductive Event where
  | stdout (text : GoString)
  | panic (message : GoString)
  | scanln
  | writeFile (name data : GoString)
  | create (name data : GoString)
  | DescribeInstanceTypeOfferings (input : DescribeInstanceTypeOfferingsInput)
  | DescribeInstances (input : DescribeInstancesInput)
  | StopInstances (input : StopInstancesInput)
  | StartInstances (input : StartInstancesInput)
  | RunInstances (input : RunInstancesInput)
  deriving DecidableEq

/-- What one invocation reads from outside. An `error` value is the text of
`err.Error()`. -/
structure Env where
  /-- Go `flag.Args()`, the positional arguments. -/
  args : List GoString
  /-- For a path, `os.IsNotExist(err)` of `os.Stat(path)`. -/
  notExist : GoString → Bool
  /-- Go `ini.LoadFile(path)`. -/
  iniLoadFile : GoString → Except GoString IniFile
  /-- Go `ioutil.ReadFile(path)`. -/
  readFile : GoString → Except GoString GoString
  /-- Go `ioutil.WriteFile(name, data, os.ModePerm)`: the error, if any. -/
  writeFile : GoString → GoString → Option GoString
  /-- Go `os.Create(name)`: the error, if any. -/
  create : GoString → Option GoString
  /-- The reading of `time.Now()` at its n-th call of the invocation. -/
  now : Nat → Time
  /-- The bytes standard input holds when the prompt is answered: the operator's line
  with its newline, or nothing at the end of input. -/
  stdin : GoString
  /-- The error of `session.NewSession()`, if any (`session.Must` panics on it). -/
  newSession : Option GoString
  /-- The provider: `DescribeInstanceTypeOfferings`, output and call-level error. -/
  DescribeInstanceTypeOfferings :
    DescribeInstanceTypeOfferingsInput → DescribeInstanceTypeOfferingsOutput × Option GoString
  /-- The provider: `DescribeInstances`, output and call-level error. -/
  DescribeInstances : DescribeInstancesInput → DescribeInstancesOutput × Option GoString
  /-- The provider: `StopInstances`, the call-level error if any. -/
  StopInstances : StopInstancesInput → Option GoString
  /-- The provider: `StartInstances`, the call-level error if any. -/
  StartInstances : StartInstancesInput → Option GoString
  /-- The provider: `RunInstances`, the reservation or the call-level error. -/
  RunInstances : RunInstancesInput → Except GoString Reservation

/-- The value `fmt.Scanln(&response)` leaves in `response`: the first word of the
operator's line. -/
def Env.response (env : Env) : GoString := Scanln env.stdin

/-- The command-line flags after `flag.Parse()`. -/
structure Flags where
  help : Bool
  listInstances : Bool
  listInstanceTypes : Bool
  stopAllInstances : Bool
  stopInstances : Bool
  startAllInstances : Bool
  startInstances : Bool
  launchInstances : Bool
  awsConf : GoString
  deriving DecidableEq

/-- How an invocation ends: what it did, in order, and the exit status of the
process. -/
structure Outcome where
  trace : List Event
  exitCode : Nat
  deriving DecidableEq

/-- Go `os.Exit(code)` after the effects `trace`. -/
def exit (trace : List Event) (code : Nat) : Outcome := { trace := trace, exitCode := code }

/-- Go `panic(v)`: the run time prints the value and the process exits with
status 2. -/
def panic (trace : List Event) (message : GoString) : Outcome :=
  { trace := trace ++ [.panic message], exitCode := 2 }

/-- The text of the run-time error of a nil-pointer dereference. -/
def nilDereference : GoString :=
  lit "runtime error: invalid memory address or nil pointer dereference"

/-- Go `fmt.Println(s)`. -/
def Println (s : GoString) : Event := .stdout (s ++ [10])

/-- Go `fmt.Printf(format, args...)`. -/
def Printf (format : GoString) (args : List Arg) : Event := .stdout (Sprintf format args)

/-! ## `utils/file_utils.go` -/

/-- Go `utils.WriteInstanceTypeOfferings`: the file name, the lines handed to the
buffered writer, and the error of `os.Create` if any. -/
def WriteInstanceTypeOfferings (env : Env) (region : GoString) (instanceTypes : List GoString) :
    GoString × GoString × Option GoString :=
  let filename := Sprintf (lit "instance_types_%s.txt") [.s region]
  match env.create filename with
  | some err => (filename, [], some err)
  | none =>
    (filename, instanceTypes.foldl (fun out elem => out ++ Sprintf (lit "%s\n") [.s elem]) [],
      none)

/-- Go `utils.WriteInstanceDetailsReport` at the clock reading `now`: the report
name, the bytes handed to `ioutil.WriteFile`, and the error if any. The early return
on an error of `json.Marshal` is never taken: the encoder has no failing case for
this type. -/
def WriteInstanceDetailsReport (env : Env) (now : Time) (report : EC2InstanceReport)
    (reportType : GoString) : GoString × GoString × Option GoString :=
  let timeString := Replace now.Format (lit " ") (lit "_")
  let reportName := Sprintf (lit "%s_instance_details_%s.json") [.s reportType, .s timeString]
  let outputJSON := Marshal report
  (reportName, outputJSON, env.writeFile reportName outputJSON)

/-! ## `utils/ec2_utils.go`: configuration and console -/

/-- Go `utils.DefaultAWSRegion`: the region and the error. -/
def DefaultAWSRegion (env : Env) (awsConfigFile : GoString) : GoString × Option GoString :=
  if env.notExist awsConfigFile then
    ([], some (Sprintf (lit "No config file found at: %s\n") [.s awsConfigFile]))
  else
    match env.iniLoadFile awsConfigFile with
    | .error err => ([], some err)
    | .ok paramFile => ((paramFile (lit "default") (lit "region")).getD [], none)

/-- Go `utils.CreateNewEC2ClientCredentials`: the static credentials (key id and
secret key) or the error. -/
def CreateNewEC2ClientCredentials (env : Env) (awsConfigFile : GoString) :
    Except GoString (GoString × GoString) :=
  if env.notExist awsConfigFile then
    .error (Sprintf (lit "No config file found at: %s\n") [.s awsConfigFile])
  else
    match env.iniLoadFile awsConfigFile with
    | .error err => .error err
    | .ok paramFile =>
      .ok ((paramFile (lit "default") (lit "aws_access_key_id")).getD [],
        (paramFile (lit "default") (lit "aws_secret_access_key")).getD [])

/-- Go `utils.PrintEC2InstanceReport`: what it prints. -/
def PrintEC2InstanceReport (report : EC2InstanceReport) : List Event :=
  let printString :=
    lit "Name: %s\nInstanceID: %s\nInstanceType: %s\nInstance State: %s\nPublicIP %s\nPrivateIP: %s\n\n"
  [Println (lit "\nInstances"), Println (lit "---------")] ++
    report.entries.foldl
      (fun out elem =>
        out ++ [Printf printString
          [.s elem.Name, .s elem.InstanceID, .s elem.InstanceType, .s elem.InstanceState,
            .s elem.PublicIP, .s elem.PrivateIP]])
      []

/-! ## `cloud_control.go` -/

/-- The loop every stop and start branch of `main` runs over the report: the ID of
each instance is appended to `instanceIDs` and one line is printed for it. -/
def collectTargets (entries : List EC2InstanceDetails) : List GoString × List Event :=
  entries.foldl
    (fun (acc : List GoString × List Event) inst =>
      (acc.1 ++ [inst.InstanceID],
        acc.2 ++ [Printf (lit "Name: %s, ID: %s, Instance type: %s\n")
          [.s inst.Name, .s inst.InstanceID, .s inst.InstanceType]]))
    ([], [])

/-- The branch `if *listInstanceTypes` of `main`; it always ends the process. -/
def listInstanceTypesBranch (env : Env) (region : GoString) (tr : List Event) : Outcome :=
  let dryRun := false
  let params := CreateInstanceTypeOfferingFilterParams dryRun
  let describeInstanceTypeOutput := (env.DescribeInstanceTypeOfferings params).1
  let tr := tr ++ [.DescribeInstanceTypeOfferings params]
  match ParseInstanceTypeOfferings describeInstanceTypeOutput with
  | none => panic tr nilDereference
  | some offerings =>
    match WriteInstanceTypeOfferings env region offerings with
    | (_, _, some err) => exit (tr ++ [Println err]) 1
    | (outputFileName, data, none) =>
      exit (tr ++ [.create outputFileName data,
        Printf (lit "\nOutput written to %s\n") [.s outputFileName]]) 0

/-- The branch `if *listInstances` of `main`: `inl` when the process ends in it (a
panic), `inr` with the effects so far when control falls through to the next
`if`. -/
def listInstancesBranch (env : Env) (tr : List Event) : Outcome ⊕ List Event :=
  let params := CreateEC2InstanceFilterParams (lit "instance-state-name")
    [lit "stopped", lit "running", lit "pending"]
  let describeInstanceOutput := (env.DescribeInstances params).1
  let tr := tr ++ [.DescribeInstances params]
  match ParseDescribeInstanceOutput describeInstanceOutput with
  | none => .inl (panic tr nilDereference)
  | some instanceReport =>
    let tr := tr ++ PrintEC2InstanceReport instanceReport
    match WriteInstanceDetailsReport env (env.now 0) instanceReport (lit "all") with
    | (outputFileName, data, err) =>
      let tr := tr ++ [.writeFile outputFileName data,
        Printf (lit "\nOutput written to %s\n") [.s outputFileName]]
      match err with
      | some e => .inl (panic tr e)
      | none => .inr tr

/-- The branch `if *stopAllInstances` of `main`. -/
def stopAllInstancesBranch (env : Env) (tr : List Event) : Outcome :=
  let params := CreateEC2InstanceFilterParams (lit "instance-state-name") [lit "running"]
  let describeInstanceOutput := (env.DescribeInstances params).1
  let tr := tr ++ [.DescribeInstances params]
  match ParseDescribeInstanceOutput describeInstanceOutput with
  | none => panic tr nilDereference
  | some report =>
    if report.entries.length = 0 then exit (tr ++ [Println (lit "No running instances")]) 0
    else
      let targets := collectTargets report.entries
      let instanceIDs := targets.1
      let tr := tr ++ [Printf (lit "\nThe following instances will be stopped:\n") [],
        Printf (lit "----------------------------------------\n\n") []] ++ targets.2
        ++ [Printf (lit "\nContinue: (y/n) ") [], .scanln]
      if ToLower env.response = lit "y" then
        let stopInstanceParams := CreateEC2StopInstanceParams instanceIDs true false false
        let tr := tr ++ [Println (lit "Stopping instances..."), .StopInstances stopInstanceParams]
        match env.StopInstances stopInstanceParams with
        | some err =>
          if !Contains err (lit "DryRunOperation") then panic tr err
          else exit (tr ++ [Println (lit "Done!")]) 0
        | none => exit (tr ++ [Println (lit "Done!")]) 0
      else exit (tr ++ [Println (lit "Bye!")]) 0

/-- The branch `if *stopInstances` of `main`. -/
def stopInstancesBranch (env : Env) (tr : List Event) : Outcome :=
  match env.args with
  | [] => exit (tr ++ [Println (lit "Instance details file required but not supplied")]) 1
  | instanceReport :: _ =>
    if env.notExist instanceReport then
      exit (tr ++ [Printf (lit "No instance report file found at: %s\n") [.s instanceReport]]) 1
    else
      match env.readFile instanceReport with
      | .error err => exit (tr ++ [Println err]) 1
      | .ok jsonData =>
        match Unmarshal jsonData with
        | .error err => exit (tr ++ [Println err.Error]) 1
        | .ok ec2ReportObj =>
          let targets := collectTargets ec2ReportObj.entries
          let instanceIDs := targets.1
          let tr := tr ++ [Printf (lit "\nThe following instances will be stopped:\n") [],
            Printf (lit "----------------------------------------\n\n") []] ++ targets.2
            ++ [Printf (lit "\nContinue: (y/n) ") [], .scanln]
          if ToLower env.response = lit "y" then
            let stopInstanceParams := CreateEC2StopInstanceParams instanceIDs false false false
            let tr := tr ++ [Println (lit "Stopping specified instances..."),
              .StopInstances stopInstanceParams]
            match env.StopInstances stopInstanceParams with
            | some err =>
              if !Contains err (lit "DryRunOperation") then panic tr err
              else exit (tr ++ [Println (lit "Done!")]) 0
            | none => exit (tr ++ [Println (lit "Done!")]) 0
          else exit (tr ++ [Println (lit "Bye!")]) 0

/-- The branch `if *startAllInstances` of `main`. -/
def startAllInstancesBranch (env : Env) (tr : List Event) : Outcome :=
  let params := CreateEC2InstanceFilterParams (lit "instance-state-name") [lit "stopped"]
  let describeInstanceOutput := (env.DescribeInstances params).1
  let tr := tr ++ [.DescribeInstances params]
  match ParseDescribeInstanceOutput describeInstanceOutput with
  | none => panic tr nilDereference
  | some report =>
    if report.entries.length = 0 then exit (tr ++ [Println (lit "No stopped instances")]) 0
    else
      let targets := collectTargets report.entries
      let instanceIDs := targets.1
      let tr := tr ++ [Printf (lit "\nThe following instances will be started:\n") [],
        Printf (lit "------------------------------------------\n\n") []] ++ targets.2
        ++ [Printf (lit "\nContinue: (y/n) ") [], .scanln]
      if ToLower env.response = lit "y" then
        let startInstanceParams := CreateEC2StartInstanceParams instanceIDs true
        let tr := tr ++ [Println (lit "Starting all instances..."),
          .StartInstances startInstanceParams]
        match env.StartInstances startInstanceParams with
        | some err =>
          if !Contains err (lit "DryRunOperation") then panic tr err
          else exit (tr ++ [Println (lit "Done!")]) 0
        | none => exit (tr ++ [Println (lit "Done!")]) 0
      else exit (tr ++ [Println (lit "Bye!")]) 0

/-- The branch `if *startInstances` of `main`. -/
def startInstancesBranch (env : Env) (tr : List Event) : Outcome :=
  match env.args with
  | [] => exit (tr ++ [Println (lit "Instance details file required but not supplied")]) 1
  | instanceReport :: _ =>
    if env.notExist instanceReport then
      exit (tr ++ [Printf (lit "No config file found at: %s\n") [.s instanceReport]]) 1
    else
      match env.readFile instanceReport with
      | .error err => panic tr err
      | .ok jsonData =>
        match Unmarshal jsonData with
        | .error err => panic tr err.Error
        | .ok ec2ReportObj =>
          let targets := collectTargets ec2ReportObj.entries
          let instanceIDs := targets.1
          let tr := tr ++ [Printf (lit "\nThe following instances will be started:\n") [],
            Printf (lit "----------------------------------------\n\n") []] ++ targets.2
            ++ [Printf (lit "\nContinue: (y/n) ") [], .scanln]
          if ToLower env.response = lit "y" then
            let startInstanceParams := CreateEC2StartInstanceParams instanceIDs false
            let tr := tr ++ [Println (lit "Starting specified instances..."),
              .StartInstances startInstanceParams]
            match env.StartInstances startInstanceParams with
            | some err =>
              if !Contains err (lit "DryRunOperation") then panic tr err
              else exit (tr ++ [Println (lit "Done!")]) 0
            | none => exit (tr ++ [Println (lit "Done!")]) 0
          else exit (tr ++ [Println (lit "Bye!")]) 0

/-- The branch `if *launchInstances` of `main`; `clock` is the number of calls of
`time.Now()` made before it. -/
def launchInstancesBranch (env : Env) (clock : Nat) (tr : List Event) : Outcome :=
  match env.args with
  | [] => exit (tr ++ [Println (lit "Instance config file required but not supplied")]) 1
  | instanceConf :: _ =>
    if env.notExist instanceConf then
      exit (tr ++ [Printf (lit "No instance config file found at: %s\n") [.s instanceConf]]) 1
    else
      match env.iniLoadFile instanceConf with
      | .error err => exit (tr ++ [Println err]) 1
      | .ok configFile =>
        let amiID := (configFile (lit "instance") (lit "ami_id")).getD []
        let amiName := (configFile (lit "instance") (lit "ami_name")).getD []
        let instanceType := (configFile (lit "instance") (lit "instance_type")).getD []
        let countString := (configFile (lit "instance") (lit "count")).getD []
        let count := (ParseInt countString).1
        let tr := tr ++ [Println (lit "\nLaunch request details:"),
          Printf (lit "-----------------------\n\n") [],
          Printf (lit "AMI Name: %s\nInstance type: %s\nCount: %d\n\n")
            [.s amiName, .s instanceType, .d count],
          Printf (lit "Continue: (y/n) ") [], .scanln]
        if ToLower env.response = lit "y" then
          let createInstanceParams := CreateEC2RunInstanceParams amiID instanceType count
          let tr := tr ++ [.RunInstances createInstanceParams]
          match env.RunInstances createInstanceParams with
          | .error err => exit (tr ++ [Println err]) 1
          | .ok runResponse =>
            let reportType := lit "launch"
            match GetInstanceDetails runResponse with
            | none => panic tr nilDereference
            | some report =>
              match WriteInstanceDetailsReport env (env.now clock) report reportType with
              | (name, data, err) =>
                let tr := tr ++ [.writeFile name data]
                match err with
                | some e => exit (tr ++ [Println e]) 1
                | none => exit (tr ++ [Println (lit "Done!")]) 0
        else exit (tr ++ [Println (lit "Bye!")]) 0

/-- The part of `main` after the EC2 client exists and the instance-type listing has
been passed: the `if` statements for the lifecycle operations, in source order.
Each of them ends the process, so only the first whose flag is set runs. -/
def lifecycle (flags : Flags) (env : Env) (clock : Nat) (tr : List Event) : Outcome :=
  if flags.stopAllInstances then stopAllInstancesBranch env tr
  else if flags.stopInstances then stopInstancesBranch env tr
  else if flags.startAllInstances then startAllInstancesBranch env tr
  else if flags.startInstances then startInstancesBranch env tr
  else if flags.launchInstances then launchInstancesBranch env clock tr
  else exit tr 0

/-- Go `main`. -/
def main (flags : Flags) (env : Env) : Outcome :=
  if flags.help then exit [Println (lit "\nWill show a help message eventually.\n")] 0
  else
    match DefaultAWSRegion env flags.awsConf with
    | (_, some err) => exit [Println err] 1
    | (region, none) =>
      match CreateNewEC2ClientCredentials env flags.awsConf with
      | .error err => exit [Println err] 1
      | .ok _ =>
        match env.newSession with
        | some err => panic [] err
        | none =>
          if flags.listInstanceTypes then listInstanceTypesBranch env region []
          else if flags.listInstances then
            match listInstancesBranch env [] with
            | .inl out => out
            | .inr tr => lifecycle flags env 1 tr
          else lifecycle flags env 0 []

/-! ## Vocabulary of the properties -/

/-- An event that is neither a read of operator input nor a stop, start or run
request. -/
def Event.quiet : Event → Bool
  | .scanln => false
  | .StopInstances _ => false
  | .StartInstances _ => false
  | .RunInstances _ => false
  | _ => true

/-- A stop, start or run request to the provider. -/
def Event.mutating : Event → Bool
  | .StopInstances _ => true
  | .StartInstances _ => true
  | .RunInstances _ => true
  | _ => false

/-- The number a string of decimal digits denotes (leading zeros allowed). -/
def digitsValue (l : GoString) : Nat :=
  l.foldl (fun acc d => acc * 10 + (d - 48)) 0

/-- Go `t.UnixNano()` without its overflow: the instant in nanoseconds since the Unix
epoch. -/
def Time.UnixNano (t : Time) : Int := t.unix * 1000000000 + t.nsec

/-- Every field of the entry is valid UTF-8. -/
def EC2InstanceDetails.validUTF8 (d : EC2InstanceDetails) : Bool :=
  ValidString d.Name && ValidString d.InstanceID && ValidString d.InstanceType
    && ValidString d.InstanceState && ValidString d.PrivateIP && ValidString d.PublicIP

/-- The JSON value the encoder writes for one entry. -/
def detailsTree (d : EC2InstanceDetails) : JSON :=
  .object [(lit "name", .string d.Name), (lit "instance_id", .string d.InstanceID),
    (lit "instance_type", .string d.InstanceType), (lit "instance_state", .string d.InstanceState),
    (lit "private_ip", .string d.PrivateIP), (lit "public_ip", .string d.PublicIP)]

/-- The JSON value the encoder writes for the slice. -/
def sliceTree : Option (List EC2InstanceDetails) → JSON
  | none => .null
  | some l => .array (l.map detailsTree)

/-- A write of a file through `ioutil.WriteFile`. -/
def Event.isWriteFile : Event → Bool
  | .writeFile _ _ => true
  | _ => false

/-- The invocation gets as far as the lifecycle operations with nothing done yet:
no `--help`, the region and the credentials load, the session is created, and
neither listing flag is set. -/
def started (flags : Flags) (env : Env) : Bool :=
  !flags.help && (DefaultAWSRegion env flags.awsConf).2.isNone
    && (match CreateNewEC2ClientCredentials env flags.awsConf with
        | .ok _ => true
        | .error _ => false)
    && env.newSession.isNone && !flags.listInstanceTypes && !flags.listInstances

/-- A tag whose pointers the name loop can dereference: the key is present, and so
is the value when the key is `"Name"`. -/
def Tag.complete (t : Tag) : Bool :=
  t.Key.isSome && (t.Key != some (lit "Name") || t.Value.isSome)

/-- An instance the loop body can read without a nil dereference: it carries a
state record and complete tags. -/
def Instance.complete (i : Instance) : Bool :=
  i.State.isSome && i.Tags.all Tag.complete

/-- The last tag of a tag set whose key is `"Name"`, if there is one. -/
def lastNameTag (tags : List Tag) : Option Tag :=
  (tags.filter fun t => t.Key == some (lit "Name")).getLast?

/-- The entry the loop body builds for an instance it can read: the resolved name
and the five copied fields, an absent field left at the empty string. -/
def detailsOf (i : Instance) : EC2InstanceDetails :=
  { Name := match lastNameTag i.Tags with
      | none => lit "None"
      | some t => QueryEscape (t.Value.getD [])
    InstanceID := i.InstanceId.getD []
    InstanceType := i.InstanceType.getD []
    InstanceState := (i.State.bind fun st => st.Name).getD []
    PrivateIP := i.PrivateIpAddress.getD []
    PublicIP := i.PublicIpAddress.getD [] }

/-! ## Sample inputs -/

/-- No flag set, the default `--aws-config`. -/
def noFlags : Flags :=
  { help := false, listInstances := false, listInstanceTypes := false,
    stopAllInstances := false, stopInstances := false, startAllInstances := false,
    startInstances := false, launchInstances := false, awsConf := lit ".aws/config" }

/-- A provider instance as EC2 reports it: all fields present, one `Name` tag. -/
def sampleInstance (id state name : String) : Instance :=
  { InstanceId := some (lit id), InstanceType := some (lit "t3.micro"),
    State := some { Name := some (lit state) },
    PrivateIpAddress := some (lit "10.0.0.5"), PublicIpAddress := none,
    Tags := [{ Key := some (lit "Name"), Value := some (lit name) }] }

/-- A report file with one instance, `i-abc123`. -/
def sampleReportFile : GoString :=
  lit ("\x7b\"instances\":[\x7b\"name\":\"None\",\"instance_id\":\"i-abc123\","
    ++ "\"instance_type\":\"t3.micro\",\"instance_state\":\"stopped\","
    ++ "\"private_ip\":\"\",\"public_ip\":\"\"\x7d]\x7d")

/-- The launch configuration file of the sample environment: `ami-1`, `t3.micro`,
count `3`. -/
def sampleConfig : IniFile := fun sec key =>
  if sec = lit "instance" ∧ key = lit "ami_id" then some (lit "ami-1")
  else if sec = lit "instance" ∧ key = lit "instance_type" then some (lit "t3.micro")
  else if sec = lit "instance" ∧ key = lit "count" then some (lit "3")
  else none

/-- An environment in which every file exists and loads, the account holds two
running instances, every provider call succeeds, the clock reads 07:05:00 UTC on
9 March 2024, and the operator answers `n`. -/
def sampleEnv : Env :=
  { args := [lit "report.json"]
    notExist := fun _ => false
    iniLoadFile := fun _ => .ok sampleConfig
    readFile := fun _ => .ok sampleReportFile
    writeFile := fun _ _ => none
    create := fun _ => none
    now := fun _ => { unix := 1709967900, nsec := 0, offset := 0 }
    stdin := lit "n\n"
    newSession := none
    DescribeInstanceTypeOfferings := fun _ => ({ InstanceTypeOfferings := [] }, none)
    DescribeInstances := fun _ =>
      ({ Reservations := [{ Instances := [sampleInstance "i-1" "running" "web"] },
          { Instances := [sampleInstance "i-2" "running" "db"] }] }, none)
    StopInstances := fun _ => none
    StartInstances := fun _ => none
    RunInstances := fun _ =>
      .ok { Instances := [sampleInstance "i-a" "pending" "x", sampleInstance "i-b" "pending" "y",
        sampleInstance "i-c" "pending" "z"] } }

/-- The sample environment with the operator answering `y`. -/
def yesEnv : Env := { sampleEnv with stdin := lit "y\n" }

/-- The sample environment with an account that holds no instance. -/
def emptyAccountEnv : Env :=
  { sampleEnv with DescribeInstances := fun _ => ({ Reservations := [] }, none) }

/-- The operator answers `Y` and the provider refuses every stop request. -/
def deniedStopEnv : Env :=
  { sampleEnv with
    stdin := lit "Y\n"
    StopInstances := fun _ => some (lit "UnauthorizedOperation: denied") }

/-- The operator answers `y` and the provider answers every run request with the
error of a dry run. -/
def dryRunLaunchEnv : Env :=
  { sampleEnv with
    stdin := lit "y\n"
    RunInstances := fun _ =>
      .error (lit "DryRunOperation: Request would have succeeded, but DryRun flag is set.") }

/-- A provider instance without a state record. -/
def statelessInstance : Instance :=
  { sampleInstance "i-a" "pending" "x" with State := none }

/-- The operator answers `y` and the reservation of every run request holds an
instance without a state record. -/
def statelessLaunchEnv : Env :=
  { sampleEnv with
    stdin := lit "y\n"
    RunInstances := fun _ => .ok { Instances := [statelessInstance] } }

/-- Only `--stop-all-instances`. -/
def stopAllFlags : Flags := { noFlags with stopAllInstances := true }

/-- Only `--stop-instances`. -/
def stopFlags : Flags := { noFlags with stopInstances := true }

/-- Only `--start-all-instances`. -/
def startAllFlags : Flags := { noFlags with startAllInstances := true }

/-- Only `--start-instances`. -/
def startFlags : Flags := { noFlags with startInstances := true }

/-- Only `--launch-instances`. -/
def launchFlags : Flags := { noFlags with launchInstances := true }

/-- Only `--list-instances`. -/
def listFlags : Flags := { noFlags with listInstances := true }

/-- The sample launch configuration with the given `count` entry; `none` is a file
without the key. -/
def configWithCount (count : Option GoString) : IniFile := fun sec key =>
  if sec = lit "instance" ∧ key = lit "ami_id" then some (lit "ami-1")
  else if sec = lit "instance" ∧ key = lit "instance_type" then some (lit "t3.micro")
  else if sec = lit "instance" ∧ key = lit "count" then count
  else none

/-- The operator answers `y`, the launch configuration carries the given `count`
entry, and the provider refuses the run request. -/
def countEnv (count : Option GoString) : Env :=
  { sampleEnv with
    stdin := lit "y\n"
    iniLoadFile := fun _ => .ok (configWithCount count)
    RunInstances := fun _ =>
      .error (lit "InvalidParameterValue: Value (0) for parameter minCount is invalid.") }

/-- The enumerate-instances call fails: the client returns the call-level error
together with an output that holds no reservation. -/
def enumerateErrorEnv : Env :=
  { sampleEnv with
    DescribeInstances := fun _ =>
      ({ Reservations := [] }, some (lit "RequestError: send request failed")) }

/-- The operator answers `y` and the report file exists but cannot be read. -/
def unreadableFileEnv : Env :=
  { sampleEnv with
    stdin := lit "y\n"
    readFile := fun _ => .error (lit "open report.json: permission denied") }

/-- The operator answers `y` and the report file does not hold JSON. -/
def garbledFileEnv : Env :=
  { sampleEnv with
    stdin := lit "y\n"
    readFile := fun _ => .ok (lit "not a report") }

/-- The operator answers `y` and the provider refuses every start request. -/
def deniedStartEnv : Env :=
  { sampleEnv with
    stdin := lit "y\n"
    StartInstances := fun _ => some (lit "UnauthorizedOperation: denied") }

/-- The report file `report.json` does not exist (the configuration does). -/
def missingFileEnv : Env :=
  { sampleEnv with notExist := fun path => decide (path = lit "report.json") }

/-- The operator sends an empty line. -/
def emptyLineEnv : Env := { sampleEnv with stdin := lit "\n" }

/-- The operator types `y no`. -/
def trailingTextEnv : Env := { sampleEnv with stdin := lit "y no\n" }

/-- The operator types a blank and then `y`. -/
def leadingBlankEnv : Env := { sampleEnv with stdin := lit " y\n" }

/-- No positional argument is given. -/
def noArgsEnv : Env := { sampleEnv with args := [] }

/-- The operator answers `y` and the provider answers every start request with the
error of a dry run. -/
def dryRunStartEnv : Env :=
  { sampleEnv with
    stdin := lit "y\n"
    StartInstances := fun _ =>
      some (lit "DryRunOperation: Request would have succeeded, but DryRun flag is set.") }

/-! # Properties

Helper lemmas first, in the order of the definitions they are about. -/

/-! ## Strings and UTF-8 -/

theorem lowerASCII_eq_y (b : Nat) : lowerASCII b = 121 ↔ b = 121 ∨ b = 89 := by
  unfold lowerASCII
  split <;> omega

theorem EncodeRune_ne_nil (r : Nat) : EncodeRune r ≠ [] := by
  unfold EncodeRune
  repeat' split
  all_goals simp

theorem EncodeRune_singleton (r b : Nat) (h : EncodeRune r = [b]) : r = b ∧ r < 0x80 := by
  unfold EncodeRune at h
  repeat' split at h
  all_goals simp_all

/-- The shapes of a result of `DecodeRune` on a non-empty input: an encoding error,
an ASCII byte, or a well-formed sequence of two, three or four bytes. -/
theorem DecodeRune_cases (p0 : Nat) (rest : GoString) :
    DecodeRune (p0 :: rest) = (RuneError, 1)
    ∨ (p0 < 0x80 ∧ DecodeRune (p0 :: rest) = (p0, 1))
    ∨ (∃ b1 t, rest = b1 :: t ∧ 0xC2 ≤ p0 ∧ p0 < 0xE0 ∧ 0x80 ≤ b1 ∧ b1 ≤ 0xBF
        ∧ DecodeRune (p0 :: rest) = ((p0 % 32) * 64 + b1 % 64, 2))
    ∨ (∃ b1 b2 t, rest = b1 :: b2 :: t ∧ 0xE0 ≤ p0 ∧ p0 < 0xF0
        ∧ (if p0 = 0xE0 then 0xA0 else 0x80) ≤ b1 ∧ b1 ≤ (if p0 = 0xED then 0x9F else 0xBF)
        ∧ 0x80 ≤ b2 ∧ b2 ≤ 0xBF
        ∧ DecodeRune (p0 :: rest) = ((p0 % 16) * 4096 + (b1 % 64) * 64 + b2 % 64, 3))
    ∨ (∃ b1 b2 b3 t, rest = b1 :: b2 :: b3 :: t ∧ 0xF0 ≤ p0 ∧ p0 < 0xF5
        ∧ (if p0 = 0xF0 then 0x90 else 0x80) ≤ b1 ∧ b1 ≤ (if p0 = 0xF4 then 0x8F else 0xBF)
        ∧ 0x80 ≤ b2 ∧ b2 ≤ 0xBF ∧ 0x80 ≤ b3 ∧ b3 ≤ 0xBF
        ∧ DecodeRune (p0 :: rest)
          = ((p0 % 8) * 262144 + (b1 % 64) * 4096 + (b2 % 64) * 64 + b3 % 64, 4)) := by
  by_cases h1 : p0 < 0x80
  · right; left
    exact ⟨h1, by simp [DecodeRune, h1]⟩
  by_cases h2 : p0 < 0xC2
  · left; simp [DecodeRune, h1, h2]
  by_cases h3 : p0 < 0xE0
  · match rest with
    | [] => left; simp [DecodeRune, h1, h2, h3]
    | b1 :: t =>
      by_cases hc : isCont b1 = true
      · right; right; left
        have hc2 := hc
        simp only [isCont, Bool.and_eq_true, decide_eq_true_eq] at hc2
        exact ⟨b1, t, rfl, by omega, h3, hc2.1, hc2.2, by simp [DecodeRune, h1, h2, h3, hc]⟩
      · left; simp [DecodeRune, h1, h2, h3, hc]
  by_cases h4 : p0 < 0xF0
  · match rest with
    | [] => left; simp [DecodeRune, h1, h2, h3, h4]
    | [_] => left; simp [DecodeRune, h1, h2, h3, h4]
    | b1 :: b2 :: t =>
      by_cases hc : ((if p0 = 0xE0 then 0xA0 else 0x80) ≤ b1 ∧
          b1 ≤ (if p0 = 0xED then 0x9F else 0xBF)) ∧ isCont b2 = true
      · right; right; right; left
        have hc2 := hc.2
        simp only [isCont, Bool.and_eq_true, decide_eq_true_eq] at hc2
        refine ⟨b1, b2, t, rfl, by omega, h4, hc.1.1, hc.1.2, hc2.1, hc2.2, ?_⟩
        simp only [DecodeRune, h1, h2, h3, h4, if_true, if_false, Bool.and_eq_true,
          decide_eq_true_eq]
        rw [if_pos hc]
      · left
        simp only [DecodeRune, h1, h2, h3, h4, if_true, if_false, Bool.and_eq_true,
          decide_eq_true_eq]
        rw [if_neg hc]
  by_cases h5 : p0 < 0xF5
  · match rest with
    | [] => left; simp [DecodeRune, h1, h2, h3, h4, h5]
    | [_] => left; simp [DecodeRune, h1, h2, h3, h4, h5]
    | [_, _] => left; simp [DecodeRune, h1, h2, h3, h4, h5]
    | b1 :: b2 :: b3 :: t =>
      by_cases hc : (((if p0 = 0xF0 then 0x90 else 0x80) ≤ b1 ∧
          b1 ≤ (if p0 = 0xF4 then 0x8F else 0xBF)) ∧ isCont b2 = true) ∧ isCont b3 = true
      · right; right; right; right
        have hc2 := hc.1.2
        have hc3 := hc.2
        simp only [isCont, Bool.and_eq_true, decide_eq_true_eq] at hc2 hc3
        refine ⟨b1, b2, b3, t, rfl, by omega, h5, hc.1.1.1, hc.1.1.2, hc2.1, hc2.2,
          hc3.1, hc3.2, ?_⟩
        simp only [DecodeRune, h1, h2, h3, h4, h5, if_true, if_false, Bool.and_eq_true,
          decide_eq_true_eq]
        rw [if_pos hc]
      · left
        simp only [DecodeRune, h1, h2, h3, h4, h5, if_true, if_false, Bool.and_eq_true,
          decide_eq_true_eq]
        rw [if_neg hc]
  · left; simp [DecodeRune, h1, h2, h3, h4, h5]

theorem DecodeRune_lt_128 (b : Nat) (s : GoString) (h : (DecodeRune (b :: s)).1 < 0x80) :
    b < 0x80 := by
  rcases DecodeRune_cases b s with h1 | ⟨h1, _⟩ | ⟨b1, t, _, _, _, _, _, h1⟩ |
      ⟨b1, b2, t, _, _, _, _, _, _, _, h1⟩ | ⟨b1, b2, b3, t, _, _, _, _, _, _, _, _, _, h1⟩
  · rw [h1] at h; simp [RuneError] at h
  · exact h1
  · rw [h1] at h; simp only at h; omega
  · rw [h1] at h; simp only at h; split_ifs at * <;> omega
  · rw [h1] at h; simp only at h; split_ifs at * <;> omega

theorem unicodeToLower_eq_y (r : Nat) (h : unicodeToLower r = 121) : r < 0x80 := by
  unfold unicodeToLower at h
  repeat' split at h
  all_goals omega

theorem ToLower_eq_y (s : GoString) : ToLower s = lit "y" ↔ s = lit "y" ∨ s = lit "Y" := by
  have hy : lit "y" = [121] := by decide
  have hY : lit "Y" = [89] := by decide
  rw [hy, hY]
  unfold ToLower
  constructor
  · intro h
    split at h
    · cases s with
      | nil => simp at h
      | cons b t =>
        cases t with
        | cons c u => simp at h
        | nil =>
          simp only [List.map_cons, List.map_nil, List.cons.injEq, and_true] at h
          have := (lowerASCII_eq_y b).1 h
          rcases this with h | h <;> simp [h]
    · rename_i hall
      cases s with
      | nil => simp at hall
      | cons b t =>
        simp only [List.length_cons, mapLoop] at h
        have h1 := List.append_eq_cons_iff.1 h
        rcases h1 with ⟨h1, _⟩ | ⟨a, h1, h2⟩
        · exact absurd h1 (EncodeRune_ne_nil _)
        · have h3 : a = [] ∧ mapLoop unicodeToLower t.length (List.drop (DecodeRune (b :: t)).2 (b :: t)) = [] := by
            simpa using h2.symm
          rw [h3.1] at h1
          have h4 := EncodeRune_singleton _ _ h1
          have h5 := unicodeToLower_eq_y _ h4.1
          have hb := DecodeRune_lt_128 _ _ h5
          have hd : DecodeRune (b :: t) = (b, 1) := by simp [DecodeRune, hb]
          rw [hd] at h3
          simp only [List.drop_succ_cons, List.drop_zero] at h3
          have ht : t = [] := by
            cases t with
            | nil => rfl
            | cons c u =>
              have := h3.2
              simp only [List.length_cons, mapLoop] at this
              have h6 := (List.append_eq_nil.1 this).1
              exact absurd h6 (EncodeRune_ne_nil _)
          subst ht
          simp [hb] at hall
  · rintro (h | h) <;> subst h <;> decide

/-! ## The process -/

theorem foldl_append_singleton {α : Type} (l acc : List α) :
    l.foldl (fun acc x => acc ++ [x]) acc = acc ++ l := by
  induction l generalizing acc with
  | nil => simp
  | cons a l ih => simp [ih]

theorem collectTargets_aux (entries : List EC2InstanceDetails) (acc : List GoString × List Event) :
    (entries.foldl
      (fun (acc : List GoString × List Event) inst =>
        (acc.1 ++ [inst.InstanceID],
          acc.2 ++ [Printf (lit "Name: %s, ID: %s, Instance type: %s\n")
            [.s inst.Name, .s inst.InstanceID, .s inst.InstanceType]]))
      acc)
    = (acc.1 ++ entries.map (fun inst => inst.InstanceID),
        acc.2 ++ entries.map (fun inst =>
          Printf (lit "Name: %s, ID: %s, Instance type: %s\n")
            [.s inst.Name, .s inst.InstanceID, .s inst.InstanceType])) := by
  induction entries generalizing acc with
  | nil => simp
  | cons a l ih => simp [ih]

theorem collectTargets_fst (entries : List EC2InstanceDetails) :
    (collectTargets entries).1 = entries.map (fun inst => inst.InstanceID) := by
  simp [collectTargets, collectTargets_aux]

theorem collectTargets_quiet (entries : List EC2InstanceDetails) :
    (collectTargets entries).2.all Event.quiet = true := by
  simp only [collectTargets, collectTargets_aux, List.nil_append, List.all_eq_true, List.mem_map]
  rintro e ⟨_, _, rfl⟩
  rfl

theorem PrintEC2InstanceReport_quiet (report : EC2InstanceReport) :
    (PrintEC2InstanceReport report).all Event.quiet = true := by
  unfold PrintEC2InstanceReport
  generalize report.entries = l
  have : ∀ (f : EC2InstanceDetails → Event) (acc : List Event),
      l.foldl (fun out elem => out ++ [f elem]) acc = acc ++ l.map f := by
    intro f acc
    induction l generalizing acc with
    | nil => simp
    | cons a l ih => simp [ih]
  simp only []
  rw [this (fun elem => Printf _ [.s elem.Name, .s elem.InstanceID, .s elem.InstanceType,
    .s elem.InstanceState, .s elem.PublicIP, .s elem.PrivateIP])]
  simp only [List.nil_append, List.all_eq_true, List.mem_append, List.mem_cons,
    List.mem_singleton, List.mem_map, List.not_mem_nil, or_false]
  rintro e ((rfl | rfl) | ⟨_, _, rfl⟩) <;> rfl

/-- Every way `main` can end is either an outcome without operator input and
without a stop, start or run request, or the outcome of the lifecycle part started
after effects of that kind. -/
theorem main_cases (P : Outcome → Prop) (flags : Flags) (env : Env)
    (hquiet : ∀ o : Outcome, o.trace.all Event.quiet = true → P o)
    (hlife : ∀ clock tr, tr.all Event.quiet = true → P (lifecycle flags env clock tr)) :
    P (main flags env) := by
  unfold main
  split
  · exact hquiet _ (by simp [exit, Println, Event.quiet])
  split
  · exact hquiet _ (by simp [exit, Println, Event.quiet])
  split
  · exact hquiet _ (by simp [exit, Println, Event.quiet])
  split
  · exact hquiet _ (by simp [panic, Event.quiet])
  split
  · unfold listInstanceTypesBranch
    apply hquiet
    simp only
    split
    · simp [panic, Event.quiet]
    · split <;> simp [exit, Println, Printf, Event.quiet]
  split
  · split
    · rename_i out hout
      unfold listInstancesBranch at hout
      simp only at hout
      split at hout
      · cases hout
        exact hquiet _ (by simp [panic, Event.quiet])
      · split at hout
        · cases hout
          apply hquiet
          simp [panic, List.all_append, PrintEC2InstanceReport_quiet, Event.quiet, Printf]
        · cases hout
    · rename_i tr htr
      apply hlife
      unfold listInstancesBranch at htr
      simp only at htr
      split at htr
      · cases htr
      · split at htr
        · cases htr
        · cases htr
          simp [List.all_append, PrintEC2InstanceReport_quiet, Event.quiet, Printf]
  · exact hlife _ _ (by simp)

theorem filter_mutating_of_quiet (tr : List Event) (h : tr.all Event.quiet = true) :
    tr.filter Event.mutating = [] := by
  rw [List.filter_eq_nil_iff]
  intro e he
  have := List.all_eq_true.1 h e he
  cases e <;> simp_all [Event.quiet, Event.mutating]

theorem scanln_not_mem_of_quiet (tr : List Event) (h : tr.all Event.quiet = true) :
    Event.scanln ∉ tr := by
  intro he
  have := List.all_eq_true.1 h _ he
  simp [Event.quiet] at this

theorem ToLower_ne_y (s : GoString) (hy : s ≠ lit "y") (hY : s ≠ lit "Y") :
    ¬ ToLower s = lit "y" := by
  rw [ToLower_eq_y]
  exact fun h => h.elim hy hY

theorem getLast?_snoc {α : Type} (l : List α) (a : α) : (l ++ [a]).getLast? = some a := by
  simp

theorem not_mem_of_quiet (tr : List Event) (h : tr.all Event.quiet = true) (e : Event)
    (he : e.quiet = false) : e ∉ tr := by
  intro hm
  have := List.all_eq_true.1 h _ hm
  simp [he] at this

theorem main_of_started (flags : Flags) (env : Env) (h : started flags env = true) :
    main flags env = lifecycle flags env 0 [] := by
  simp only [started, Bool.and_eq_true, Bool.not_eq_true', Option.isNone_iff_eq_none] at h
  obtain ⟨⟨⟨⟨⟨h0, h1⟩, h2⟩, h3⟩, h4⟩, h5⟩ := h
  unfold main
  rw [if_neg (by simp [h0])]
  split
  · rename_i heq; rw [heq] at h1; simp at h1
  · split
    · rename_i heq; rw [heq] at h2; simp at h2
    · simp [h3, h4, h5]

/-! ## The claims about `main` -/

/-- An answer that is stored as neither `"y"` nor `"Y"` keeps every invocation from
sending a stop, start or run request. -/
theorem no_request_of_decline (flags : Flags) (env : Env)
    (hy : env.response ≠ lit "y") (hY : env.response ≠ lit "Y") :
    (main flags env).trace.filter Event.mutating = [] := by
  apply main_cases (fun o => o.trace.filter Event.mutating = [])
  · intro o ho
    exact filter_mutating_of_quiet _ ho
  · intro clock tr htr
    have hno := ToLower_ne_y _ hy hY
    have hf := filter_mutating_of_quiet tr htr
    have hc := fun l => filter_mutating_of_quiet _ (collectTargets_quiet l)
    unfold lifecycle
    split
    · unfold stopAllInstancesBranch
      simp only [hno, if_false]
      repeat' split
      all_goals simp [exit, panic, hf, hc, List.filter_append, Printf, Println, Event.mutating]
    split
    · unfold stopInstancesBranch
      simp only [hno, if_false]
      repeat' split
      all_goals simp [exit, panic, hf, hc, List.filter_append, Printf, Println, Event.mutating]
    split
    · unfold startAllInstancesBranch
      simp only [hno, if_false]
      repeat' split
      all_goals simp [exit, panic, hf, hc, List.filter_append, Printf, Println, Event.mutating]
    split
    · unfold startInstancesBranch
      simp only [hno, if_false]
      repeat' split
      all_goals simp [exit, panic, hf, hc, List.filter_append, Printf, Println, Event.mutating]
    split
    · unfold launchInstancesBranch
      simp only [hno, if_false]
      repeat' split
      all_goals simp [exit, panic, hf, hc, List.filter_append, Printf, Println, Event.mutating]
    · simp [exit, hf]

/-- An invocation that reads an answer stored as neither `"y"` nor `"Y"`, after a
listing or not, prints `Bye!` last and exits with status 0. -/
theorem bye_of_decline_read (flags : Flags) (env : Env)
    (hread : Event.scanln ∈ (main flags env).trace)
    (hy : env.response ≠ lit "y") (hY : env.response ≠ lit "Y") :
    (main flags env).trace.filter Event.mutating = []
    ∧ (main flags env).trace.getLast? = some (Println (lit "Bye!"))
    ∧ (main flags env).exitCode = 0 := by
  revert hread
  apply main_cases (fun o => Event.scanln ∈ o.trace →
    o.trace.filter Event.mutating = [] ∧ o.trace.getLast? = some (Println (lit "Bye!"))
      ∧ o.exitCode = 0)
  · intro o ho hread
    exact absurd hread (scanln_not_mem_of_quiet _ ho)
  · intro clock tr htr
    have hno := ToLower_ne_y _ hy hY
    have hf := filter_mutating_of_quiet tr htr
    have hs := scanln_not_mem_of_quiet tr htr
    have hc := fun l => filter_mutating_of_quiet _ (collectTargets_quiet l)
    have hcs := fun l => scanln_not_mem_of_quiet _ (collectTargets_quiet l)
    unfold lifecycle
    split
    · unfold stopAllInstancesBranch
      simp only [hno, if_false]
      split
      · simp [panic, hs]
      · split
        · simp [exit, hs, Println]
        · intro _
          refine ⟨?_, getLast?_snoc _ _, rfl⟩
          simp [exit, hf, hc, List.filter_append, Printf, Println, Event.mutating]
    split
    · unfold stopInstancesBranch
      simp only [hno, if_false]
      repeat' split
      all_goals first
        | (simp [exit, hs, Println, Printf]; done)
        | (intro _
           refine ⟨?_, getLast?_snoc _ _, rfl⟩
           simp [exit, hf, hc, List.filter_append, Printf, Println, Event.mutating])
    split
    · unfold startAllInstancesBranch
      simp only [hno, if_false]
      split
      · simp [panic, hs]
      · split
        · simp [exit, hs, Println]
        · intro _
          refine ⟨?_, getLast?_snoc _ _, rfl⟩
          simp [exit, hf, hc, List.filter_append, Printf, Println, Event.mutating]
    split
    · unfold startInstancesBranch
      simp only [hno, if_false]
      repeat' split
      all_goals first
        | (simp [exit, panic, hs, Println, Printf]; done)
        | (intro _
           refine ⟨?_, getLast?_snoc _ _, rfl⟩
           simp [exit, hf, hc, List.filter_append, Printf, Println, Event.mutating])
    split
    · unfold launchInstancesBranch
      simp only [hno, if_false]
      repeat' split
      all_goals first
        | (simp [exit, panic, hs, Println, Printf]; done)
        | (intro _
           refine ⟨?_, getLast?_snoc _ _, rfl⟩
           simp [exit, hf, hc, List.filter_append, Printf, Println, Event.mutating])
    · simp [exit, hs]

/-- C2, amended: let the first blank-separated word of the operator's line, which is
what `fmt.Scanln` stores (the empty string for an empty line or at the end of
input), be neither `"y"` nor `"Y"`. Then no invocation sends a StopInstances,
StartInstances or RunInstances request. And each of the five operations, when it is
the one that runs and its inputs take it to the prompt (stop-all and start-all: the
enumeration yields a non-empty report; stop-instances and start-instances: the
report file is named, exists, is read and decodes; launch: the configuration file is
named, exists and loads), reads the answer, prints `Bye!` as its last output and
exits with status 0. The same end holds of every invocation that reads the answer,
also after a listing. -/
theorem decline_issues_no_request (flags : Flags) (env : Env)
    (hy : Scanln env.stdin ≠ lit "y") (hY : Scanln env.stdin ≠ lit "Y") :
    (main flags env).trace.filter Event.mutating = []
    ∧ (started flags env = true →
        (flags.stopAllInstances = true →
          ∀ report,
            ParseDescribeInstanceOutput (env.DescribeInstances
              (CreateEC2InstanceFilterParams (lit "instance-state-name") [lit "running"])).1
              = some report →
            report.entries.length ≠ 0 →
            Event.scanln ∈ (main flags env).trace
            ∧ (main flags env).trace.getLast? = some (Println (lit "Bye!"))
            ∧ (main flags env).exitCode = 0)
        ∧ (flags.stopAllInstances = false → flags.stopInstances = true →
          ∀ path more data report,
            env.args = path :: more → env.notExist path = false →
            env.readFile path = .ok data → Unmarshal data = .ok report →
            Event.scanln ∈ (main flags env).trace
            ∧ (main flags env).trace.getLast? = some (Println (lit "Bye!"))
            ∧ (main flags env).exitCode = 0)
        ∧ (flags.stopAllInstances = false → flags.stopInstances = false →
          flags.startAllInstances = true →
          ∀ report,
            ParseDescribeInstanceOutput (env.DescribeInstances
              (CreateEC2InstanceFilterParams (lit "instance-state-name") [lit "stopped"])).1
              = some report →
            report.entries.length ≠ 0 →
            Event.scanln ∈ (main flags env).trace
            ∧ (main flags env).trace.getLast? = some (Println (lit "Bye!"))
            ∧ (main flags env).exitCode = 0)
        ∧ (flags.stopAllInstances = false → flags.stopInstances = false →
          flags.startAllInstances = false → flags.startInstances = true →
          ∀ path more data report,
            env.args = path :: more → env.notExist path = false →
            env.readFile path = .ok data → Unmarshal data = .ok report →
            Event.scanln ∈ (main flags env).trace
            ∧ (main flags env).trace.getLast? = some (Println (lit "Bye!"))
            ∧ (main flags env).exitCode = 0)
        ∧ (flags.stopAllInstances = false → flags.stopInstances = false →
          flags.startAllInstances = false → flags.startInstances = false →
          flags.launchInstances = true →
          ∀ path more config,
            env.args = path :: more → env.notExist path = false →
            env.iniLoadFile path = .ok config →
            Event.scanln ∈ (main flags env).trace
            ∧ (main flags env).trace.getLast? = some (Println (lit "Bye!"))
            ∧ (main flags env).exitCode = 0))
    ∧ (Event.scanln ∈ (main flags env).trace →
        (main flags env).trace.getLast? = some (Println (lit "Bye!"))
        ∧ (main flags env).exitCode = 0) := by
  have hno := ToLower_ne_y env.response hy hY
  refine ⟨no_request_of_decline flags env hy hY, fun hst => ?_,
    fun hread => (bye_of_decline_read flags env hread hy hY).2⟩
  rw [main_of_started flags env hst]
  refine ⟨?_, ?_, ?_, ?_, ?_⟩
  · intro h1 report hp hlen
    simp only [lifecycle, h1, if_true, stopAllInstancesBranch, hp, hlen, hno, if_false]
    refine ⟨?_, getLast?_snoc _ _, rfl⟩
    simp [exit]
  · intro h1 h2 path more data report ha hn hr hu
    simp only [lifecycle, h1, h2, if_true, Bool.false_eq_true, if_false, stopInstancesBranch,
      ha, hn, hr, hu, hno]
    refine ⟨?_, getLast?_snoc _ _, rfl⟩
    simp [exit]
  · intro h1 h2 h3 report hp hlen
    simp only [lifecycle, h1, h2, h3, if_true, Bool.false_eq_true, if_false,
      startAllInstancesBranch, hp, hlen, hno]
    refine ⟨?_, getLast?_snoc _ _, rfl⟩
    simp [exit]
  · intro h1 h2 h3 h4 path more data report ha hn hr hu
    simp only [lifecycle, h1, h2, h3, h4, if_true, Bool.false_eq_true, if_false,
      startInstancesBranch, ha, hn, hr, hu, hno]
    refine ⟨?_, getLast?_snoc _ _, rfl⟩
    simp [exit]
  · intro h1 h2 h3 h4 h5 path more config ha hn hl
    simp only [lifecycle, h1, h2, h3, h4, h5, if_true, Bool.false_eq_true, if_false,
      launchInstancesBranch, ha, hn, hl, hno]
    refine ⟨?_, getLast?_snoc _ _, rfl⟩
    simp [exit]

/-- C3, amended: for a stop or start request that was sent and for which the
provider returned the call-level error `e`, the exit status is non-zero exactly when
the message of `e` does not contain `DryRunOperation`; for a run request that was
sent and returned an error, the exit status is 1 whatever the message says. -/
theorem provider_error_exit_status (flags : Flags) (env : Env) :
    (∀ p e, Event.StopInstances p ∈ (main flags env).trace → env.StopInstances p = some e →
      ((main flags env).exitCode ≠ 0 ↔ Contains e (lit "DryRunOperation") = false))
    ∧ (∀ p e, Event.StartInstances p ∈ (main flags env).trace → env.StartInstances p = some e →
      ((main flags env).exitCode ≠ 0 ↔ Contains e (lit "DryRunOperation") = false))
    ∧ (∀ p e, Event.RunInstances p ∈ (main flags env).trace → env.RunInstances p = .error e →
      (main flags env).exitCode = 1) := by
  apply main_cases (fun o =>
    (∀ p e, Event.StopInstances p ∈ o.trace → env.StopInstances p = some e →
      (o.exitCode ≠ 0 ↔ Contains e (lit "DryRunOperation") = false))
    ∧ (∀ p e, Event.StartInstances p ∈ o.trace → env.StartInstances p = some e →
      (o.exitCode ≠ 0 ↔ Contains e (lit "DryRunOperation") = false))
    ∧ (∀ p e, Event.RunInstances p ∈ o.trace → env.RunInstances p = .error e →
      o.exitCode = 1))
  · intro o ho
    refine ⟨fun p e hm => ?_, fun p e hm => ?_, fun p e hm => ?_⟩ <;>
      exact absurd hm (not_mem_of_quiet _ ho _ rfl)
  · intro clock tr htr
    have h1 := fun p => not_mem_of_quiet tr htr (.StopInstances p) rfl
    have h2 := fun p => not_mem_of_quiet tr htr (.StartInstances p) rfl
    have h3 := fun p => not_mem_of_quiet tr htr (.RunInstances p) rfl
    have c1 := fun l p => not_mem_of_quiet _ (collectTargets_quiet l) (.StopInstances p) rfl
    have c2 := fun l p => not_mem_of_quiet _ (collectTargets_quiet l) (.StartInstances p) rfl
    have c3 := fun l p => not_mem_of_quiet _ (collectTargets_quiet l) (.RunInstances p) rfl
    unfold lifecycle
    split
    · unfold stopAllInstancesBranch
      simp only
      repeat' split
      all_goals
        simp only [exit, panic, Println, Printf, List.mem_append, List.mem_cons,
          List.mem_singleton, List.not_mem_nil, h1, h2, h3, c1, c2, c3, false_or, or_false,
          reduceCtorEq, Event.StopInstances.injEq, Event.StartInstances.injEq,
          Event.RunInstances.injEq, false_implies, implies_true, and_true, true_and]
      all_goals
        intro p e hp he
        subst hp
        simp_all
    split
    · unfold stopInstancesBranch
      simp only
      repeat' split
      all_goals
        simp only [exit, panic, Println, Printf, List.mem_append, List.mem_cons,
          List.mem_singleton, List.not_mem_nil, h1, h2, h3, c1, c2, c3, false_or, or_false,
          reduceCtorEq, Event.StopInstances.injEq, Event.StartInstances.injEq,
          Event.RunInstances.injEq, false_implies, implies_true, and_true, true_and]
      all_goals
        intro p e hp he
        subst hp
        simp_all
    split
    · unfold startAllInstancesBranch
      simp only
      repeat' split
      all_goals
        simp only [exit, panic, Println, Printf, List.mem_append, List.mem_cons,
          List.mem_singleton, List.not_mem_nil, h1, h2, h3, c1, c2, c3, false_or, or_false,
          reduceCtorEq, Event.StopInstances.injEq, Event.StartInstances.injEq,
          Event.RunInstances.injEq, false_implies, implies_true, and_true, true_and]
      all_goals
        intro p e hp he
        subst hp
        simp_all
    split
    · unfold startInstancesBranch
      simp only
      repeat' split
      all_goals
        simp only [exit, panic, Println, Printf, List.mem_append, List.mem_cons,
          List.mem_singleton, List.not_mem_nil, h1, h2, h3, c1, c2, c3, false_or, or_false,
          reduceCtorEq, Event.StopInstances.injEq, Event.StartInstances.injEq,
          Event.RunInstances.injEq, false_implies, implies_true, and_true, true_and]
      all_goals
        intro p e hp he
        subst hp
        simp_all
    split
    · unfold launchInstancesBranch
      simp only
      repeat' split
      all_goals
        simp only [exit, panic, Println, Printf, List.mem_append, List.mem_cons,
          List.mem_singleton, List.not_mem_nil, h1, h2, h3, c1, c2, c3, false_or, or_false,
          reduceCtorEq, Event.StopInstances.injEq, Event.StartInstances.injEq,
          Event.RunInstances.injEq, false_implies, implies_true, and_true, true_and]
      all_goals
        intro p e hp he
        subst hp
        simp_all
    · simp [exit, h1, h2, h3]

/-- C4: when stop-all-instances (or start-all-instances) resolves a report with zero
instances, the invocation never reads operator input, sends no stop, start or run
request, ends its output with `No running instances` (`No stopped instances`) and
exits with status 0. -/
theorem empty_target_set_no_prompt (flags : Flags) (env : Env) (report : EC2InstanceReport)
    (hstart : started flags env = true) (hzero : report.entries.length = 0) :
    (flags.stopAllInstances = true →
      ParseDescribeInstanceOutput (env.DescribeInstances
        (CreateEC2InstanceFilterParams (lit "instance-state-name") [lit "running"])).1
        = some report →
      Event.scanln ∉ (main flags env).trace
      ∧ (main flags env).trace.filter Event.mutating = []
      ∧ (main flags env).trace.getLast? = some (Println (lit "No running instances"))
      ∧ (main flags env).exitCode = 0)
    ∧ (flags.stopAllInstances = false → flags.stopInstances = false →
      flags.startAllInstances = true →
      ParseDescribeInstanceOutput (env.DescribeInstances
        (CreateEC2InstanceFilterParams (lit "instance-state-name") [lit "stopped"])).1
        = some report →
      Event.scanln ∉ (main flags env).trace
      ∧ (main flags env).trace.filter Event.mutating = []
      ∧ (main flags env).trace.getLast? = some (Println (lit "No stopped instances"))
      ∧ (main flags env).exitCode = 0) := by
  rw [main_of_started flags env hstart]
  constructor
  · intro h1 hrep
    simp [lifecycle, h1, stopAllInstancesBranch, hrep, hzero, exit, Event.mutating, Println]
  · intro h1 h2 h3 hrep
    simp [lifecycle, h1, h2, h3, startAllInstancesBranch, hrep, hzero, exit, Event.mutating, Println]

/-- C5: when the report file decodes to `r` and the operator answers `y`,
stop-instances (start-instances) sends exactly one request, a bulk stop (start),
whose ID list is the `instance_id` of the entries of `r` in report order, with the
dry-run flag off. -/
theorem confirmed_request_lists_report_ids (flags : Flags) (env : Env)
    (path : GoString) (more : List GoString) (data : GoString) (r : EC2InstanceReport)
    (hstart : started flags env = true) (hall : flags.stopAllInstances = false)
    (hargs : env.args = path :: more) (hexists : env.notExist path = false)
    (hread : env.readFile path = .ok data) (hdecode : Unmarshal data = .ok r)
    (hyes : env.response = lit "y") :
    (flags.stopInstances = true →
      (main flags env).trace.filter Event.mutating
        = [.StopInstances
            { InstanceIds := r.entries.map (fun d => d.InstanceID),
              DryRun := false, Force := false, Hibernate := false }])
    ∧ (flags.stopInstances = false → flags.startAllInstances = false →
        flags.startInstances = true →
      (main flags env).trace.filter Event.mutating
        = [.StartInstances
            { InstanceIds := r.entries.map (fun d => d.InstanceID), DryRun := false }]) := by
  rw [main_of_started flags env hstart]
  have hy : ToLower (lit "y") = lit "y" := by decide
  have hc := fun l => filter_mutating_of_quiet _ (collectTargets_quiet l)
  constructor
  · intro h1
    simp only [lifecycle, hall, h1, stopInstancesBranch, hargs, hexists, hread, hdecode, hyes, hy,
      if_true, if_false, Bool.false_eq_true]
    split <;> try split
    all_goals
      simp [exit, panic, List.filter_append, hc, Event.mutating, Printf, Println,
        CreateEC2StopInstanceParams, foldl_append_singleton, collectTargets_fst]
  · intro h1 h2 h3
    simp only [lifecycle, hall, h1, h2, h3, startInstancesBranch, hargs, hexists, hread, hdecode,
      hyes, hy, if_true, if_false, Bool.false_eq_true]
    split <;> try split
    all_goals
      simp [exit, panic, List.filter_append, hc, Event.mutating, Printf, Println,
        CreateEC2StartInstanceParams, foldl_append_singleton, collectTargets_fst]

/-! ## The instance loop of `ec2_utils.go` -/

theorem resolveName_aux (tags : List Tag) (name : GoString)
    (h : tags.all Tag.complete = true) :
    tags.foldlM
      (fun name keys =>
        match keys.Key with
        | none => none
        | some k =>
          if k = lit "Name" then
            match keys.Value with
            | none => none
            | some v => some (QueryEscape v)
          else some name)
      name
    = some (match lastNameTag tags with
        | none => name
        | some t => QueryEscape (t.Value.getD [])) := by
  induction tags generalizing name with
  | nil => simp [lastNameTag]
  | cons t ts ih =>
    simp only [List.all_cons, Bool.and_eq_true] at h
    obtain ⟨ht, hts⟩ := h
    simp only [List.foldlM_cons]
    obtain ⟨key, value⟩ := t
    cases key with
    | none => simp [Tag.complete] at ht
    | some k =>
      by_cases hk : k = lit "Name"
      · subst hk
        cases value with
        | none => simp [Tag.complete] at ht
        | some v =>
          simp only [if_true, Option.some_bind, Option.bind_eq_bind]
          rw [ih _ hts]
          simp only [lastNameTag, List.filter_cons, beq_self_eq_true, if_true]
          rw [List.getLast?_cons]
          cases (List.filter (fun t => t.Key == some (lit "Name")) ts).getLast? <;> simp
      · simp only [hk, if_false, Option.some_bind, Option.bind_eq_bind]
        rw [ih _ hts]
        simp [lastNameTag, List.filter_cons, hk]

theorem instanceDetails_of_complete (i : Instance) (h : i.complete = true) :
    instanceDetails i = some (detailsOf i) := by
  obtain ⟨id, ty, st, priv, pub, tags⟩ := i
  simp only [Instance.complete, Bool.and_eq_true] at h
  obtain ⟨hst, htags⟩ := h
  cases st with
  | none => simp at hst
  | some st =>
    obtain ⟨stName⟩ := st
    simp only [instanceDetails, resolveName, resolveName_aux tags _ htags, detailsOf,
      EC2InstanceDetails.zero]
    cases id <;> cases ty <;> cases stName <;> cases priv <;> cases pub <;> rfl

theorem foldlM_instanceDetails (l : List Instance) (acc : List EC2InstanceDetails)
    (h : ∀ i ∈ l, i.complete = true) :
    l.foldlM (fun instances inst =>
        (instanceDetails inst).map fun details => instances ++ [details]) acc
      = some (acc ++ l.map detailsOf) := by
  induction l generalizing acc with
  | nil => simp
  | cons i l ih =>
    simp only [List.foldlM_cons, instanceDetails_of_complete i (h i (List.mem_cons_self _ _)),
      Option.map_some', Option.some_bind, Option.bind_eq_bind]
    rw [ih _ (fun j hj => h j (List.mem_cons_of_mem _ hj))]
    simp

theorem ParseDescribeInstanceOutput_of_complete (results : DescribeInstancesOutput)
    (h : ∀ r ∈ results.Reservations, ∀ i ∈ r.Instances, i.complete = true) :
    ParseDescribeInstanceOutput results
      = some { Instances := some ((results.Reservations.flatMap fun r => r.Instances).map
          detailsOf) } := by
  unfold ParseDescribeInstanceOutput
  have key : ∀ (rs : List Reservation) (acc : List EC2InstanceDetails),
      (∀ r ∈ rs, ∀ i ∈ r.Instances, i.complete = true) →
      rs.foldlM (fun (instances : List EC2InstanceDetails) (reservation : Reservation) =>
        reservation.Instances.foldlM (fun instances inst =>
          (instanceDetails inst).map fun details => instances ++ [details]) instances) acc
        = some (acc ++ (rs.flatMap fun r => r.Instances).map detailsOf) := by
    intro rs
    induction rs with
    | nil => intro acc _; simp
    | cons r rs ih =>
      intro acc hr
      simp only [List.foldlM_cons, foldlM_instanceDetails _ _ (hr r (List.mem_cons_self _ _)),
        Option.some_bind, Option.bind_eq_bind]
      rw [ih _ (fun r' hr' => hr r' (List.mem_cons_of_mem _ hr'))]
      simp
  rw [key _ _ h]
  simp

theorem GetInstanceDetails_of_complete (reservation : Reservation)
    (h : ∀ i ∈ reservation.Instances, i.complete = true) :
    GetInstanceDetails reservation
      = some { Instances := some (reservation.Instances.map detailsOf) } := by
  unfold GetInstanceDetails
  rw [foldlM_instanceDetails _ _ h]
  simp

theorem lastNameTag_eq_none (tags : List Tag) (h : ∀ t ∈ tags, t.Key ≠ some (lit "Name")) :
    lastNameTag tags = none := by
  unfold lastNameTag
  rw [List.getLast?_eq_none_iff, List.filter_eq_nil_iff]
  intro t ht
  simpa using h t ht

/-! ## The claims about `ec2_utils.go` -/

/-- C6, amended: for every provider response whose instances each carry a state
record and tags with their key (and, for the key `Name`, their value) present,
`ParseDescribeInstanceOutput` returns a report with one entry per provider instance
in reservation order and then instance order: its length is the sum of the
reservations' instance counts, and each entry's ID, type, state, private and public
IP are the provider's fields, the empty string when a field is absent. -/
theorem parse_output_one_entry_per_instance (results : DescribeInstancesOutput)
    (h : ∀ r ∈ results.Reservations, ∀ i ∈ r.Instances, i.complete = true) :
    ∃ report, ParseDescribeInstanceOutput results = some report
      ∧ report.entries.length = (results.Reservations.map fun r => r.Instances.length).sum
      ∧ List.Forall₂
          (fun (inst : Instance) (d : EC2InstanceDetails) =>
            d.InstanceID = inst.InstanceId.getD []
            ∧ d.InstanceType = inst.InstanceType.getD []
            ∧ d.InstanceState = (inst.State.bind fun st => st.Name).getD []
            ∧ d.PrivateIP = inst.PrivateIpAddress.getD []
            ∧ d.PublicIP = inst.PublicIpAddress.getD [])
          (results.Reservations.flatMap fun r => r.Instances) report.entries := by
  refine ⟨_, ParseDescribeInstanceOutput_of_complete results h, ?_, ?_⟩
  · simp only [EC2InstanceReport.entries, Option.getD_some, List.length_map, List.length_flatMap]
    rfl
  · simp only [EC2InstanceReport.entries, Option.getD_some, List.forall₂_map_right_iff]
    apply List.forall₂_same.2
    intro i _
    simp [detailsOf]

/-- C7, amended: for provider instances that carry a state record and tags with their
key (and, for the key `Name`, their value) present, in `ParseDescribeInstanceOutput`
and in `GetInstanceDetails` alike the entry's name is `None` when no tag has the key
`Name`, and otherwise the query-escaped value of the last tag with the key `Name`. -/
theorem resolved_name_of_complete_instances (results : DescribeInstancesOutput)
    (reservation : Reservation)
    (h : ∀ r ∈ results.Reservations, ∀ i ∈ r.Instances, i.complete = true)
    (h' : ∀ i ∈ reservation.Instances, i.complete = true) :
    (∃ report, ParseDescribeInstanceOutput results = some report
      ∧ List.Forall₂
          (fun (inst : Instance) (d : EC2InstanceDetails) =>
            ((∀ t ∈ inst.Tags, t.Key ≠ some (lit "Name")) → d.Name = lit "None")
            ∧ (∀ t, lastNameTag inst.Tags = some t → d.Name = QueryEscape (t.Value.getD [])))
          (results.Reservations.flatMap fun r => r.Instances) report.entries)
    ∧ (∃ report, GetInstanceDetails reservation = some report
      ∧ List.Forall₂
          (fun (inst : Instance) (d : EC2InstanceDetails) =>
            ((∀ t ∈ inst.Tags, t.Key ≠ some (lit "Name")) → d.Name = lit "None")
            ∧ (∀ t, lastNameTag inst.Tags = some t → d.Name = QueryEscape (t.Value.getD [])))
          reservation.Instances report.entries) := by
  have key : ∀ inst : Instance,
      ((∀ t ∈ inst.Tags, t.Key ≠ some (lit "Name")) → (detailsOf inst).Name = lit "None")
      ∧ (∀ t, lastNameTag inst.Tags = some t →
          (detailsOf inst).Name = QueryEscape (t.Value.getD [])) := by
    intro inst
    constructor
    · intro hn
      simp [detailsOf, lastNameTag_eq_none _ hn]
    · intro t ht
      simp [detailsOf, ht]
  constructor
  · refine ⟨_, ParseDescribeInstanceOutput_of_complete results h, ?_⟩
    simp only [EC2InstanceReport.entries, Option.getD_some, List.forall₂_map_right_iff]
    exact List.forall₂_same.2 fun i _ => key i
  · refine ⟨_, GetInstanceDetails_of_complete reservation h', ?_⟩
    simp only [EC2InstanceReport.entries, Option.getD_some, List.forall₂_map_right_iff]
    exact List.forall₂_same.2 fun i _ => key i

/-- C8, amended: for a launch configuration with AMI id `a`, instance type `t` and a
count that `ParseInt` reads as `n` without error, a confirmed launch sends exactly
one request, a run request with image `a`, type `t` and minimum and maximum count
`n`; and when the reservation it returns holds only instances with a state record
and complete tags, the launch report that is written has one entry per instance of
the reservation, in order, each with that instance's ID. -/
theorem confirmed_launch_request_and_report (flags : Flags) (env : Env)
    (conf : GoString) (more : List GoString) (ini : IniFile) (n : Int)
    (hstart : started flags env = true)
    (h1 : flags.stopAllInstances = false) (h2 : flags.stopInstances = false)
    (h3 : flags.startAllInstances = false) (h4 : flags.startInstances = false)
    (h5 : flags.launchInstances = true)
    (hargs : env.args = conf :: more) (hexists : env.notExist conf = false)
    (hini : env.iniLoadFile conf = .ok ini)
    (hcount : ParseInt ((ini (lit "instance") (lit "count")).getD []) = (n, none))
    (hyes : env.response = lit "y") :
    (main flags env).trace.filter Event.mutating
      = [.RunInstances
          { ImageId := (ini (lit "instance") (lit "ami_id")).getD [],
            InstanceType := (ini (lit "instance") (lit "instance_type")).getD [],
            MinCount := n, MaxCount := n }]
    ∧ ∀ reservation,
        env.RunInstances
          { ImageId := (ini (lit "instance") (lit "ami_id")).getD [],
            InstanceType := (ini (lit "instance") (lit "instance_type")).getD [],
            MinCount := n, MaxCount := n } = .ok reservation →
        (∀ i ∈ reservation.Instances, i.complete = true) →
        ∃ report name, GetInstanceDetails reservation = some report
          ∧ Event.writeFile name (Marshal report) ∈ (main flags env).trace
          ∧ report.entries.map (fun d => d.InstanceID)
            = reservation.Instances.map (fun i => i.InstanceId.getD []) := by
  rw [main_of_started flags env hstart]
  have hy : ToLower (lit "y") = lit "y" := by decide
  simp only [lifecycle, h1, h2, h3, h4, h5, launchInstancesBranch, hargs, hexists, hini, hcount,
    hyes, hy, if_true, if_false, Bool.false_eq_true, CreateEC2RunInstanceParams]
  constructor
  · repeat' split
    all_goals simp [exit, panic, List.filter_append, Event.mutating, Printf, Println]
  · intro reservation hrun hcomplete
    refine ⟨_, (WriteInstanceDetailsReport env (env.now 0)
      { Instances := some (reservation.Instances.map detailsOf) } (lit "launch")).1,
      GetInstanceDetails_of_complete reservation hcomplete, ?_, ?_⟩
    · simp only [hrun, GetInstanceDetails_of_complete reservation hcomplete,
        WriteInstanceDetailsReport]
      split <;> simp [exit]
    · simp [EC2InstanceReport.entries, detailsOf]

/-! ## Instances of the claims at sample inputs -/

set_option maxRecDepth 100000 in
/-- The five operations on the sample environment, each taken to its prompt: the
operator answers `n` to stop-all, start-all and start-instances, and sends an empty
line to stop-instances and to launch. Each reads the answer, sends no request,
prints `Bye!` last and exits with status 0. -/
theorem decline_issues_no_request_witness :
    ((main stopAllFlags sampleEnv).trace.filter Event.mutating = []
      ∧ Event.scanln ∈ (main stopAllFlags sampleEnv).trace
      ∧ (main stopAllFlags sampleEnv).trace.getLast? = some (Println (lit "Bye!"))
      ∧ (main stopAllFlags sampleEnv).exitCode = 0)
    ∧ ((main stopFlags emptyLineEnv).trace.filter Event.mutating = []
      ∧ Event.scanln ∈ (main stopFlags emptyLineEnv).trace
      ∧ (main stopFlags emptyLineEnv).trace.getLast? = some (Println (lit "Bye!"))
      ∧ (main stopFlags emptyLineEnv).exitCode = 0)
    ∧ ((main startAllFlags sampleEnv).trace.filter Event.mutating = []
      ∧ Event.scanln ∈ (main startAllFlags sampleEnv).trace
      ∧ (main startAllFlags sampleEnv).trace.getLast? = some (Println (lit "Bye!"))
      ∧ (main startAllFlags sampleEnv).exitCode = 0)
    ∧ ((main startFlags sampleEnv).trace.filter Event.mutating = []
      ∧ Event.scanln ∈ (main startFlags sampleEnv).trace
      ∧ (main startFlags sampleEnv).trace.getLast? = some (Println (lit "Bye!"))
      ∧ (main startFlags sampleEnv).exitCode = 0)
    ∧ ((main launchFlags emptyLineEnv).trace.filter Event.mutating = []
      ∧ Event.scanln ∈ (main launchFlags emptyLineEnv).trace
      ∧ (main launchFlags emptyLineEnv).trace.getLast? = some (Println (lit "Bye!"))
      ∧ (main launchFlags emptyLineEnv).exitCode = 0) :=
  ⟨⟨(decline_issues_no_request stopAllFlags sampleEnv (by decide) (by decide)).1,
      (decline_issues_no_request stopAllFlags sampleEnv (by decide) (by decide)).2.1 rfl
        |>.1 rfl _ rfl (by decide)⟩,
    ⟨(decline_issues_no_request stopFlags emptyLineEnv (by decide) (by decide)).1,
      (decline_issues_no_request stopFlags emptyLineEnv (by decide) (by decide)).2.1 rfl
        |>.2.1 rfl rfl _ _ _ _ rfl rfl rfl rfl⟩,
    ⟨(decline_issues_no_request startAllFlags sampleEnv (by decide) (by decide)).1,
      (decline_issues_no_request startAllFlags sampleEnv (by decide) (by decide)).2.1 rfl
        |>.2.2.1 rfl rfl rfl _ rfl (by decide)⟩,
    ⟨(decline_issues_no_request startFlags sampleEnv (by decide) (by decide)).1,
      (decline_issues_no_request startFlags sampleEnv (by decide) (by decide)).2.1 rfl
        |>.2.2.2.1 rfl rfl rfl rfl _ _ _ _ rfl rfl rfl rfl⟩,
    ⟨(decline_issues_no_request launchFlags emptyLineEnv (by decide) (by decide)).1,
      (decline_issues_no_request launchFlags emptyLineEnv (by decide) (by decide)).2.1 rfl
        |>.2.2.2.2 rfl rfl rfl rfl rfl _ _ _ rfl rfl rfl⟩⟩

set_option maxRecDepth 100000 in
/-- C2, counterexample: the operator's line `y no` is a response other than exactly
`y` or `Y`, and so is the line ` y` with a leading blank, yet `fmt.Scanln` stores
`y` for both and stop-instances sends its request and ends with `Done!`. And with
the answer `n`, stop-instances on a report file that does not exist never gets to
the prompt: it does not print `Bye!` and exits with status 1. -/
theorem decline_needs_first_word_and_prompt :
    Scanln trailingTextEnv.stdin = lit "y" ∧ Scanln leadingBlankEnv.stdin = lit "y"
    ∧ (main stopFlags trailingTextEnv).trace.filter Event.mutating
        = [.StopInstances
            { InstanceIds := [lit "i-abc123"], DryRun := false, Force := false,
              Hibernate := false }]
    ∧ (main stopFlags trailingTextEnv).trace.getLast? = some (Println (lit "Done!"))
    ∧ (main stopFlags leadingBlankEnv).trace.filter Event.mutating
        = [.StopInstances
            { InstanceIds := [lit "i-abc123"], DryRun := false, Force := false,
              Hibernate := false }]
    ∧ Scanln missingFileEnv.stdin = lit "n"
    ∧ (main stopFlags missingFileEnv).trace
        = [Printf (lit "No instance report file found at: %s\n") [.s (lit "report.json")]]
    ∧ (main stopFlags missingFileEnv).exitCode = 1 := by
  decide

set_option maxRecDepth 100000 in
/-- A confirmed stop-instances whose request the provider refuses. -/
theorem provider_error_exit_status_witness :
    (main stopFlags deniedStopEnv).exitCode ≠ 0
      ↔ Contains (lit "UnauthorizedOperation: denied") (lit "DryRunOperation") = false :=
  (provider_error_exit_status stopFlags deniedStopEnv).1
    { InstanceIds := [lit "i-abc123"], DryRun := false, Force := false, Hibernate := false }
    (lit "UnauthorizedOperation: denied") (by decide) rfl

set_option maxRecDepth 100000 in
/-- A confirmed launch whose run request comes back with an error that carries the
dry-run signature: the request was sent, the message contains `DryRunOperation`,
and the exit status is 1. -/
theorem launch_dry_run_error_exits_one :
    Event.RunInstances { ImageId := lit "ami-1", InstanceType := lit "t3.micro",
                         MinCount := 3, MaxCount := 3 }
      ∈ (main launchFlags dryRunLaunchEnv).trace
    ∧ dryRunLaunchEnv.RunInstances { ImageId := lit "ami-1", InstanceType := lit "t3.micro",
                                     MinCount := 3, MaxCount := 3 }
      = .error (lit "DryRunOperation: Request would have succeeded, but DryRun flag is set.")
    ∧ Contains (lit "DryRunOperation: Request would have succeeded, but DryRun flag is set.")
        (lit "DryRunOperation") = true
    ∧ (main launchFlags dryRunLaunchEnv).exitCode = 1 := by
  refine ⟨by decide, rfl, by decide, by decide⟩

set_option maxRecDepth 100000 in
/-- Stop-all-instances in an account without running instances. -/
theorem empty_target_set_no_prompt_witness :
    Event.scanln ∉ (main stopAllFlags emptyAccountEnv).trace
    ∧ (main stopAllFlags emptyAccountEnv).trace.filter Event.mutating = []
    ∧ (main stopAllFlags emptyAccountEnv).trace.getLast?
        = some (Println (lit "No running instances"))
    ∧ (main stopAllFlags emptyAccountEnv).exitCode = 0 :=
  (empty_target_set_no_prompt stopAllFlags emptyAccountEnv { Instances := some [] }
    (by decide) (by decide)).1 rfl (by decide)

set_option maxRecDepth 100000 in
/-- The report file holds the one instance `i-abc123` and the operator answers `y`:
start-instances sends one bulk start for `["i-abc123"]`. -/
theorem confirmed_request_lists_report_ids_witness :
    (main startFlags yesEnv).trace.filter Event.mutating
      = [.StartInstances { InstanceIds := [lit "i-abc123"], DryRun := false }] :=
  (confirmed_request_lists_report_ids startFlags yesEnv (lit "report.json") [] sampleReportFile
      { Instances := some [{ Name := lit "None", InstanceID := lit "i-abc123",
                             InstanceType := lit "t3.micro", InstanceState := lit "stopped",
                             PrivateIP := [], PublicIP := [] }] }
      (by decide) rfl rfl rfl rfl (by rfl) rfl).2 rfl rfl rfl

/-- Three reservations, of one, zero and two instances. -/
theorem parse_output_one_entry_per_instance_witness :
    ∃ report, ParseDescribeInstanceOutput
        { Reservations := [{ Instances := [sampleInstance "i-1" "running" "web"] },
            { Instances := [] },
            { Instances := [{ sampleInstance "i-2" "stopped" "db" with PrivateIpAddress := none },
                sampleInstance "i-3" "pending" "x"] }] } = some report
      ∧ report.entries.length = ([1, 0, 2] : List Nat).sum
      ∧ List.Forall₂
          (fun (inst : Instance) (d : EC2InstanceDetails) =>
            d.InstanceID = inst.InstanceId.getD []
            ∧ d.InstanceType = inst.InstanceType.getD []
            ∧ d.InstanceState = (inst.State.bind fun st => st.Name).getD []
            ∧ d.PrivateIP = inst.PrivateIpAddress.getD []
            ∧ d.PublicIP = inst.PublicIpAddress.getD [])
          [sampleInstance "i-1" "running" "web",
            { sampleInstance "i-2" "stopped" "db" with PrivateIpAddress := none },
            sampleInstance "i-3" "pending" "x"]
          report.entries :=
  parse_output_one_entry_per_instance
    { Reservations := [{ Instances := [sampleInstance "i-1" "running" "web"] },
        { Instances := [] },
        { Instances := [{ sampleInstance "i-2" "stopped" "db" with PrivateIpAddress := none },
            sampleInstance "i-3" "pending" "x"] }] }
    (by decide)

/-- An instance without a state record (`State` is nil): `instance.State.Name` panics
and the parser returns no report. -/
theorem parse_output_panics_without_state :
    ParseDescribeInstanceOutput
      { Reservations := [{ Instances := [statelessInstance] }] } = none := by
  decide

/-- An instance with two `Name` tags around a tag without value, and an instance
without tags. -/
theorem resolved_name_of_complete_instances_witness :
    (∃ report, ParseDescribeInstanceOutput
        { Reservations := [{ Instances := [{ sampleInstance "i-1" "running" "web" with
            Tags := [{ Key := some (lit "Name"), Value := some (lit "a b") },
                     { Key := some (lit "Owner"), Value := none },
                     { Key := some (lit "Name"), Value := some (lit "web/1") }] }] }] }
          = some report
      ∧ List.Forall₂
          (fun (inst : Instance) (d : EC2InstanceDetails) =>
            ((∀ t ∈ inst.Tags, t.Key ≠ some (lit "Name")) → d.Name = lit "None")
            ∧ (∀ t, lastNameTag inst.Tags = some t → d.Name = QueryEscape (t.Value.getD [])))
          [{ sampleInstance "i-1" "running" "web" with
            Tags := [{ Key := some (lit "Name"), Value := some (lit "a b") },
                     { Key := some (lit "Owner"), Value := none },
                     { Key := some (lit "Name"), Value := some (lit "web/1") }] }]
          report.entries)
    ∧ (∃ report, GetInstanceDetails
        { Instances := [{ sampleInstance "i-2" "pending" "x" with Tags := [] }] } = some report
      ∧ List.Forall₂
          (fun (inst : Instance) (d : EC2InstanceDetails) =>
            ((∀ t ∈ inst.Tags, t.Key ≠ some (lit "Name")) → d.Name = lit "None")
            ∧ (∀ t, lastNameTag inst.Tags = some t → d.Name = QueryEscape (t.Value.getD [])))
          [{ sampleInstance "i-2" "pending" "x" with Tags := [] }]
          report.entries) :=
  resolved_name_of_complete_instances
    { Reservations := [{ Instances := [{ sampleInstance "i-1" "running" "web" with
        Tags := [{ Key := some (lit "Name"), Value := some (lit "a b") },
                 { Key := some (lit "Owner"), Value := none },
                 { Key := some (lit "Name"), Value := some (lit "web/1") }] }] }] }
    { Instances := [{ sampleInstance "i-2" "pending" "x" with Tags := [] }] }
    (by decide) (by decide)

/-- An instance whose only tag has no key: no tag of the set has the key `Name`, and
both functions panic instead of resolving the name to `None`. -/
theorem name_loop_panics_on_tag_without_key :
    (∀ t ∈ [({ Key := none, Value := some (lit "x") } : Tag)], t.Key ≠ some (lit "Name"))
    ∧ ParseDescribeInstanceOutput
        { Reservations := [{ Instances := [{ sampleInstance "i-1" "running" "web" with
            Tags := [{ Key := none, Value := some (lit "x") }] }] }] } = none
    ∧ GetInstanceDetails
        { Instances := [{ sampleInstance "i-1" "running" "web" with
            Tags := [{ Key := none, Value := some (lit "x") }] }] } = none := by
  decide

set_option maxRecDepth 100000 in
/-- The launch configuration `ami-1`, `t3.micro`, count `3`, confirmed; the provider
returns three instances. -/
theorem confirmed_launch_request_and_report_witness :
    (main launchFlags yesEnv).trace.filter Event.mutating
      = [.RunInstances { ImageId := lit "ami-1", InstanceType := lit "t3.micro",
                         MinCount := 3, MaxCount := 3 }]
    ∧ ∃ report name,
        GetInstanceDetails
          { Instances := [sampleInstance "i-a" "pending" "x", sampleInstance "i-b" "pending" "y",
              sampleInstance "i-c" "pending" "z"] } = some report
        ∧ Event.writeFile name (Marshal report) ∈ (main launchFlags yesEnv).trace
        ∧ report.entries.map (fun d => d.InstanceID) = [lit "i-a", lit "i-b", lit "i-c"] :=
  ⟨(confirmed_launch_request_and_report launchFlags yesEnv (lit "report.json") [] sampleConfig 3
      (by decide) rfl rfl rfl rfl rfl rfl rfl rfl (by decide) rfl).1,
   (confirmed_launch_request_and_report launchFlags yesEnv (lit "report.json") [] sampleConfig 3
      (by decide) rfl rfl rfl rfl rfl rfl rfl rfl (by decide) rfl).2
      { Instances := [sampleInstance "i-a" "pending" "x", sampleInstance "i-b" "pending" "y",
          sampleInstance "i-c" "pending" "z"] }
      rfl (by decide)⟩

set_option maxRecDepth 100000 in
/-- A confirmed launch whose reservation holds an instance without a state record:
no report is built, nothing is written, the process panics (status 2). -/
theorem launch_panics_without_state :
    GetInstanceDetails { Instances := [statelessInstance] } = none
    ∧ (main launchFlags statelessLaunchEnv).exitCode = 2
    ∧ (main launchFlags statelessLaunchEnv).trace.filter Event.isWriteFile = [] := by
  decide

set_option maxRecDepth 100000 in
/-- C10, at the failing input: with two running instances and the answer `y`,
stop-all-instances and start-all-instances each send their one request with the
dry-run flag set; force and hibernate are off. -/
theorem all_variants_send_dry_run :
    (main stopAllFlags yesEnv).trace.filter Event.mutating
      = [.StopInstances { InstanceIds := [lit "i-1", lit "i-2"], DryRun := true,
                          Force := false, Hibernate := false }]
    ∧ (main startAllFlags yesEnv).trace.filter Event.mutating
      = [.StartInstances { InstanceIds := [lit "i-1", lit "i-2"], DryRun := true }] := by
  decide

/-! ## Formatting: `strings.Replace`, `fmt.Sprintf`, `time` -/

theorem replaceLoop_single (o n : Nat) (s : GoString) :
    ∀ fuel, s.length ≤ fuel →
      replaceLoop [o] [n] fuel s = s.map fun b => if b = o then n else b := by
  induction s with
  | nil => intro fuel _; cases fuel <;> simp [replaceLoop]
  | cons b s ih =>
    intro fuel hf
    cases fuel with
    | zero => simp at hf
    | succ f =>
      have hf' : s.length ≤ f := by simpa using hf
      by_cases hb : b = o
      · simp [replaceLoop, HasPrefix, hb, ih f hf']
      · simp [replaceLoop, HasPrefix, hb, ih f hf']

theorem Replace_space (s : GoString) :
    Replace s (lit " ") (lit "_") = s.map fun b => if b = 32 then 95 else b := by
  have h1 : lit " " = [32] := by decide
  have h2 : lit "_" = [95] := by decide
  rw [h1, h2]
  simp [Replace, replaceLoop_single 32 95 s s.length (le_refl _)]

theorem digitsLoop_digits (fuel n : Nat) (acc : GoString)
    (h : ∀ b ∈ acc, 48 ≤ b ∧ b ≤ 57) : ∀ b ∈ digitsLoop fuel n acc, 48 ≤ b ∧ b ≤ 57 := by
  induction fuel generalizing n acc with
  | zero => simpa [digitsLoop] using h
  | succ f ih =>
    unfold digitsLoop
    split
    · intro b hb
      rcases List.mem_cons.1 hb with rfl | hb
      · omega
      · exact h b hb
    · apply ih
      intro b hb
      rcases List.mem_cons.1 hb with rfl | hb
      · omega
      · exact h b hb

theorem digitsLoop_append (fuel n : Nat) (acc : GoString) :
    digitsLoop fuel n acc = digitsLoop fuel n [] ++ acc := by
  induction fuel generalizing n acc with
  | zero => simp [digitsLoop]
  | succ f ih =>
    unfold digitsLoop
    split
    · simp
    · rw [ih _ (_ :: acc), ih _ [_]]
      simp

theorem digitsValue_snoc (l : GoString) (d : Nat) :
    digitsValue (l ++ [d]) = digitsValue l * 10 + (d - 48) := by
  simp [digitsValue]

theorem digitsValue_digitsLoop (fuel n : Nat) (h : n < fuel) :
    digitsValue (digitsLoop fuel n []) = n := by
  induction fuel generalizing n with
  | zero => omega
  | succ f ih =>
    unfold digitsLoop
    split
    · simp [digitsValue]
    · rw [digitsLoop_append, digitsValue_snoc, ih _ (by omega)]
      omega

theorem yearDay_range (abs : Int) : 0 ≤ (yearDay abs).2 ∧ (yearDay abs).2 ≤ 365 := by
  simp only [yearDay]
  omega

theorem mixed_radix_unique (n400 n100 n4 n1 m400 m100 m4 m1 : Int)
    (h1 : 0 ≤ n100) (h2 : n100 ≤ 3) (h3 : 0 ≤ n4) (h4 : n4 ≤ 24) (h5 : 0 ≤ n1) (h6 : n1 ≤ 3)
    (g1 : 0 ≤ m100) (g2 : m100 ≤ 3) (g3 : 0 ≤ m4) (g4 : m4 ≤ 24) (g5 : 0 ≤ m1) (g6 : m1 ≤ 3)
    (h : 400 * n400 + 100 * n100 + 4 * n4 + n1 + 1 = 400 * m400 + 100 * m100 + 4 * m4 + m1 + 1) :
    n400 = m400 ∧ n100 = m100 ∧ n4 = m4 ∧ n1 = m1 := by
  have e1 : n400 = m400 := by omega
  subst e1
  have e2 : n100 = m100 := by omega
  subst e2
  have e3 : n4 = m4 := by omega
  subst e3
  refine ⟨rfl, rfl, rfl, by omega⟩

theorem yearDay_decomp (abs : Int) :
    ∃ n400 n100 n4 n1 d : Int,
      0 ≤ n100 ∧ n100 ≤ 3 ∧ 0 ≤ n4 ∧ n4 ≤ 24 ∧ 0 ≤ n1 ∧ n1 ≤ 3 ∧ 0 ≤ d ∧ d ≤ 365
      ∧ (d = 365 → n1 = 3 ∧ (n4 = 24 → n100 = 3))
      ∧ abs / 86400 = 146097 * n400 + 36524 * n100 + 1461 * n4 + 365 * n1 + d
      ∧ yearDay abs = (400 * n400 + 100 * n100 + 4 * n4 + n1 + 1, d) := by
  refine ⟨_, _, _, _, _, ?_, ?_, ?_, ?_, ?_, ?_, ?_, ?_, ?_, ?_, rfl⟩ <;> omega

theorem yearDay_leap (abs : Int) (h : (yearDay abs).2 = 365) : isLeap (yearDay abs).1 = true := by
  obtain ⟨n400, n100, n4, n1, d, h1, h2, h3, h4, h5, h6, h7, h8, h9, h10, h11⟩ := yearDay_decomp abs
  rw [h11] at h ⊢
  simp only [isLeap, Bool.and_eq_true, Bool.or_eq_true, beq_iff_eq, bne_iff_ne, ne_eq]
  simp only at h
  have := h9 h
  omega

theorem yearDay_inj (a b : Int) (h : yearDay a = yearDay b) : a / 86400 = b / 86400 := by
  obtain ⟨n400, n100, n4, n1, d, h1, h2, h3, h4, h5, h6, h7, h8, h9, h10, h11⟩ := yearDay_decomp a
  obtain ⟨m400, m100, m4, m1, e, g1, g2, g3, g4, g5, g6, g7, g8, g9, g10, g11⟩ := yearDay_decomp b
  rw [h11, g11] at h
  simp only [Prod.mk.injEq] at h
  obtain ⟨e1, e2, e3, e4⟩ := mixed_radix_unique n400 n100 n4 n1 m400 m100 m4 m1 h1 h2 h3 h4 h5 h6
    g1 g2 g3 g4 g5 g6 h.1
  rw [h10, g10, e1, e2, e3, e4, h.2]

theorem absClock_range (abs : Int) :
    (absClock abs).1 < 24 ∧ (absClock abs).2.1 < 60 ∧ (absClock abs).2.2 < 60 := by
  simp only [absClock]
  omega

theorem absClock_inj (a b : Int) (h : absClock a = absClock b) : a % 86400 = b % 86400 := by
  simp only [absClock, Prod.mk.injEq] at h
  omega

set_option maxRecDepth 1000000 in
theorem monthDay_range_aux : ∀ leap : Bool, ∀ y < 366, (leap = true ∨ y < 365) →
    1 ≤ (monthDay leap y).1 ∧ (monthDay leap y).1 ≤ 12
    ∧ 1 ≤ (monthDay leap y).2 ∧ (monthDay leap y).2 ≤ 31 := by
  decide

set_option maxRecDepth 1000000 in
theorem monthDay_inverse_aux : ∀ leap : Bool, ∀ y < 366,
    daysBefore.getD ((monthDay leap y).1 - 1) 0 + (monthDay leap y).2 - 1
      + (if leap && decide ((monthDay leap y).1 > 2) then 1 else 0) = y := by
  decide

theorem monthDay_inj (leap : Bool) (a b : Nat) (ha : a < 366) (hb : b < 366)
    (h : monthDay leap a = monthDay leap b) : a = b := by
  rw [← monthDay_inverse_aux leap a ha, ← monthDay_inverse_aux leap b hb, h]

theorem absDate_range (abs : Int) :
    1 ≤ (absDate abs).2.1 ∧ (absDate abs).2.1 ≤ 12
    ∧ 1 ≤ (absDate abs).2.2 ∧ (absDate abs).2.2 ≤ 31 := by
  have hr := yearDay_range abs
  have hl := yearDay_leap abs
  simp only [absDate]
  apply monthDay_range_aux _ _ (by omega)
  by_cases h : (yearDay abs).2 = 365
  · exact Or.inl (hl h)
  · exact Or.inr (by omega)

theorem absDate_inj (a b : Int) (h : absDate a = absDate b) : a / 86400 = b / 86400 := by
  have ha := yearDay_range a
  have hb := yearDay_range b
  simp only [absDate, Prod.mk.injEq] at h
  obtain ⟨hy, hmd⟩ := h
  have hmd2 : monthDay (isLeap (yearDay a).1) (yearDay a).2.toNat
      = monthDay (isLeap (yearDay a).1) (yearDay b).2.toNat := by
    rw [hy]
    rw [hy] at hmd
    exact hmd
  have := monthDay_inj _ _ _ (by omega) (by omega) hmd2
  apply yearDay_inj
  apply Prod.ext hy
  omega

theorem abs_inj (a b : Int) (hd : absDate a = absDate b) (hc : absClock a = absClock b) :
    a = b := by
  have h1 := absDate_inj a b hd
  have h2 := absClock_inj a b hc
  omega

theorem appendInt_natCast (n width : Nat) :
    appendInt (n : Int) width = List.replicate (width - (decimal n).length) 48 ++ decimal n := by
  have : ¬ ((n : Int) < 0) := by omega
  simp [appendInt, this]

theorem appendInt_neg (x : Int) (width : Nat) (h : x < 0) :
    appendInt x width = 45 :: appendInt (x.natAbs : Int) width := by
  rw [appendInt_natCast]
  simp [appendInt, h]

theorem appendInt_nonneg (x : Int) (width : Nat) (h : 0 ≤ x) :
    appendInt x width = appendInt (x.natAbs : Int) width := by
  rw [Int.natAbs_of_nonneg h]

theorem appendInt_digits (n width : Nat) : ∀ b ∈ appendInt (n : Int) width, 48 ≤ b ∧ b ≤ 57 := by
  intro b hb
  rw [appendInt_natCast] at hb
  simp only [List.mem_append, List.mem_replicate] at hb
  rcases hb with ⟨_, rfl⟩ | hb
  · omega
  · exact digitsLoop_digits _ _ [] (by simp) b hb

theorem appendInt_no_space (x : Int) (width : Nat) : (32 : Nat) ∉ appendInt x width := by
  intro hm
  by_cases h : x < 0
  · rw [appendInt_neg x width h] at hm
    rcases List.mem_cons.1 hm with h32 | hm
    · omega
    · have := appendInt_digits _ _ 32 hm
      omega
  · rw [appendInt_nonneg x width (by omega)] at hm
    have := appendInt_digits _ _ 32 hm
    omega

theorem map_space_appendInt (x : Int) (width : Nat) :
    (appendInt x width).map (fun b => if b = 32 then 95 else b) = appendInt x width := by
  conv_rhs => rw [← List.map_id (appendInt x width)]
  apply List.map_congr_left
  intro b hb
  simp only [id]
  rw [if_neg]
  rintro rfl
  exact appendInt_no_space x width hb

theorem digitsValue_appendInt (n width : Nat) : digitsValue (appendInt (n : Int) width) = n := by
  have hz : ∀ (k : Nat) (l : GoString),
      (List.replicate k 48 ++ l).foldl (fun acc d => acc * 10 + (d - 48)) 0
        = l.foldl (fun acc d => acc * 10 + (d - 48)) 0 := by
    intro k l
    induction k with
    | zero => simp
    | succ k ih => simpa [List.replicate_succ] using ih
  rw [appendInt_natCast]
  have := digitsValue_digitsLoop (n + 1) n (by omega)
  unfold digitsValue at this ⊢
  unfold decimal
  rw [hz]
  exact this

theorem appendInt_two (v : Nat) (h : v < 100) :
    appendInt (v : Int) 2 = [48 + v / 10, 48 + v % 10] := by
  rw [appendInt_natCast]
  by_cases h10 : v < 10
  · have hd : decimal v = [48 + v] := by simp [decimal, digitsLoop, h10]
    have h1 : v / 10 = 0 := by omega
    have h2 : v % 10 = v := by omega
    simp [hd, h1, h2]
  · obtain ⟨w, rfl⟩ : ∃ w, v = w + 1 := ⟨v - 1, by omega⟩
    have hd : decimal (w + 1) = [48 + (w + 1) / 10, 48 + (w + 1) % 10] := by
      have : (w + 1) / 10 < 10 := by omega
      simp [decimal, digitsLoop, h10, this]
    simp [hd]

theorem digitsLoop_fuel (f g n : Nat) (acc : GoString) (hf : n < 10 ^ (f + 1))
    (hg : n < 10 ^ (g + 1)) : digitsLoop (f + 1) n acc = digitsLoop (g + 1) n acc := by
  induction f generalizing g n acc with
  | zero =>
    have : n < 10 := by simpa using hf
    simp [digitsLoop, this]
  | succ f ih =>
    by_cases h10 : n < 10
    · simp [digitsLoop, h10]
    · cases g with
      | zero => simp at hg; omega
      | succ g =>
        have e : ∀ (k m : Nat) (a : GoString), digitsLoop (k + 1) m a
            = if m < 10 then (48 + m) :: a else digitsLoop k (m / 10) ((48 + m % 10) :: a) :=
          fun _ _ _ => rfl
        rw [e (f + 1), e (g + 1), if_neg h10, if_neg h10]
        apply ih
        · rw [pow_succ] at hf; omega
        · rw [pow_succ] at hg; omega

theorem decimal_four (v : Nat) (h : v < 10000) : decimal v = digitsLoop 4 v [] := by
  unfold decimal
  apply digitsLoop_fuel
  · calc v < 10 ^ v := Nat.lt_pow_self (by norm_num) v
      _ ≤ 10 ^ (v + 1) := Nat.pow_le_pow_right (by norm_num) (by omega)
  · simpa using h

theorem appendInt_four (v : Nat) (h : v < 10000) :
    appendInt (v : Int) 4 = [48 + v / 1000, 48 + v / 100 % 10, 48 + v / 10 % 10, 48 + v % 10] := by
  rw [appendInt_natCast, decimal_four v h]
  have e6 : v / 10 / 10 = v / 100 := by omega
  have e7 : v / 100 / 10 = v / 1000 := by omega
  by_cases h1 : v < 10
  · have : v / 1000 = 0 ∧ v / 100 % 10 = 0 ∧ v / 10 % 10 = 0 ∧ v % 10 = v := by omega
    simp [digitsLoop, h1, this]
  · by_cases h2 : v / 10 < 10
    · have : v / 1000 = 0 ∧ v / 100 % 10 = 0 ∧ v / 10 % 10 = v / 10 := by omega
      simp [digitsLoop, h1, h2, this]
    · by_cases h3 : v / 100 < 10
      · have : v / 1000 = 0 ∧ v / 100 % 10 = v / 100 := by omega
        simp [digitsLoop, h1, h2, e6, h3, this]
      · have h4 : v / 1000 < 10 := by omega
        simp [digitsLoop, h1, h2, e6, h3, e7, h4]

theorem appendInt_ne_nil (n width : Nat) : appendInt (n : Int) width ≠ [] := by
  rw [appendInt_natCast]
  have : decimal n ≠ [] := by
    unfold decimal digitsLoop
    split
    · simp
    · rw [digitsLoop_append]
      simp
  simp [this]

theorem appendInt_inj (x y : Int) (width : Nat) (h : appendInt x width = appendInt y width) :
    x = y := by
  have key : ∀ a b : Nat, appendInt (a : Int) width = appendInt (b : Int) width → a = b := by
    intro a b hab
    have := congrArg digitsValue hab
    simpa [digitsValue_appendInt] using this
  have head : ∀ a b : Nat, appendInt (a : Int) width ≠ 45 :: appendInt (b : Int) width := by
    intro a b hab
    have hne := appendInt_ne_nil a width
    cases hl : appendInt (a : Int) width with
    | nil => exact hne hl
    | cons c l =>
      have hc := appendInt_digits a width c (by rw [hl]; simp)
      rw [hl] at hab
      simp only [List.cons.injEq] at hab
      omega
  by_cases hx : x < 0 <;> by_cases hy : y < 0
  · rw [appendInt_neg x width hx, appendInt_neg y width hy] at h
    have := key _ _ (List.cons.inj h).2
    omega
  · rw [appendInt_neg x width hx, appendInt_nonneg y width (by omega)] at h
    exact absurd h.symm (head _ _)
  · rw [appendInt_nonneg x width (by omega), appendInt_neg y width hy] at h
    exact absurd h (head _ _)
  · rw [appendInt_nonneg x width (by omega), appendInt_nonneg y width (by omega)] at h
    have := key _ _ h
    omega


theorem Sprintf_report_name (k t : GoString) :
    Sprintf (lit "%s_instance_details_%s.json") [.s k, .s t]
      = k ++ lit "_instance_details_" ++ t ++ lit ".json" := by
  have h1 : lit "%s_instance_details_%s.json"
      = [37, 115, 95, 105, 110, 115, 116, 97, 110, 99, 101, 95, 100, 101, 116, 97, 105, 108, 115,
          95, 37, 115, 46, 106, 115, 111, 110] := by decide
  have h2 : lit "_instance_details_"
      = [95, 105, 110, 115, 116, 97, 110, 99, 101, 95, 100, 101, 116, 97, 105, 108, 115, 95] := by
    decide
  have h3 : lit ".json" = [46, 106, 115, 111, 110] := by decide
  rw [h1, h2, h3]
  simp [Sprintf]

theorem reportName_eq (env : Env) (now : Time) (report : EC2InstanceReport) (k : GoString) :
    (WriteInstanceDetailsReport env now report k).1
      = k ++ lit "_instance_details_"
        ++ (appendInt (absDate now.abs).1 4 ++ [45] ++ appendInt (absDate now.abs).2.1 2 ++ [45]
          ++ appendInt (absDate now.abs).2.2 2 ++ [95] ++ appendInt (absClock now.abs).1 2
          ++ [58] ++ appendInt (absClock now.abs).2.1 2 ++ [58]
          ++ appendInt (absClock now.abs).2.2 2)
        ++ lit ".json" := by
  simp only [WriteInstanceDetailsReport, Sprintf_report_name, Replace_space, Time.Format,
    List.map_append, map_space_appendInt]
  simp

theorem timeString_two_digits (a : Int) :
    appendInt (absDate a).1 4 ++ [45] ++ appendInt (absDate a).2.1 2 ++ [45]
        ++ appendInt (absDate a).2.2 2 ++ [95] ++ appendInt (absClock a).1 2
        ++ [58] ++ appendInt (absClock a).2.1 2 ++ [58] ++ appendInt (absClock a).2.2 2
      = appendInt (absDate a).1 4
        ++ [45, 48 + (absDate a).2.1 / 10, 48 + (absDate a).2.1 % 10,
            45, 48 + (absDate a).2.2 / 10, 48 + (absDate a).2.2 % 10,
            95, 48 + (absClock a).1 / 10, 48 + (absClock a).1 % 10,
            58, 48 + (absClock a).2.1 / 10, 48 + (absClock a).2.1 % 10,
            58, 48 + (absClock a).2.2 / 10, 48 + (absClock a).2.2 % 10] := by
  obtain ⟨_, hm, _, hd⟩ := absDate_range a
  obtain ⟨hh, hmi, hs⟩ := absClock_range a
  rw [appendInt_two _ (by omega : (absDate a).2.1 < 100),
    appendInt_two _ (by omega : (absDate a).2.2 < 100),
    appendInt_two _ (by omega : (absClock a).1 < 100),
    appendInt_two _ (by omega : (absClock a).2.1 < 100),
    appendInt_two _ (by omega : (absClock a).2.2 < 100)]
  simp

theorem timeString_inj (a b : Int)
    (h : appendInt (absDate a).1 4 ++ [45] ++ appendInt (absDate a).2.1 2 ++ [45]
          ++ appendInt (absDate a).2.2 2 ++ [95] ++ appendInt (absClock a).1 2
          ++ [58] ++ appendInt (absClock a).2.1 2 ++ [58] ++ appendInt (absClock a).2.2 2
        = appendInt (absDate b).1 4 ++ [45] ++ appendInt (absDate b).2.1 2 ++ [45]
          ++ appendInt (absDate b).2.2 2 ++ [95] ++ appendInt (absClock b).1 2
          ++ [58] ++ appendInt (absClock b).2.1 2 ++ [58] ++ appendInt (absClock b).2.2 2) :
    a = b := by
  rw [timeString_two_digits a, timeString_two_digits b] at h
  have hy := List.append_inj' h (by simp)
  have hyear := appendInt_inj _ _ _ hy.1
  have hrest := hy.2
  simp only [List.cons.injEq, and_true] at hrest
  apply abs_inj
  · refine Prod.ext hyear (Prod.ext ?_ ?_)
    · show (absDate a).2.1 = (absDate b).2.1
      omega
    · show (absDate a).2.2 = (absDate b).2.2
      omega
  · refine Prod.ext ?_ (Prod.ext ?_ ?_)
    · show (absClock a).1 = (absClock b).1
      omega
    · show (absClock a).2.1 = (absClock b).2.1
      omega
    · show (absClock a).2.2 = (absClock b).2.2
      omega

theorem reportName_eq_iff (env env' : Env) (now now' : Time) (report report' : EC2InstanceReport)
    (k : GoString) :
    (WriteInstanceDetailsReport env' now' report' k).1
        = (WriteInstanceDetailsReport env now report k).1
      ↔ now'.unix + now'.offset = now.unix + now.offset := by
  constructor
  · intro heq
    rw [reportName_eq, reportName_eq] at heq
    simp only [List.append_assoc, List.append_cancel_left_eq] at heq
    have h5 : ∀ (a b : GoString), a ++ lit ".json" = b ++ lit ".json" → a = b :=
      fun a b h => List.append_cancel_right h
    have : now'.abs = now.abs := by
      apply timeString_inj
      apply h5
      simpa [List.append_assoc] using heq
    simp only [Time.abs] at this
    omega
  · intro h
    have : now'.abs = now.abs := by
      simp only [Time.abs]
      omega
    rw [reportName_eq, reportName_eq, this]

theorem HasPrefix_append (p s : GoString) : HasPrefix (p ++ s) p = true := by
  induction p with
  | nil => cases s <;> simp [HasPrefix]
  | cons a p ih => simp [HasPrefix, ih]

/-! ## The claim about `file_utils.go` -/

/-- C9, amended: the name `WriteInstanceDetailsReport` returns for the label `k` at the
clock reading `now` is `k`, then `_instance_details_`, then the local wall-clock
time of the reading (the instant shifted by the UTC offset in force) as year, month,
day, hour, minute and second in decimal, separated by `-`, `-`, `_`, `:` and `:`,
then `.json`. The month is in 1..12, the day in 1..31, the hour below 24, the minute
and the second below 60, each written on two digits; a year from 0 to 9999 is written
on four digits. The name is the same for every report and environment; it has no
space when `k` has none; for `k = "launch"` it starts with
`launch_instance_details_`. Two writes with the same label get the same name exactly
when their local wall-clock times agree to the second; so the names differ whenever
the same UTC offset is in force at both writes and the two instants are at least one
second apart. -/
theorem report_name_embeds_label_and_time (env : Env) (now : Time) (report : EC2InstanceReport)
    (k : GoString) :
    (WriteInstanceDetailsReport env now report k).1
      = k ++ lit "_instance_details_"
        ++ (appendInt (absDate now.abs).1 4 ++ [45] ++ appendInt (absDate now.abs).2.1 2 ++ [45]
          ++ appendInt (absDate now.abs).2.2 2 ++ [95] ++ appendInt (absClock now.abs).1 2
          ++ [58] ++ appendInt (absClock now.abs).2.1 2 ++ [58]
          ++ appendInt (absClock now.abs).2.2 2)
        ++ lit ".json"
    ∧ (1 ≤ (absDate now.abs).2.1 ∧ (absDate now.abs).2.1 ≤ 12
        ∧ 1 ≤ (absDate now.abs).2.2 ∧ (absDate now.abs).2.2 ≤ 31
        ∧ (absClock now.abs).1 < 24 ∧ (absClock now.abs).2.1 < 60
        ∧ (absClock now.abs).2.2 < 60)
    ∧ (WriteInstanceDetailsReport env now report k).1
        = k ++ lit "_instance_details_" ++ appendInt (absDate now.abs).1 4
          ++ [45, 48 + (absDate now.abs).2.1 / 10, 48 + (absDate now.abs).2.1 % 10,
              45, 48 + (absDate now.abs).2.2 / 10, 48 + (absDate now.abs).2.2 % 10,
              95, 48 + (absClock now.abs).1 / 10, 48 + (absClock now.abs).1 % 10,
              58, 48 + (absClock now.abs).2.1 / 10, 48 + (absClock now.abs).2.1 % 10,
              58, 48 + (absClock now.abs).2.2 / 10, 48 + (absClock now.abs).2.2 % 10]
          ++ lit ".json"
    ∧ (∀ year : Nat, (absDate now.abs).1 = year → year < 10000 →
        (WriteInstanceDetailsReport env now report k).1
          = k ++ lit "_instance_details_"
            ++ [48 + year / 1000, 48 + year / 100 % 10, 48 + year / 10 % 10, 48 + year % 10,
                45, 48 + (absDate now.abs).2.1 / 10, 48 + (absDate now.abs).2.1 % 10,
                45, 48 + (absDate now.abs).2.2 / 10, 48 + (absDate now.abs).2.2 % 10,
                95, 48 + (absClock now.abs).1 / 10, 48 + (absClock now.abs).1 % 10,
                58, 48 + (absClock now.abs).2.1 / 10, 48 + (absClock now.abs).2.1 % 10,
                58, 48 + (absClock now.abs).2.2 / 10, 48 + (absClock now.abs).2.2 % 10]
            ++ lit ".json")
    ∧ (∀ (env' : Env) (report' : EC2InstanceReport),
        (WriteInstanceDetailsReport env' now report' k).1
          = (WriteInstanceDetailsReport env now report k).1)
    ∧ (32 ∉ k → 32 ∉ (WriteInstanceDetailsReport env now report k).1)
    ∧ (k = lit "launch" →
        HasPrefix (WriteInstanceDetailsReport env now report k).1
          (lit "launch_instance_details_") = true)
    ∧ (∀ (env' : Env) (report' : EC2InstanceReport) (now' : Time),
        (WriteInstanceDetailsReport env' now' report' k).1
            = (WriteInstanceDetailsReport env now report k).1
          ↔ now'.unix + now'.offset = now.unix + now.offset)
    ∧ (∀ (env' : Env) (report' : EC2InstanceReport) (now' : Time),
        now'.offset = now.offset → now.nsec < 1000000000 → now'.nsec < 1000000000 →
        (now.UnixNano + 1000000000 ≤ now'.UnixNano
          ∨ now'.UnixNano + 1000000000 ≤ now.UnixNano) →
        (WriteInstanceDetailsReport env' now' report' k).1
          ≠ (WriteInstanceDetailsReport env now report k).1) := by
  have hform : (WriteInstanceDetailsReport env now report k).1
      = k ++ lit "_instance_details_" ++ appendInt (absDate now.abs).1 4
        ++ [45, 48 + (absDate now.abs).2.1 / 10, 48 + (absDate now.abs).2.1 % 10,
            45, 48 + (absDate now.abs).2.2 / 10, 48 + (absDate now.abs).2.2 % 10,
            95, 48 + (absClock now.abs).1 / 10, 48 + (absClock now.abs).1 % 10,
            58, 48 + (absClock now.abs).2.1 / 10, 48 + (absClock now.abs).2.1 % 10,
            58, 48 + (absClock now.abs).2.2 / 10, 48 + (absClock now.abs).2.2 % 10]
        ++ lit ".json" := by
    rw [reportName_eq, timeString_two_digits]
    simp
  refine ⟨reportName_eq env now report k, ?_, hform, ?_, ?_, ?_, ?_, ?_, ?_⟩
  · obtain ⟨h1, h2, h3, h4⟩ := absDate_range now.abs
    obtain ⟨h5, h6, h7⟩ := absClock_range now.abs
    exact ⟨h1, h2, h3, h4, h5, h6, h7⟩
  · intro year hy hlt
    rw [hform, hy, appendInt_four year hlt]
    simp
  · intro env' report'
    rw [reportName_eq, reportName_eq]
  · intro hk
    rw [reportName_eq]
    have h1 : (32 : Nat) ∉ lit "_instance_details_" := by decide
    have h2 : (32 : Nat) ∉ lit ".json" := by decide
    simp [hk, h1, h2, appendInt_no_space]
  · intro hk
    subst hk
    rw [reportName_eq]
    have : lit "launch_instance_details_" = lit "launch" ++ lit "_instance_details_" := by decide
    rw [this]
    simp only [List.append_assoc]
    rw [← List.append_assoc]
    exact HasPrefix_append _ _
  · intro env' report' now'
    exact reportName_eq_iff env env' now now' report report' k
  · intro env' report' now' hoff hn hn' hfar heq
    have := (reportName_eq_iff env env' now now' report report' k).1 heq
    simp only [Time.UnixNano] at hfar
    omega

set_option maxRecDepth 100000 in
/-- The launch report written at 07:05:00 UTC on 9 March 2024 has the name
`launch_instance_details_2024-03-09_07:05:00.json`, which starts with
`launch_instance_details_`; the report written one second later, at the same UTC
offset, gets another name. -/
theorem report_name_embeds_label_and_time_witness :
    (WriteInstanceDetailsReport sampleEnv { unix := 1709967900, nsec := 0, offset := 0 }
        { Instances := none } (lit "launch")).1
      = lit "launch_instance_details_2024-03-09_07:05:00.json"
    ∧ HasPrefix
        (WriteInstanceDetailsReport sampleEnv { unix := 1709967900, nsec := 0, offset := 0 }
          { Instances := none } (lit "launch")).1
        (lit "launch_instance_details_") = true
    ∧ (WriteInstanceDetailsReport sampleEnv { unix := 1709967901, nsec := 0, offset := 0 }
          { Instances := some [] } (lit "launch")).1
      ≠ (WriteInstanceDetailsReport sampleEnv { unix := 1709967900, nsec := 0, offset := 0 }
          { Instances := none } (lit "launch")).1 :=
  ⟨((report_name_embeds_label_and_time sampleEnv { unix := 1709967900, nsec := 0, offset := 0 }
      { Instances := none } (lit "launch")).2.2.2.1 2024 (by decide) (by decide)).trans
        (by decide),
   (report_name_embeds_label_and_time sampleEnv { unix := 1709967900, nsec := 0, offset := 0 }
      { Instances := none } (lit "launch")).2.2.2.2.2.2.1 rfl,
   (report_name_embeds_label_and_time sampleEnv { unix := 1709967900, nsec := 0, offset := 0 }
      { Instances := none } (lit "launch")).2.2.2.2.2.2.2.2
      sampleEnv { Instances := some [] } { unix := 1709967901, nsec := 0, offset := 0 }
      rfl (by decide) (by decide) (Or.inl (by decide))⟩

set_option maxRecDepth 100000 in
/-- C9, counterexample: two writes of the label `all` one hour apart, at 05:30:00 UTC
and at 06:30:00 UTC on 3 November 2024, on a machine whose local zone leaves
daylight saving time between them (UTC offset -4 h at the first, -5 h at the
second). The local wall clock reads 01:30:00 at both, and both writes get the same
name. -/
theorem report_name_repeats_when_clock_is_set_back :
    ({ unix := 1730611800, nsec := 0, offset := -14400 } : Time).UnixNano + 3600 * 1000000000
      = ({ unix := 1730615400, nsec := 0, offset := -18000 } : Time).UnixNano
    ∧ (WriteInstanceDetailsReport sampleEnv { unix := 1730611800, nsec := 0, offset := -14400 }
        { Instances := none } (lit "all")).1
      = lit "all_instance_details_2024-11-03_01:30:00.json"
    ∧ (WriteInstanceDetailsReport sampleEnv { unix := 1730615400, nsec := 0, offset := -18000 }
        { Instances := none } (lit "all")).1
      = lit "all_instance_details_2024-11-03_01:30:00.json" := by
  decide

/-! ## The JSON string encoder and decoder -/

/-- A well-formed sequence at the head of the input: the bytes `DecodeRune` consumes
are the encoding of the rune it returns, they are all outside ASCII, and what
follows them does not change the result. -/
theorem DecodeRune_valid (p0 : Nat) (rest : GoString) (h0 : ¬ p0 < 0x80)
    (hv : ¬ ((DecodeRune (p0 :: rest)).1 = RuneError ∧ (DecodeRune (p0 :: rest)).2 = 1)) :
    ∃ bytes t, p0 :: rest = bytes ++ t
      ∧ bytes.length = (DecodeRune (p0 :: rest)).2
      ∧ 2 ≤ bytes.length
      ∧ EncodeRune (DecodeRune (p0 :: rest)).1 = bytes
      ∧ (∀ q, DecodeRune (bytes ++ q) = DecodeRune (p0 :: rest))
      ∧ (∃ c u, bytes = c :: u ∧ 0x80 ≤ c) := by
  rcases DecodeRune_cases p0 rest with h | ⟨h, _⟩ | ⟨b1, t, hr, h1, h2, h3, h4, h⟩ |
      ⟨b1, b2, t, hr, h1, h2, h3, h4, h5, h6, h⟩ |
      ⟨b1, b2, b3, t, hr, h1, h2, h3, h4, h5, h6, h7, h8, h⟩
  · rw [h] at hv; simp at hv
  · exact absurd h h0
  · subst hr
    clear hv
    refine ⟨[p0, b1], t, rfl, by simp [h], by simp, ?_, ?_, ⟨p0, [b1], rfl, by omega⟩⟩
    · rw [h]
      simp only [EncodeRune]
      rw [if_neg (by omega), if_pos (by omega)]
      congr 1
      · omega
      · congr 1; omega
    · intro q
      rw [h]
      have hc : isCont b1 = true := by simp [isCont, h3, h4]
      simp [DecodeRune, h0, hc, show ¬ p0 < 194 by omega, h2]
  · subst hr
    clear hv
    refine ⟨[p0, b1, b2], t, rfl, by simp [h], by simp, ?_, ?_, ⟨p0, [b1, b2], rfl, by omega⟩⟩
    · rw [h]
      simp only [EncodeRune]
      have : ¬ (p0 % 16 * 4096 + b1 % 64 * 64 + b2 % 64 < 128) := by
        split_ifs at h3 h4 <;> omega
      rw [if_neg this]
      have : ¬ (p0 % 16 * 4096 + b1 % 64 * 64 + b2 % 64 < 2048) := by
        split_ifs at h3 h4 <;> omega
      rw [if_neg this]
      have : ¬ ((decide (1114111 < p0 % 16 * 4096 + b1 % 64 * 64 + b2 % 64) ||
          (decide (55296 ≤ p0 % 16 * 4096 + b1 % 64 * 64 + b2 % 64) &&
            decide (p0 % 16 * 4096 + b1 % 64 * 64 + b2 % 64 ≤ 57343))) = true) := by
        simp only [Bool.or_eq_true, Bool.and_eq_true, decide_eq_true_eq]
        split_ifs at h3 h4 <;> omega
      rw [if_neg this]
      have : p0 % 16 * 4096 + b1 % 64 * 64 + b2 % 64 < 65536 := by
        split_ifs at h3 h4 <;> omega
      rw [if_pos this]
      congr 1
      · split_ifs at h3 h4 <;> omega
      · congr 1
        · split_ifs at h3 h4 <;> omega
        · congr 1; split_ifs at h3 h4 <;> omega
    · intro q
      rw [h]
      have hc : isCont b2 = true := by simp [isCont, h5, h6]
      simp only [DecodeRune, List.cons_append, List.nil_append, h0, if_false,
        show ¬ p0 < 194 by omega, show ¬ p0 < 224 by omega, h2, if_true, hc, Bool.and_true,
        Bool.and_eq_true, decide_eq_true_eq]
      rw [if_pos ⟨h3, h4⟩]
  · subst hr
    clear hv
    refine ⟨[p0, b1, b2, b3], t, rfl, by simp [h], by simp, ?_, ?_,
      ⟨p0, [b1, b2, b3], rfl, by omega⟩⟩
    · rw [h]
      simp only [EncodeRune]
      have : ¬ (p0 % 8 * 262144 + b1 % 64 * 4096 + b2 % 64 * 64 + b3 % 64 < 128) := by
        split_ifs at h3 h4 <;> omega
      rw [if_neg this]
      have : ¬ (p0 % 8 * 262144 + b1 % 64 * 4096 + b2 % 64 * 64 + b3 % 64 < 2048) := by
        split_ifs at h3 h4 <;> omega
      rw [if_neg this]
      have : ¬ ((decide (1114111 < p0 % 8 * 262144 + b1 % 64 * 4096 + b2 % 64 * 64 + b3 % 64) ||
          (decide (55296 ≤ p0 % 8 * 262144 + b1 % 64 * 4096 + b2 % 64 * 64 + b3 % 64) &&
            decide (p0 % 8 * 262144 + b1 % 64 * 4096 + b2 % 64 * 64 + b3 % 64 ≤ 57343)))
          = true) := by
        simp only [Bool.or_eq_true, Bool.and_eq_true, decide_eq_true_eq]
        split_ifs at h3 h4 <;> omega
      rw [if_neg this]
      have : ¬ (p0 % 8 * 262144 + b1 % 64 * 4096 + b2 % 64 * 64 + b3 % 64 < 65536) := by
        split_ifs at h3 h4 <;> omega
      rw [if_neg this]
      congr 1
      · split_ifs at h3 h4 <;> omega
      · congr 1
        · split_ifs at h3 h4 <;> omega
        · congr 1
          · split_ifs at h3 h4 <;> omega
          · congr 1; split_ifs at h3 h4 <;> omega
    · intro q
      rw [h]
      have hc2 : isCont b2 = true := by simp [isCont, h5, h6]
      have hc3 : isCont b3 = true := by simp [isCont, h7, h8]
      simp only [DecodeRune, List.cons_append, List.nil_append, h0, if_false,
        show ¬ p0 < 194 by omega, show ¬ p0 < 224 by omega, show ¬ p0 < 240 by omega, h2,
        if_true, hc2, hc3, Bool.and_true, Bool.and_eq_true, decide_eq_true_eq]
      rw [if_pos ⟨h3, h4⟩]


theorem hexVal_hexDigit (n : Nat) (h : n < 16) : hexVal (hexDigit n) = some n := by
  unfold hexDigit hexVal
  split
  · rw [if_pos (by omega)]; congr 1; omega
  · rw [if_neg (by omega), if_pos (by omega)]; congr 1; omega

/-- The decoder reads back what the encoder writes for one ASCII byte. -/
theorem unquoteLoop_escapeByte (b : Nat) (hb : b < 0x80) (fuel : Nat) (rest acc : GoString) :
    unquoteLoop (fuel + 1) (escapeByte b ++ rest) acc = unquoteLoop fuel rest (acc ++ [b]) := by
  unfold escapeByte
  split
  · rename_i hs
    simp only [htmlSafe, Bool.and_eq_true, decide_eq_true_eq, bne_iff_ne, ne_eq] at hs
    simp only [List.cons_append, List.nil_append]
    simp only [unquoteLoop]
    rw [if_neg (by omega), if_neg (by omega), if_neg (by omega), if_pos (by omega)]
  split
  · rename_i h
    simp only [List.cons_append, List.nil_append]
    simp only [unquoteLoop, if_true, if_neg (show ¬ (92 : Nat) = 34 by decide)]
    rw [if_pos (by omega)]
  split
  · simp only [List.cons_append, List.nil_append]; simp [unquoteLoop, *]
  split
  · simp only [List.cons_append, List.nil_append]; simp [unquoteLoop, *]
  split
  · simp only [List.cons_append, List.nil_append]; simp [unquoteLoop, *]
  split
  · simp only [List.cons_append, List.nil_append]; simp [unquoteLoop, *]
  split
  · simp only [List.cons_append, List.nil_append]; simp [unquoteLoop, *]
  · have h1 := hexVal_hexDigit (b / 16) (by omega)
    have h2 := hexVal_hexDigit (b % 16) (by omega)
    have h0 : hexVal 48 = some 0 := by decide
    have hg : getu4 (92 :: 117 :: 48 :: 48 :: hexDigit (b / 16) :: hexDigit (b % 16) :: rest)
        = some b := by
      simp only [getu4, and_self, if_true, h0, h1, h2]
      congr 1
      omega
    have hsur : isSurrogate b = false := by
      simp [isSurrogate]; omega
    have henc : EncodeRune b = [b] := by simp [EncodeRune, hb]
    simp only [List.cons_append, List.nil_append]
    simp only [unquoteLoop]
    simp [hg, hsur, henc]

theorem escapeByte_length_pos (b : Nat) : 0 < (escapeByte b).length := by
  unfold escapeByte
  repeat' split
  all_goals simp

/-- The decoder reads back the string the encoder wrote, for valid UTF-8. -/
theorem unquoteLoop_appendStringLoop :
    ∀ (n : Nat) (s : GoString), s.length ≤ n → validLoop n s = true →
      ∀ (fuel : Nat) (acc rest : GoString), (appendStringLoop n s).length < fuel →
        unquoteLoop fuel (appendStringLoop n s ++ 0x22 :: rest) acc = some (acc ++ s, rest) := by
  intro n
  induction n with
  | zero =>
    intro s hs _ fuel acc rest hf
    have : s = [] := List.length_eq_zero.1 (Nat.le_zero.1 hs)
    subst this
    obtain ⟨f, rfl⟩ : ∃ f, fuel = f + 1 := ⟨fuel - 1, by omega⟩
    simp [appendStringLoop, unquoteLoop]
  | succ n ih =>
    intro s hs hv fuel acc rest hf
    obtain ⟨f, rfl⟩ : ∃ f, fuel = f + 1 := ⟨fuel - 1, by omega⟩
    cases s with
    | nil => simp [appendStringLoop, unquoteLoop]
    | cons b t =>
      have ht : t.length ≤ n := by simpa using hs
      by_cases hb : b < 0x80
      · have hd : DecodeRune (b :: t) = (b, 1) := by simp [DecodeRune, hb]
        have hv' : validLoop n t = true := by
          simp only [validLoop, hd] at hv
          rw [if_neg (by simp only [RuneError]; omega)] at hv
          simpa using hv
        have happ : appendStringLoop (n + 1) (b :: t) = escapeByte b ++ appendStringLoop n t := by
          simp [appendStringLoop, hb]
        rw [happ] at hf ⊢
        rw [List.append_assoc, unquoteLoop_escapeByte b hb]
        have hpos := escapeByte_length_pos b
        rw [ih t ht hv' f (acc ++ [b]) rest (by simp at hf; omega)]
        simp
      · have hv1 : ¬ ((DecodeRune (b :: t)).1 = RuneError ∧ (DecodeRune (b :: t)).2 = 1) := by
          intro h
          simp only [validLoop] at hv
          rw [if_pos h] at hv
          exact Bool.noConfusion hv
        have hv2 : validLoop n ((b :: t).drop (DecodeRune (b :: t)).2) = true := by
          simp only [validLoop] at hv
          rw [if_neg hv1] at hv
          exact hv
        obtain ⟨bytes, t', hsplit, hlen, hlen2, henc, hdec, ⟨c, u, hcu, hc⟩⟩ :=
          DecodeRune_valid b t hb hv1
        have hdrop : (b :: t).drop (DecodeRune (b :: t)).2 = t' := by
          rw [← hlen, hsplit, List.drop_left]
        have htake : (b :: t).take (DecodeRune (b :: t)).2 = bytes := by
          rw [← hlen, hsplit, List.take_left]
        have ht' : t'.length ≤ n := by
          have := congrArg List.length hsplit
          simp at this
          omega
        rw [hdrop] at hv2
        have hres : acc ++ bytes ++ t' = acc ++ b :: t := by
          rw [hsplit, List.append_assoc]
        by_cases hls : (DecodeRune (b :: t)).1 = 0x2028 ∨ (DecodeRune (b :: t)).1 = 0x2029
        · have happ : appendStringLoop (n + 1) (b :: t)
              = [0x5C, 117, 50, 48, 50, hexDigit ((DecodeRune (b :: t)).1 % 16)]
                ++ appendStringLoop n t' := by
            simp only [appendStringLoop, hb, if_false]
            rw [if_neg hv1, if_pos hls, hdrop]
          rw [happ] at hf ⊢
          have hg : getu4 (0x5C :: 117 :: 50 :: 48 :: 50
                :: hexDigit ((DecodeRune (b :: t)).1 % 16)
                :: (appendStringLoop n t' ++ 0x22 :: rest))
              = some (DecodeRune (b :: t)).1 := by
            rcases hls with h | h <;> rw [h] <;> simp [getu4, hexVal, hexDigit]
          have hsur : isSurrogate (DecodeRune (b :: t)).1 = false := by
            rcases hls with h | h <;> rw [h] <;> decide
          have hstep : unquoteLoop (f + 1)
              ([0x5C, 117, 50, 48, 50, hexDigit ((DecodeRune (b :: t)).1 % 16)]
                ++ appendStringLoop n t' ++ 0x22 :: rest) acc
              = unquoteLoop f (appendStringLoop n t' ++ 0x22 :: rest) (acc ++ bytes) := by
            simp only [List.cons_append, List.nil_append, List.append_assoc]
            simp only [unquoteLoop]
            simp [hg, hsur, henc]
          rw [hstep, ih t' ht' hv2 f (acc ++ bytes) rest (by simp at hf; omega), hres]
        · have happ : appendStringLoop (n + 1) (b :: t) = bytes ++ appendStringLoop n t' := by
            simp only [appendStringLoop, hb, if_false]
            rw [if_neg hv1, if_neg hls, hdrop, htake]
          rw [happ] at hf ⊢
          have hstep : unquoteLoop (f + 1) (bytes ++ appendStringLoop n t' ++ 0x22 :: rest) acc
              = unquoteLoop f (appendStringLoop n t' ++ 0x22 :: rest) (acc ++ bytes) := by
            have hd := hdec (appendStringLoop n t' ++ 0x22 :: rest)
            have hdr : List.drop (DecodeRune (b :: t)).2
                (bytes ++ (appendStringLoop n t' ++ 0x22 :: rest))
                = appendStringLoop n t' ++ 0x22 :: rest := by
              rw [← hlen, List.drop_left]
            rw [List.append_assoc]
            rw [hcu] at hd hdr ⊢
            simp only [List.cons_append] at hd hdr ⊢
            simp only [unquoteLoop]
            rw [if_neg (by omega), if_neg (by omega), if_neg (by omega), if_neg (by omega)]
            simp only [hd, hdr, henc, hcu]
          rw [hstep, ih t' ht' hv2 f (acc ++ bytes) rest (by simp at hf; omega), hres]

theorem unquote_appendString (s rest : GoString) (h : ValidString s = true) :
    unquote (appendStringLoop s.length s ++ 0x22 :: rest) = some (s, rest) := by
  unfold unquote
  rw [unquoteLoop_appendStringLoop s.length s (le_refl _) h _ [] rest (by simp)]
  simp

/-! ## The JSON parser on the encoder's output -/

theorem appendString_eq (s : GoString) :
    appendString s = 0x22 :: (appendStringLoop s.length s ++ [0x22]) := by
  simp [appendString]

theorem parseValue_string (f depth : Nat) (s rest : GoString) (h : ValidString s = true) :
    parseValue (f + 1) depth (appendString s ++ rest) = some (.string s, rest) := by
  have hu := unquote_appendString s rest h
  rw [appendString_eq]
  simp only [List.cons_append, List.append_assoc, List.singleton_append, List.nil_append]
  simp [parseValue, skipSpace, isSpace, hu]

theorem skipSpace_cons (c : Nat) (s : GoString) (h : isSpace c = false) :
    skipSpace (c :: s) = c :: s := by
  simp [skipSpace, h]

/-- One member of an object: a key the encoder wrote, the colon, a value the value
parser reads, then a comma or the closing brace. -/
theorem parseMembersWith_step (pv : GoString → Option (JSON × GoString)) (fuel : Nat)
    (key valText : GoString) (val : JSON) (c : Nat) (rest : GoString)
    (acc : List (GoString × JSON)) (hk : ValidString key = true)
    (hpv : pv (valText ++ c :: rest) = some (val, c :: rest)) (hc : isSpace c = false) :
    parseMembersWith pv (fuel + 1) (appendString key ++ 58 :: (valText ++ c :: rest)) acc
      = if c = 44 then parseMembersWith pv fuel rest (acc ++ [(key, val)])
        else if c = 0x7D then some (acc ++ [(key, val)], rest)
        else none := by
  have hu := unquote_appendString key (58 :: (valText ++ c :: rest)) hk
  rw [appendString_eq]
  simp only [List.cons_append, List.append_assoc, List.singleton_append, List.nil_append]
  rw [parseMembersWith]
  simp only [skipSpace_cons 0x22 _ (by decide), if_true, hu, skipSpace_cons 58 _ (by decide),
    hpv, skipSpace_cons c _ hc]


theorem encodeDetails_eq (d : EC2InstanceDetails) (rest : GoString) :
    encodeDetails d ++ rest
      = 0x7B :: (appendString (lit "name") ++ 58 :: (appendString d.Name ++ 44 ::
          (appendString (lit "instance_id") ++ 58 :: (appendString d.InstanceID ++ 44 ::
          (appendString (lit "instance_type") ++ 58 :: (appendString d.InstanceType ++ 44 ::
          (appendString (lit "instance_state") ++ 58 :: (appendString d.InstanceState ++ 44 ::
          (appendString (lit "private_ip") ++ 58 :: (appendString d.PrivateIP ++ 44 ::
          (appendString (lit "public_ip") ++ 58 :: (appendString d.PublicIP ++ 0x7D ::
            rest)))))))))))) := by
  have h1 : lit "\x7b\"name\":" = 0x7B :: (appendString (lit "name") ++ [58]) := by decide
  have h2 : lit ",\"instance_id\":" = 44 :: (appendString (lit "instance_id") ++ [58]) := by
    decide
  have h3 : lit ",\"instance_type\":" = 44 :: (appendString (lit "instance_type") ++ [58]) := by
    decide
  have h4 : lit ",\"instance_state\":" = 44 :: (appendString (lit "instance_state") ++ [58]) := by
    decide
  have h5 : lit ",\"private_ip\":" = 44 :: (appendString (lit "private_ip") ++ [58]) := by decide
  have h6 : lit ",\"public_ip\":" = 44 :: (appendString (lit "public_ip") ++ [58]) := by decide
  have h7 : lit "\x7d" = [0x7D] := by decide
  simp only [encodeDetails, h1, h2, h3, h4, h5, h6, h7, List.cons_append, List.append_assoc,
    List.singleton_append, List.nil_append]

/-- The parser reads the encoding of one entry back as the entry's JSON value. -/
theorem parseValue_encodeDetails (f depth : Nat) (d : EC2InstanceDetails) (rest : GoString)
    (hdepth : depth < maxNestingDepth) (h : d.validUTF8 = true) :
    parseValue (f + 2) depth (encodeDetails d ++ rest) = some (detailsTree d, rest) := by
  simp only [EC2InstanceDetails.validUTF8, Bool.and_eq_true] at h
  obtain ⟨⟨⟨⟨⟨v1, v2⟩, v3⟩, v4⟩, v5⟩, v6⟩ := h
  rw [encodeDetails_eq]
  rw [parseValue]
  rw [skipSpace_cons 0x7B _ (by decide)]
  simp only [if_true]
  rw [if_neg (by omega)]
  have hq : ∀ s r, appendString s ++ r = 0x22 :: (appendStringLoop s.length s ++ 0x22 :: r) := by
    intro s r; simp [appendString]
  rw [hq (lit "name"), skipSpace_cons 0x22 _ (by decide)]
  simp only [show ¬ ((0x22 : Nat) = 0x7D) by decide, if_false]
  rw [← hq (lit "name")]
  generalize hL : List.length (_ : GoString) = L
  obtain ⟨k, rfl⟩ : ∃ k, L = k + 6 := by
    refine ⟨L - 6, ?_⟩
    rw [← hL]
    simp [appendString]
    omega
  clear hL
  have pvs : ∀ s r, ValidString s = true →
      parseValue (f + 1) (depth + 1) (appendString s ++ r) = some (JSON.string s, r) :=
    fun s r hs => parseValue_string f (depth + 1) s r hs
  rw [parseMembersWith_step _ _ _ _ _ 44 _ _ (by decide) (pvs _ _ v1) (by decide)]
  simp only [if_true]
  rw [parseMembersWith_step _ _ _ _ _ 44 _ _ (by decide) (pvs _ _ v2) (by decide)]
  simp only [if_true]
  rw [parseMembersWith_step _ _ _ _ _ 44 _ _ (by decide) (pvs _ _ v3) (by decide)]
  simp only [if_true]
  rw [parseMembersWith_step _ _ _ _ _ 44 _ _ (by decide) (pvs _ _ v4) (by decide)]
  simp only [if_true]
  rw [parseMembersWith_step _ _ _ _ _ 44 _ _ (by decide) (pvs _ _ v5) (by decide)]
  simp only [if_true]
  rw [parseMembersWith_step _ _ _ _ _ 0x7D _ _ (by decide) (pvs _ _ v6) (by decide)]
  simp [detailsTree]

theorem encodeDetails_head (d : EC2InstanceDetails) :
    ∃ t, encodeDetails d = 0x7B :: t := by
  have := encodeDetails_eq d []
  rw [List.append_nil] at this
  exact ⟨_, this⟩

theorem encodeElems_cons (d : EC2InstanceDetails) (ds : List EC2InstanceDetails) :
    encodeElems (d :: ds)
      = encodeDetails d ++ (match ds with
          | [] => []
          | e :: es => 44 :: encodeElems (e :: es)) := by
  cases ds <;> simp [encodeElems]

/-- The parser reads the encoded elements of a non-empty slice back, in order. -/
theorem parseElementsWith_encodeElems (f depth : Nat) (hdepth : depth < maxNestingDepth)
    (ds : List EC2InstanceDetails) :
    ∀ (d : EC2InstanceDetails) (fuel : Nat) (rest : GoString) (acc : List JSON),
      ds.length < fuel → (∀ e ∈ d :: ds, e.validUTF8 = true) →
      parseElementsWith (parseValue (f + 2) depth) fuel (encodeElems (d :: ds) ++ 0x5D :: rest)
          acc
        = some (acc ++ (d :: ds).map detailsTree, rest) := by
  induction ds with
  | nil =>
    intro d fuel rest acc hf hv
    obtain ⟨k, rfl⟩ : ∃ k, fuel = k + 1 := ⟨fuel - 1, by simp at hf; omega⟩
    simp only [encodeElems]
    rw [parseElementsWith,
      parseValue_encodeDetails f depth d _ hdepth (hv d (List.mem_cons_self _ _))]
    simp [skipSpace_cons 0x5D _ (by decide)]
  | cons e es ih =>
    intro d fuel rest acc hf hv
    obtain ⟨k, rfl⟩ : ∃ k, fuel = k + 1 := ⟨fuel - 1, by simp at hf; omega⟩
    simp only [encodeElems, List.append_assoc, List.cons_append, List.nil_append]
    rw [parseElementsWith,
      parseValue_encodeDetails f depth d _ hdepth (hv d (List.mem_cons_self _ _))]
    simp only [skipSpace_cons 44 _ (by decide), if_true]
    rw [ih e k rest (acc ++ [detailsTree d]) (by simp at hf; omega)
      (fun x hx => hv x (List.mem_cons_of_mem _ hx))]
    simp

theorem encodeElems_length (l : List EC2InstanceDetails) : l.length ≤ (encodeElems l).length := by
  induction l with
  | nil => simp
  | cons d ds ih =>
    rw [encodeElems_cons]
    obtain ⟨t, ht⟩ := encodeDetails_head d
    cases ds with
    | nil => simp [ht]
    | cons e es =>
      simp only [List.length_append, List.length_cons] at ih ⊢
      omega

/-- The parser reads the encoded slice back as the slice's JSON value. -/
theorem parseValue_encodeSlice (f depth : Nat) (l : Option (List EC2InstanceDetails))
    (rest : GoString) (hdepth : depth + 1 < maxNestingDepth)
    (h : ∀ d ∈ l.getD [], d.validUTF8 = true) :
    parseValue (f + 3) depth (encodeSlice l ++ 0x7D :: rest)
      = some (sliceTree l, 0x7D :: rest) := by
  cases l with
  | none =>
    have : lit "null" = [110, 117, 108, 108] := by decide
    simp only [encodeSlice, this, sliceTree, List.cons_append, List.nil_append]
    rw [parseValue, skipSpace_cons 110 _ (by decide)]
    simp [HasPrefix, lit]
  | some l =>
    cases l with
    | nil =>
      simp only [encodeSlice, sliceTree, encodeElems, List.cons_append, List.nil_append,
        List.append_nil, List.map_nil]
      rw [parseValue, skipSpace_cons 0x5B _ (by decide)]
      have hd : ¬ maxNestingDepth ≤ depth := by omega
      simp [skipSpace_cons 0x5D _ (by decide), hd]
    | cons d ds =>
      simp only [encodeSlice, sliceTree, List.cons_append, List.nil_append, List.append_assoc]
      rw [parseValue, skipSpace_cons 0x5B _ (by decide)]
      simp only [show ¬ ((0x5B : Nat) = 0x7B) by decide, if_false, if_true]
      rw [if_neg (by omega)]
      obtain ⟨t, ht⟩ := encodeDetails_head d
      have hhead : ∃ u, encodeElems (d :: ds) ++ 0x5D :: 0x7D :: rest = 0x7B :: u := by
        rw [encodeElems_cons, ht]
        exact ⟨_, rfl⟩
      obtain ⟨u, hu⟩ := hhead
      have hlen : ds.length < (encodeElems (d :: ds) ++ 0x5D :: 0x7D :: rest).length := by
        have := encodeElems_length (d :: ds)
        simp only [List.length_append, List.length_cons] at this ⊢
        omega
      rw [hu] at hlen ⊢
      rw [skipSpace_cons 0x7B _ (by decide)]
      simp only [show ¬ ((0x7B : Nat) = 0x5D) by decide, if_false]
      rw [← hu] at hlen ⊢
      rw [parseElementsWith_encodeElems f (depth + 1) hdepth ds d _ _ [] hlen (by simpa using h)]
      simp

theorem Marshal_eq (r : EC2InstanceReport) :
    Marshal r = 0x7B :: (appendString (lit "instances") ++ 58 ::
      (encodeSlice r.Instances ++ 0x7D :: [])) := by
  have h1 : lit "\x7b\"instances\":" = 0x7B :: (appendString (lit "instances") ++ [58]) := by
    decide
  have h2 : lit "\x7d" = [0x7D] := by decide
  simp only [Marshal, h1, h2, List.cons_append, List.append_assoc, List.singleton_append,
    List.nil_append]

/-- The parser reads the encoding of a report back as its JSON value. -/
theorem parseJSON_Marshal (r : EC2InstanceReport) (h : ∀ d ∈ r.entries, d.validUTF8 = true) :
    parseJSON (Marshal r) = some (.object [(lit "instances", sliceTree r.Instances)]) := by
  unfold parseJSON
  have hlen : ∃ f, (Marshal r).length = f + 3 := by
    have h3 : 3 ≤ (Marshal r).length := by
      rw [Marshal_eq]
      simp only [List.length_cons, List.length_append, appendString]
      omega
    exact ⟨(Marshal r).length - 3, by omega⟩
  obtain ⟨f, hf⟩ := hlen
  rw [hf, Marshal_eq, parseValue, skipSpace_cons 0x7B _ (by decide)]
  simp only [if_true]
  rw [if_neg (by decide)]
  have hq : ∀ s r, appendString s ++ r = 0x22 :: (appendStringLoop s.length s ++ 0x22 :: r) := by
    intro s r; simp [appendString]
  rw [hq (lit "instances"), skipSpace_cons 0x22 _ (by decide)]
  simp only [show ¬ ((0x22 : Nat) = 0x7D) by decide, if_false]
  rw [← hq (lit "instances")]
  generalize hL : List.length (_ : GoString) = L
  obtain ⟨k, rfl⟩ : ∃ k, L = k + 1 := by
    refine ⟨L - 1, ?_⟩
    rw [← hL]
    simp [appendString]
  clear hL
  rw [parseMembersWith_step _ _ _ _ _ 0x7D _ _ (by decide)
    (parseValue_encodeSlice f 1 r.Instances [] (by decide) h) (by decide)]
  simp [skipSpace]

theorem keyMatches_self (k : GoString) : keyMatches k k = true := by
  simp [keyMatches]

theorem storeDetails_detailsTree (d : EC2InstanceDetails) :
    storeDetails EC2InstanceDetails.zero (detailsTree d) = .ok d := by
  have k12 : keyMatches (lit "instance_id") (lit "name") = false := by decide
  have k13 : keyMatches (lit "instance_type") (lit "name") = false := by decide
  have k14 : keyMatches (lit "instance_state") (lit "name") = false := by decide
  have k15 : keyMatches (lit "private_ip") (lit "name") = false := by decide
  have k16 : keyMatches (lit "public_ip") (lit "name") = false := by decide
  have k23 : keyMatches (lit "instance_type") (lit "instance_id") = false := by decide
  have k24 : keyMatches (lit "instance_state") (lit "instance_id") = false := by decide
  have k25 : keyMatches (lit "private_ip") (lit "instance_id") = false := by decide
  have k26 : keyMatches (lit "public_ip") (lit "instance_id") = false := by decide
  have k34 : keyMatches (lit "instance_state") (lit "instance_type") = false := by decide
  have k35 : keyMatches (lit "private_ip") (lit "instance_type") = false := by decide
  have k36 : keyMatches (lit "public_ip") (lit "instance_type") = false := by decide
  have k45 : keyMatches (lit "private_ip") (lit "instance_state") = false := by decide
  have k46 : keyMatches (lit "public_ip") (lit "instance_state") = false := by decide
  have k56 : keyMatches (lit "public_ip") (lit "private_ip") = false := by decide
  simp only [storeDetails, detailsTree, List.foldlM_cons, List.foldlM_nil, storeDetailsField,
    keyMatches_self, k12, k13, k14, k15, k16, k23, k24, k25, k26, k34, k35, k36, k45, k46, k56,
    if_true, if_false, Bool.false_eq_true, storeString, EC2InstanceDetails.zero]
  rfl

theorem storeElements_detailsTree (l : List EC2InstanceDetails) :
    storeElements [] (l.map detailsTree) = .ok l := by
  induction l with
  | nil => rfl
  | cons d ds ih =>
    simp only [List.map_cons, storeElements, List.headD_nil, List.tail_nil,
      storeDetails_detailsTree, ih]

theorem storeReport_tree (l : Option (List EC2InstanceDetails)) :
    storeReport ({ Instances := none }, []) (.object [(lit "instances", sliceTree l)])
      = .ok ({ Instances := l }, l.getD []) := by
  simp only [storeReport, List.foldlM_cons, List.foldlM_nil, keyMatches_self, if_true]
  cases l with
  | none => rfl
  | some l =>
    cases l with
    | nil => rfl
    | cons d ds =>
      have := storeElements_detailsTree (d :: ds)
      simp only [List.map_cons] at this
      simp only [sliceTree, List.map_cons, storeInstances, this]
      simp

/-! ## The claim about the report file -/

/-- C1, amended: for every report whose field values are valid UTF-8, decoding with
`json.Unmarshal` the bytes `WriteInstanceDetailsReport` hands to the file system
succeeds and yields the report itself: the same entries, in the same order, equal in
all six fields (and the nil slice stays nil). -/
theorem report_round_trip (env : Env) (now : Time) (reportType : GoString)
    (r : EC2InstanceReport) (h : ∀ d ∈ r.entries, d.validUTF8 = true) :
    Unmarshal (WriteInstanceDetailsReport env now r reportType).2.1 = .ok r := by
  simp only [WriteInstanceDetailsReport, Unmarshal, parseJSON_Marshal r h, storeReport_tree]

set_option maxRecDepth 100000 in
theorem report_round_trip_witness :
    Unmarshal (WriteInstanceDetailsReport sampleEnv (sampleEnv.now 0)
        { Instances := some [{ Name := lit "a\"b<c\n" ++ [0xC3, 0xA9, 0xE2, 0x80, 0xA8],
                               InstanceID := lit "i-abc123", InstanceType := lit "t3.micro",
                               InstanceState := lit "running", PrivateIP := lit "10.0.0.5",
                               PublicIP := [] },
                             EC2InstanceDetails.zero] } (lit "all")).2.1
      = .ok { Instances := some [{ Name := lit "a\"b<c\n" ++ [0xC3, 0xA9, 0xE2, 0x80, 0xA8],
                                   InstanceID := lit "i-abc123", InstanceType := lit "t3.micro",
                                   InstanceState := lit "running", PrivateIP := lit "10.0.0.5",
                                   PublicIP := [] },
                                 EC2InstanceDetails.zero] } :=
  report_round_trip sampleEnv (sampleEnv.now 0) (lit "all") _ (by decide)

set_option maxRecDepth 100000 in
/-- A report whose `instance_id` is the single byte `0xFF`, which is not valid UTF-8:
the file holds the escape of U+FFFD for it and the decoded entry carries the three
bytes of U+FFFD, not the original byte. -/
theorem invalid_utf8_not_preserved :
    Unmarshal (WriteInstanceDetailsReport sampleEnv (sampleEnv.now 0)
        { Instances := some [{ EC2InstanceDetails.zero with InstanceID := [0xFF] }] }
        (lit "all")).2.1
      = .ok { Instances := some [{ EC2InstanceDetails.zero with
                                     InstanceID := [0xEF, 0xBF, 0xBD] }] }
    ∧ ({ EC2InstanceDetails.zero with InstanceID := [0xEF, 0xBF, 0xBD] } : EC2InstanceDetails)
      ≠ { EC2InstanceDetails.zero with InstanceID := [0xFF] } := by
  constructor
  · rfl
  · decide

/-! ## The later claims about `main`: errors -/

/-- C12, amended: take an invocation that gets as far as the lifecycle operations
(no `--help`, the configuration loads, the session is created, no listing flag) and
whose operation is stop-instances or start-instances (the stop-all flag is not set,
and for start-instances neither is the stop-instances or the start-all flag). Its
exit status is 0 on success (the bulk call returns no error, or the dry-run
acknowledgment) and on operator decline. It is exactly 1 when the report argument is
missing or the report file does not exist, and, for stop-instances, when the file
cannot be read or its contents do not decode. It is 2, the status of a Go panic,
when the bulk provider call of either operation fails with an error other than the
dry-run acknowledgment. -/
theorem stop_start_instances_exit_status (flags : Flags) (env : Env)
    (hstart : started flags env = true) (hall : flags.stopAllInstances = false)
    (hop : flags.stopInstances = true
      ∨ (flags.startAllInstances = false ∧ flags.startInstances = true)) :
    (env.args = [] → (main flags env).exitCode = 1)
    ∧ ∀ path more, env.args = path :: more →
      (env.notExist path = true → (main flags env).exitCode = 1)
      ∧ (env.notExist path = false →
        (∀ e, flags.stopInstances = true → env.readFile path = .error e →
          (main flags env).exitCode = 1)
        ∧ ∀ data, env.readFile path = .ok data →
          (∀ e, flags.stopInstances = true → Unmarshal data = .error e →
            (main flags env).exitCode = 1)
          ∧ ∀ r, Unmarshal data = .ok r →
            (env.response ≠ lit "y" → env.response ≠ lit "Y" → (main flags env).exitCode = 0)
            ∧ (env.response = lit "y" ∨ env.response = lit "Y" →
              ∀ result,
                result = (if flags.stopInstances then
                    env.StopInstances
                      { InstanceIds := r.entries.map (fun d => d.InstanceID),
                        DryRun := false, Force := false, Hibernate := false }
                  else
                    env.StartInstances
                      { InstanceIds := r.entries.map (fun d => d.InstanceID),
                        DryRun := false }) →
                (result = none → (main flags env).exitCode = 0)
                ∧ ∀ e, result = some e →
                  (main flags env).exitCode
                    = if Contains e (lit "DryRunOperation") then 0 else 2)) := by
  rw [main_of_started flags env hstart]
  by_cases h1 : flags.stopInstances = true
  · simp only [lifecycle, hall, h1, if_true, Bool.false_eq_true, if_false, stopInstancesBranch]
    refine ⟨fun h0 => by simp [h0, exit], fun path more hargs => ?_⟩
    simp only [hargs]
    refine ⟨fun hn => by simp [hn, exit], fun hn => ?_⟩
    simp only [hn, Bool.false_eq_true, if_false]
    refine ⟨fun e _ he => by simp [he, exit], fun data hd => ?_⟩
    simp only [hd]
    refine ⟨fun e _ he => by simp [he, exit], fun r hr => ?_⟩
    simp only [hr, CreateEC2StopInstanceParams, foldl_append_singleton, collectTargets_fst,
      List.nil_append]
    refine ⟨fun hy hY => ?_, fun hyes result hres => ?_⟩
    · rw [if_neg (ToLower_ne_y _ hy hY)]
      rfl
    · rw [if_pos ((ToLower_eq_y _).2 hyes)]
      subst hres
      refine ⟨fun h0 => by simp [h0, exit], fun e he => ?_⟩
      simp only [he]
      by_cases hc : Contains e (lit "DryRunOperation") = true <;> simp [hc, exit, panic]
  · obtain ⟨h2, h3⟩ : flags.startAllInstances = false ∧ flags.startInstances = true :=
      hop.resolve_left h1
    simp only [lifecycle, hall, h1, h2, h3, if_true, Bool.false_eq_true, if_false,
      startInstancesBranch]
    refine ⟨fun h0 => by simp [h0, exit], fun path more hargs => ?_⟩
    simp only [hargs]
    refine ⟨fun hn => by simp [hn, exit], fun hn => ?_⟩
    simp only [hn, Bool.false_eq_true, if_false]
    refine ⟨fun e hs _ => hs.elim, fun data hd => ?_⟩
    simp only [hd]
    refine ⟨fun e hs _ => hs.elim, fun r hr => ?_⟩
    simp only [hr, CreateEC2StartInstanceParams, foldl_append_singleton, collectTargets_fst,
      List.nil_append]
    refine ⟨fun hy hY => ?_, fun hyes result hres => ?_⟩
    · rw [if_neg (ToLower_ne_y _ hy hY)]
      rfl
    · rw [if_pos ((ToLower_eq_y _).2 hyes)]
      subst hres
      refine ⟨fun h0 => by simp [h0, exit], fun e he => ?_⟩
      simp only [he]
      by_cases hc : Contains e (lit "DryRunOperation") = true <;> simp [hc, exit, panic]

set_option maxRecDepth 100000 in
/-- Every case of the amended claim at a sample input. Status 1: no report argument
(stop-instances), a report file that does not exist (start-instances), a report file
that cannot be read and one that does not hold JSON (stop-instances). Status 0: the
operator declines (start-instances), the bulk call succeeds (stop-instances), the
bulk call returns the dry-run acknowledgment (start-instances). Status 2: the
provider refuses the bulk call (stop-instances and start-instances). -/
theorem stop_start_instances_exit_status_witness :
    (main stopFlags noArgsEnv).exitCode = 1
    ∧ (main startFlags missingFileEnv).exitCode = 1
    ∧ (main stopFlags unreadableFileEnv).exitCode = 1
    ∧ (main stopFlags garbledFileEnv).exitCode = 1
    ∧ (main startFlags sampleEnv).exitCode = 0
    ∧ (main stopFlags yesEnv).exitCode = 0
    ∧ (main startFlags dryRunStartEnv).exitCode = 0
    ∧ (main stopFlags deniedStopEnv).exitCode = 2
    ∧ (main startFlags deniedStartEnv).exitCode = 2 :=
  ⟨(stop_start_instances_exit_status stopFlags noArgsEnv (by decide) rfl (Or.inl rfl)).1 rfl,
    ((stop_start_instances_exit_status startFlags missingFileEnv (by decide) rfl
      (Or.inr ⟨rfl, rfl⟩)).2 (lit "report.json") [] rfl).1 (by decide),
    (((stop_start_instances_exit_status stopFlags unreadableFileEnv (by decide) rfl
      (Or.inl rfl)).2 (lit "report.json") [] rfl).2 rfl).1 _ rfl rfl,
    ((((stop_start_instances_exit_status stopFlags garbledFileEnv (by decide) rfl
      (Or.inl rfl)).2 (lit "report.json") [] rfl).2 rfl).2 _ rfl).1 _ rfl rfl,
    (((((stop_start_instances_exit_status startFlags sampleEnv (by decide) rfl
      (Or.inr ⟨rfl, rfl⟩)).2 (lit "report.json") [] rfl).2 rfl).2 _ rfl).2 _ rfl).1
        (by decide) (by decide),
    ((((((stop_start_instances_exit_status stopFlags yesEnv (by decide) rfl
      (Or.inl rfl)).2 (lit "report.json") [] rfl).2 rfl).2 _ rfl).2 _ rfl).2
        (Or.inl (by decide)) _ rfl).1 rfl,
    (((((((stop_start_instances_exit_status startFlags dryRunStartEnv (by decide) rfl
      (Or.inr ⟨rfl, rfl⟩)).2 (lit "report.json") [] rfl).2 rfl).2 _ rfl).2 _ rfl).2
        (Or.inl (by decide)) _ rfl).2 _ rfl).trans (by decide),
    (((((((stop_start_instances_exit_status stopFlags deniedStopEnv (by decide) rfl
      (Or.inl rfl)).2 (lit "report.json") [] rfl).2 rfl).2 _ rfl).2 _ rfl).2
        (Or.inr (by decide)) _ rfl).2 _ rfl).trans (by decide),
    (((((((stop_start_instances_exit_status startFlags deniedStartEnv (by decide) rfl
      (Or.inr ⟨rfl, rfl⟩)).2 (lit "report.json") [] rfl).2 rfl).2 _ rfl).2 _ rfl).2
        (Or.inl (by decide)) _ rfl).2 _ rfl).trans (by decide)⟩

set_option maxRecDepth 100000 in
/-- C12, counterexample: a confirmed stop-instances and a confirmed start-instances
whose bulk call the provider refuses with an error that is not the dry-run
acknowledgment. Both end in the panic with that error and exit with status 2, not
1. -/
theorem resolvable_errors_exit_two :
    deniedStopEnv.StopInstances
        { InstanceIds := [lit "i-abc123"], DryRun := false, Force := false, Hibernate := false }
      = some (lit "UnauthorizedOperation: denied")
    ∧ deniedStartEnv.StartInstances { InstanceIds := [lit "i-abc123"], DryRun := false }
      = some (lit "UnauthorizedOperation: denied")
    ∧ Contains (lit "UnauthorizedOperation: denied") (lit "DryRunOperation") = false
    ∧ (main stopFlags deniedStopEnv).trace.getLast?
      = some (.panic (lit "UnauthorizedOperation: denied"))
    ∧ (main stopFlags deniedStopEnv).exitCode = 2
    ∧ (main startFlags deniedStartEnv).trace.getLast?
      = some (.panic (lit "UnauthorizedOperation: denied"))
    ∧ (main startFlags deniedStartEnv).exitCode = 2 := by
  refine ⟨rfl, rfl, by decide, by decide, by decide, by decide, by decide⟩

set_option maxRecDepth 100000 in
/-- C11, at the failing inputs: a launch configuration whose `count` is `abc`, is
empty, or is missing. `ParseInt` reports a syntax error and the value 0; the
invocation nevertheless shows `Count: 0`, reads the operator's answer, and on `y`
sends a run request with minimum and maximum count 0. -/
theorem launch_proceeds_with_count_zero :
    ParseInt (lit "abc") = (0, some .ErrSyntax)
    ∧ ParseInt [] = (0, some .ErrSyntax)
    ∧ Printf (lit "AMI Name: %s\nInstance type: %s\nCount: %d\n\n")
        [.s [], .s (lit "t3.micro"), .d 0]
      ∈ (main launchFlags (countEnv (some (lit "abc")))).trace
    ∧ Event.scanln ∈ (main launchFlags (countEnv (some (lit "abc")))).trace
    ∧ (main launchFlags (countEnv (some (lit "abc")))).trace.filter Event.mutating
      = [.RunInstances { ImageId := lit "ami-1", InstanceType := lit "t3.micro",
                         MinCount := 0, MaxCount := 0 }]
    ∧ Event.scanln ∈ (main launchFlags (countEnv (some []))).trace
    ∧ (main launchFlags (countEnv (some []))).trace.filter Event.mutating
      = [.RunInstances { ImageId := lit "ami-1", InstanceType := lit "t3.micro",
                         MinCount := 0, MaxCount := 0 }]
    ∧ Event.scanln ∈ (main launchFlags (countEnv none)).trace
    ∧ (main launchFlags (countEnv none)).trace.filter Event.mutating
      = [.RunInstances { ImageId := lit "ami-1", InstanceType := lit "t3.micro",
                         MinCount := 0, MaxCount := 0 }] := by
  decide

set_option maxRecDepth 100000 in
/-- C13, at the failing input: the enumerate-instances call returns a call-level
error together with an output without reservations. Stop-all-instances and
start-all-instances then print their no-instances message and exit with status 0,
and list-instances writes a snapshot of the empty report and exits with status 0. -/
theorem enumerate_error_is_discarded :
    (enumerateErrorEnv.DescribeInstances
        (CreateEC2InstanceFilterParams (lit "instance-state-name") [lit "running"])).2
      = some (lit "RequestError: send request failed")
    ∧ main stopAllFlags enumerateErrorEnv
      = { trace := [.DescribeInstances
                      (CreateEC2InstanceFilterParams (lit "instance-state-name") [lit "running"]),
                    Println (lit "No running instances")],
          exitCode := 0 }
    ∧ main startAllFlags enumerateErrorEnv
      = { trace := [.DescribeInstances
                      (CreateEC2InstanceFilterParams (lit "instance-state-name") [lit "stopped"]),
                    Println (lit "No stopped instances")],
          exitCode := 0 }
    ∧ (main listFlags enumerateErrorEnv).trace.filter Event.isWriteFile
      = [.writeFile (lit "all_instance_details_2024-03-09_07:05:00.json")
          (lit "\x7b\"instances\":[]\x7d")]
    ∧ (main listFlags enumerateErrorEnv).exitCode = 0 := by
  decide

end CloudControl
